import Mathlib

/-!
Shallow embedding of the eryxon-flow STEP/PMI core
(src/eryxon3d-parser/step_parser.py, src/services/eryxon3d/pmi_extractors.py,
src/services/eryxon3d/cartesian_extractor.py) and proofs about the claims of
the natural-language specification.

Modelling conventions, used throughout:
- an input file is modelled by its text content (a `String`); reading the
  file from disk is outside the embedding;
- Python numbers (`int`/`float`) are modelled by `Int` and `ℚ`; the values
  occurring in the claims are small decimal literals that IEEE-754 doubles
  handle exactly for every operation the code performs on them (parsing,
  negation, absolute value, equality of absolute values, fixed-point
  rendering), so the rational model is faithful on all inputs considered;
- Python dictionaries that the code builds with a fixed key set are modelled
  by structures; a key that is sometimes absent and never read back is
  modelled by an `Option` field (with `none` for both "key absent" and
  "key present with value None" when the code never distinguishes the two);
- Python dict objects keyed by strings keep insertion order (Python >= 3.7),
  which the association-list model reproduces;
- `list(set(xs))` enumerates a Python set, whose order is unspecified: it is
  modelled by first-occurrence deduplication; no claim depends on that order;
- unbounded Python recursion is modelled by an explicit fuel parameter; a
  distinguished out-of-fuel result models the `RecursionError` that CPython
  raises when its recursion limit (default 1000) is exceeded;
- each regular expression of the source is embedded as a dedicated scanner
  implementing the leftmost-match / greedy / ordered-alternation semantics
  of Python `re` for that pattern.
-/

namespace Eryxon

/-- Quote character (Python `'`), named to keep literals readable. -/
def qc : Char := Char.ofNat 39

/-- Backslash character. -/
def bsl : Char := Char.ofNat 92

/-- Newline character. -/
def nlc : Char := Char.ofNat 10

/-- Carriage-return character. -/
def crc : Char := Char.ofNat 13

/-- Tab character. -/
def tabc : Char := Char.ofNat 9

/-- Space character. -/
def spc : Char := Char.ofNat 32

/-- Form-feed character. -/
def ffc : Char := Char.ofNat 12

/-- Vertical-tab character. -/
def vtc : Char := Char.ofNat 11

/-- Python `\s` for ASCII text, and the character class `str.strip()` and
`str.isspace()` use on ASCII text: space, tab, newline, carriage return,
form feed, vertical tab. -/
def isPySpace (c : Char) : Bool :=
  c = spc || c = tabc || c = nlc || c = crc || c = ffc || c = vtc

/-- ASCII decimal digit, Python `\d` on ASCII text. -/
def isDigitC (c : Char) : Bool := '0' ≤ c && c ≤ '9'

/-- Character class `[A-Z_]` under `re.IGNORECASE`: ASCII letter or underscore. -/
def isTypeStart (c : Char) : Bool :=
  ('A' ≤ c && c ≤ 'Z') || ('a' ≤ c && c ≤ 'z') || c = '_'

/-- Character class `[A-Z0-9_]` under `re.IGNORECASE`. -/
def isTypeChar (c : Char) : Bool := isTypeStart c || isDigitC c

/-- ASCII upper-casing of one character, as Python `str.upper()` does on the
ASCII entity-type names this code handles. -/
def upChar (c : Char) : Char := c.toUpper

/-- ASCII upper-casing of a string (Python `str.upper()`). -/
def upStr (s : String) : String := ⟨s.data.map upChar⟩

/-- ASCII lower-casing of one character (Python `str.lower()`). -/
def lowChar (c : Char) : Char := c.toLower

/-- ASCII lower-casing of a string (Python `str.lower()`). -/
def lowStr (s : String) : String := ⟨s.data.map lowChar⟩

/-- Case-insensitive equality of two characters, as `re.IGNORECASE` compares. -/
def ciEq (a b : Char) : Bool := lowChar a = lowChar b

/-- Python `str.strip()` on a character list. -/
def stripChars (l : List Char) : List Char :=
  ((l.dropWhile isPySpace).reverse.dropWhile isPySpace).reverse

/-- Python `str.strip()`. -/
def pyStrip (s : String) : String := ⟨stripChars s.data⟩

/-- Longest prefix of `l` whose characters satisfy `p`, paired with the rest:
the maximal-munch step of a greedy character-class repetition. -/
def takeRun (p : Char → Bool) (l : List Char) : List Char × List Char :=
  (l.takeWhile p, l.dropWhile p)

/-- Whether `pat` occurs at the head of `l`, case-insensitively. -/
def ciStarts : List Char → List Char → Bool
  | [], _ => true
  | _ :: _, [] => false
  | p :: ps, c :: cs => ciEq p c && ciStarts ps cs

/-- Whether `pat` occurs somewhere in `l`, case-insensitively
(Python `pat in s.upper()` for an upper-case `pat`, or a case-insensitive
`re.search` for a literal pattern). -/
def ciContains (pat : List Char) (l : List Char) : Bool :=
  match l with
  | [] => ciStarts pat []
  | _ :: rest => ciStarts pat l || ciContains pat rest

/-- Substring occurrence test on strings, case-insensitive. -/
def ciContainsStr (pat s : String) : Bool := ciContains pat.data s.data

/-- Case-sensitive occurrence test (Python `pat in s`). -/
def csStarts : List Char → List Char → Bool
  | [], _ => true
  | _ :: _, [] => false
  | p :: ps, c :: cs => p = c && csStarts ps cs

/-- Case-sensitive substring test (Python `pat in s`). -/
def csContains (pat : List Char) (l : List Char) : Bool :=
  match l with
  | [] => csStarts pat []
  | _ :: rest => csStarts pat l || csContains pat rest

/-- Prefix test on strings (`str.startswith`); `String.startsWith` itself
does not reduce in the kernel. -/
def strStarts (pre s : String) : Bool := csStarts pre.data s.data

/-- Suffix test on strings (`str.endswith`). -/
def strEnds (suf s : String) : Bool := csStarts suf.data.reverse s.data.reverse

/-- Case-sensitive substring test on strings. -/
def csContainsStr (pat s : String) : Bool := csContains pat.data s.data

/-- Digits of a natural number, most significant first. -/
def natDigits (n : Nat) : List Char :=
  (Nat.toDigits 10 n)

/-- Decimal rendering of a natural number. -/
def natStr (n : Nat) : String := ⟨natDigits n⟩

/-!
Kernel-reducible rational arithmetic. The Batteries implementations of
`Rat.mul`, `Rat.add`, `Rat.sub`, `Rat.div` and `Rat.inv` are marked
`@[irreducible]`, which would block `decide`/`rfl` evaluation; these
equivalents are built on the normalizing constructor `mkRat` and are what
the embedding uses for Python float arithmetic.
-/

/-- Rational addition via `mkRat`. -/
def qAdd (a b : ℚ) : ℚ := mkRat (a.num * b.den + b.num * a.den) (a.den * b.den)

/-- Rational negation (`Rat.neg` is not irreducible). -/
def qNeg (a : ℚ) : ℚ := Rat.neg a

/-- Rational subtraction. -/
def qSub (a b : ℚ) : ℚ := qAdd a (qNeg b)

/-- Rational multiplication via `mkRat`. -/
def qMul (a b : ℚ) : ℚ := mkRat (a.num * b.num) (a.den * b.den)

/-- Rational reciprocal via `mkRat` (zero maps to zero, as `Rat.inv` does). -/
def qInv (a : ℚ) : ℚ := mkRat (Int.sign a.num * a.den) a.num.natAbs

/-- Rational division. -/
def qDiv (a b : ℚ) : ℚ := qMul a (qInv b)

/-- Rational strict comparison as a boolean. -/
def qLt (a b : ℚ) : Bool := Rat.blt a b

/-- Rational absolute value. -/
def qAbs (a : ℚ) : ℚ := if qLt a 0 then qNeg a else a

/-- Floor of a rational (`Int.fdiv` of the normalized fraction). -/
def ratFloor (q : ℚ) : ℤ := Int.fdiv q.num q.den

/-- The rational `10 ^ k`. -/
def qPow10 (k : Nat) : ℚ := mkRat ((10 : ℤ) ^ k) 1

/-- The rational of an integer. -/
def qOfInt (n : ℤ) : ℚ := mkRat n 1

/-- The rational of a natural number. -/
def qOfNat (n : ℕ) : ℚ := mkRat (n : ℤ) 1

/-- Parse an optional sign followed by mandatory digits, Python `int(s)` on a
stripped token without underscores (the only integer forms the embedded code
feeds it). Returns `none` where Python raises `ValueError`. -/
def pyIntParse (s : String) : Option Int :=
  let l := stripChars s.data
  let (sign, rest) :=
    match l with
    | '-' :: r => (true, r)
    | '+' :: r => (false, r)
    | r => (false, r)
  let (ds, rest2) := takeRun isDigitC rest
  if ds.isEmpty || !rest2.isEmpty then none
  else
    let n := ds.foldl (fun a c => a * 10 + (c.toNat - '0'.toNat)) 0
    some (if sign then -(n : Int) else (n : Int))

/-- Numeric value of a digit list. -/
def digitsVal (ds : List Char) : Nat :=
  ds.foldl (fun a c => a * 10 + (c.toNat - '0'.toNat)) 0

/-- Parse the fractional part `ds` as the rational `0.ds`. -/
def fracVal (ds : List Char) : ℚ :=
  mkRat (digitsVal ds : ℤ) (10 ^ ds.length)

/-- Parse a decimal floating literal: optional sign, then `digits[.digits?]`
or `.digits`, then an optional exponent. This is Python `float(s)` on the
plain decimal tokens the embedded code produces (it never feeds `float` the
exotic accepted forms `inf`, `nan` or underscore separators, and those would
be rejected here). Returns `none` where Python raises `ValueError`. -/
def pyFloatParse (s : String) : Option ℚ :=
  let l := stripChars s.data
  let (sign, r1) :=
    match l with
    | '-' :: r => (true, r)
    | '+' :: r => (false, r)
    | r => (false, r)
  let (ipart, r2) := takeRun isDigitC r1
  let (fpart, r3) :=
    match r2 with
    | '.' :: r => let (ds, r') := takeRun isDigitC r; (some ds, r')
    | r => (none, r)
  if ipart.isEmpty && (fpart.getD []).isEmpty then none
  else
    let mant : ℚ := qAdd (qOfNat (digitsVal ipart)) (fracVal (fpart.getD []))
    let expPart : Option (ℚ × List Char) :=
      match r3 with
      | c :: r =>
        if c = 'e' || c = 'E' then
          let (esign, er) :=
            match r with
            | '-' :: rr => (true, rr)
            | '+' :: rr => (false, rr)
            | rr => (false, rr)
          let (eds, er2) := takeRun isDigitC er
          if eds.isEmpty then none
          else
            let e := digitsVal eds
            some ((if esign then mkRat 1 (10 ^ e) else qPow10 e), er2)
        else some (1, r3)
      | [] => some (1, [])
    match expPart with
    | none => none
    | some (scale, rest) =>
      if rest.isEmpty then some (qMul (if sign then qNeg mant else mant) scale)
      else none

/-- Round to the nearest integer, ties to even: the rounding of Python
`format(x, ".2f")` applied to an exactly-representable value. -/
def roundHalfEven (q : ℚ) : ℤ :=
  let f := ratFloor q
  let r := qSub q (qOfInt f)
  if qLt r (mkRat 1 2) then f
  else if qLt (mkRat 1 2) r then f + 1
  else if f % 2 = 0 then f else f + 1

/-- Left-pad a digit string with zeros to width `w`. -/
def padZeros (w : Nat) (s : List Char) : List Char :=
  List.replicate (w - s.length) '0' ++ s

/-- Python `f"{x:.pf}"` fixed-point formatting of a rational with `p` decimal
places (sign, then the rounded magnitude). Faithful whenever the binary
double and the rational agree, which holds for every value formatted in the
claims. -/
def formatFixed (p : Nat) (q : ℚ) : String :=
  let neg := qLt q 0
  let m := roundHalfEven (qMul (qAbs q) (qPow10 p))
  let n := m.toNat
  let ip := n / 10 ^ p
  let fp := n % 10 ^ p
  let core :=
    if p = 0 then natStr ip
    else natStr ip ++ "." ++ ⟨padZeros p (natDigits fp)⟩
  if neg then "-" ++ core else core

/-- Decimal rendering of a rational whose denominator divides a power of ten,
used to model Python `str(float)` on the exact decimal values the code
produces there (`str(3.2) = "3.2"`, `str(5.0) = "5.0"`). Falls back to 17
fixed decimals otherwise. Only cosmetic `text` fields depend on it. -/
def pyFloatRepr (q : ℚ) : String :=
  let neg := qLt q 0
  let a := qAbs q
  let core :=
    if a.den = 1 then natStr a.num.toNat ++ ".0"
    else
      match (List.range 18).find? (fun k => (qMul a (qPow10 k)).den = 1) with
      | some k =>
        let n := (qMul a (qPow10 k)).num.toNat
        natStr (n / 10 ^ k) ++ "." ++ ⟨padZeros k (natDigits (n % 10 ^ k))⟩
      | none => formatFixed 17 a
  if neg then "-" ++ core else core

/-- A parsed STEP attribute value as the Python code represents it: `None`,
a `str` (`_parse_single_value` returns entity references, quoted-string
contents, enumeration names and unrecognized tokens all as plain strings),
an `int`, a `float`, or a nested list. -/
inductive PyVal where
  | none : PyVal
  | str (s : String) : PyVal
  | int (n : Int) : PyVal
  | float (q : ℚ) : PyVal
  | list (l : List PyVal) : PyVal

mutual

/-- Structural boolean equality on attribute values. -/
def PyVal.beq : PyVal → PyVal → Bool
  | .none, .none => true
  | .str a, .str b => a = b
  | .int a, .int b => a = b
  | .float a, .float b => a = b
  | .list a, .list b => PyVal.beqList a b
  | _, _ => false

/-- Structural boolean equality on lists of attribute values. -/
def PyVal.beqList : List PyVal → List PyVal → Bool
  | [], [] => true
  | x :: xs, y :: ys => PyVal.beq x y && PyVal.beqList xs ys
  | _, _ => false

end

mutual

/-- Structural equality decides propositional equality on `PyVal`. -/
def PyVal.beq_iff : ∀ a b : PyVal, PyVal.beq a b = true ↔ a = b
  | .none, .none => by simp [PyVal.beq]
  | .str a, .str b => by simp [PyVal.beq]
  | .int a, .int b => by simp [PyVal.beq]
  | .float a, .float b => by simp [PyVal.beq]
  | .list a, .list b => by
    have h := PyVal.beqList_iff a b
    simp [PyVal.beq, h]
  | .none, .str _ | .none, .int _ | .none, .float _ | .none, .list _
  | .str _, .none | .str _, .int _ | .str _, .float _ | .str _, .list _
  | .int _, .none | .int _, .str _ | .int _, .float _ | .int _, .list _
  | .float _, .none | .float _, .str _ | .float _, .int _ | .float _, .list _
  | .list _, .none | .list _, .str _ | .list _, .int _ | .list _, .float _ => by
    simp [PyVal.beq]

/-- List-level companion of `PyVal.beq_iff`. -/
def PyVal.beqList_iff : ∀ a b : List PyVal, PyVal.beqList a b = true ↔ a = b
  | [], [] => by simp [PyVal.beqList]
  | [], _ :: _ => by simp [PyVal.beqList]
  | _ :: _, [] => by simp [PyVal.beqList]
  | x :: xs, y :: ys => by
    have h1 := PyVal.beq_iff x y
    have h2 := PyVal.beqList_iff xs ys
    simp [PyVal.beqList, h1, h2]

end

instance : DecidableEq PyVal :=
  fun a b => decidable_of_iff _ (PyVal.beq_iff a b)

instance {ε α : Type _} [DecidableEq ε] [DecidableEq α] : DecidableEq (Except ε α) :=
  fun x y =>
    match x, y with
    | .ok a, .ok b =>
      match decEq a b with
      | isTrue h => isTrue (by rw [h])
      | isFalse h => isFalse (fun hh => h (Except.ok.inj hh))
    | .error a, .error b =>
      match decEq a b with
      | isTrue h => isTrue (by rw [h])
      | isFalse h => isFalse (fun hh => h (Except.error.inj hh))
    | .ok _, .error _ => isFalse (fun h => Except.noConfusion h)
    | .error _, .ok _ => isFalse (fun h => Except.noConfusion h)

/-- Python truthiness of an attribute value (`if attr:`). -/
def pyTruthy : PyVal → Bool
  | .none => false
  | .str s => !s.isEmpty
  | .int n => n ≠ 0
  | .float q => q ≠ 0
  | .list l => !l.isEmpty

/-!
Python `==` on attribute values: numeric values compare by value across
`int`/`float`, strings and lists structurally, `None` only to itself, and
values of unrelated kinds compare unequal.
-/

mutual

/-- Python `==` on attribute values. -/
def pyEq : PyVal → PyVal → Bool
  | .none, .none => true
  | .str a, .str b => a = b
  | .int a, .int b => a = b
  | .float a, .float b => a = b
  | .int a, .float b => qOfInt a = b
  | .float a, .int b => a = qOfInt b
  | .list a, .list b => pyEqList a b
  | _, _ => false

/-- Python `==` on lists, elementwise. -/
def pyEqList : List PyVal → List PyVal → Bool
  | [], [] => true
  | x :: xs, y :: ys => pyEq x y && pyEqList xs ys
  | _, _ => false

end

mutual

/-- Python `str(v)` of an attribute value together with its `repr` form
(list elements are rendered with `repr`, which quotes strings). -/
def pyStrPair : PyVal → String × String
  | .none => ("None", "None")
  | .str s => (s, String.singleton qc ++ s ++ String.singleton qc)
  | .int n =>
    let r := if n < 0 then "-" ++ natStr n.natAbs else natStr n.natAbs
    (r, r)
  | .float q => let r := pyFloatRepr q; (r, r)
  | .list l => let r := "[" ++ pyStrInner l ++ "]"; (r, r)

/-- The comma-joined `repr` renderings of the elements of a list value. -/
def pyStrInner : List PyVal → String
  | [] => ""
  | [x] => (pyStrPair x).2
  | x :: y :: xs => (pyStrPair x).2 ++ ", " ++ pyStrInner (y :: xs)

end

/-- Python `str(v)`. -/
def pyStrOf (v : PyVal) : String := (pyStrPair v).1

/-- Match `\s*;` at the head of `l`: the greedy whitespace run must be
followed directly by `;` (no other backtracking is possible because `;` is
not in `\s`). Returns the consumed length (semicolon included) and the rest. -/
def wsSemi (l : List Char) : Option (Nat × List Char) :=
  let (ws, r) := takeRun isPySpace l
  match r with
  | ';' :: r2 => some (ws.length + 1, r2)
  | _ => none

/-- Match `ENDSEC\s*;` (case-insensitive) at the head of `l`, returning the
rest after the semicolon. -/
def endsecAt (l : List Char) : Option (List Char) :=
  if ciStarts "ENDSEC".data l then (wsSemi (l.drop 6)).map (·.2) else none

/-- Lazy search for `ENDSEC\s*;`: the shortest prefix (the `(.*?)` group of
the DATA regex under `re.DOTALL`) before the first position where
`ENDSEC\s*;` matches. -/
def findEndsec : List Char → Option (List Char × List Char)
  | [] => Option.none
  | l@(c :: rest) =>
    match endsecAt l with
    | some r => some ([], r)
    | none => (findEndsec rest).map (fun p => (c :: p.1, p.2))

/-- Match `DATA\s*;(.*?)ENDSEC\s*;` anchored at the head of `l`, returning
the group. -/
def dataAt (l : List Char) : Option String :=
  if ciStarts "DATA".data l then
    match wsSemi (l.drop 4) with
    | some (_, r) => (findEndsec r).map (fun p => (⟨p.1⟩ : String))
    | none => Option.none
  else Option.none

/-- Leftmost-match search of `re.search(r'DATA\s*;(.*?)ENDSEC\s*;', content,
re.DOTALL | re.IGNORECASE)` in `_parse_file`: scan start positions left to
right; a start whose `DATA\s*;` has no closing `ENDSEC\s*;` fails and the
scan continues at the next position. Returns the DATA-section group text. -/
def findDataGo : List Char → Option String
  | [] => Option.none
  | l@(_ :: rest) =>
    match dataAt l with
    | some g => some g
    | none => findDataGo rest

/-- The DATA-section extraction of `_parse_file`; `none` models the
`raise ValueError("No DATA section found in STEP file")` path (the spec
calls this fatal error FormatError). -/
def findDataSection (content : String) : Option String :=
  findDataGo content.data

/-- First pass of `_normalize_step_content`: replace `\n`/`\r` by spaces
outside single-quoted strings. `prev` is the previous character of the
original text (the code checks `content[i-1] != '\\'` before toggling the
string state on a quote). -/
def normPass1 (prev : Option Char) (inStr : Bool) : List Char → List Char
  | [] => []
  | c :: rest =>
    if c = qc ∧ prev ≠ some bsl then c :: normPass1 (some c) (!inStr) rest
    else if (c = nlc ∨ c = crc) ∧ ¬inStr then spc :: normPass1 (some c) inStr rest
    else c :: normPass1 (some c) inStr rest

/-- Second pass of `_normalize_step_content`: collapse runs of space
characters outside single-quoted strings (this pass toggles on every quote,
with no escape check, and collapses only `' '`, not other whitespace). -/
def normPass2 (inStr prevSp : Bool) : List Char → List Char
  | [] => []
  | c :: rest =>
    if c = qc then c :: normPass2 (!inStr) false rest
    else if c = spc ∧ ¬inStr then
      if prevSp then normPass2 inStr true rest
      else spc :: normPass2 inStr true rest
    else c :: normPass2 inStr false rest

/-- `StepParser._normalize_step_content`. -/
def normalizeStep (s : String) : String :=
  ⟨normPass2 false false (normPass1 Option.none false s.data)⟩

/-! ## step_parser.py: entity statement recognition (`_parse_file` regex) -/

/-- Indices of `')'` in `l`, in decreasing order: the candidate stopping
points of a greedy `[^;]+`/`[^;]*` followed by `\)`, tried longest first. -/
def parenIdxsDesc (l : List Char) : List Nat :=
  ((List.range l.length).filter (fun i => l.getD i ' ' = ')')).reverse

/-- Match the first alternative `\([^;]+\)` of the entity-body group,
followed by the trailing `\s*;` of the entity pattern, at the head of `l`.
Returns the group text and the total consumed length. -/
def matchComplexBody (l : List Char) : Option (List Char × Nat) :=
  match l with
  | '(' :: m =>
    let (nonSemi, rest) := takeRun (fun c => c ≠ ';') m
    ((parenIdxsDesc nonSemi).filter (fun r => 1 ≤ r)).findSome? (fun r =>
      match wsSemi (nonSemi.drop (r+1) ++ rest) with
      | some (wl, _) => some ('(' :: nonSemi.take (r+1), 1 + (r+1) + wl)
      | none => Option.none)
  | _ => Option.none

/-- Match the second alternative `[A-Z_][A-Z0-9_]*\([^;]*\)` (with
`re.IGNORECASE`) of the entity-body group, followed by `\s*;`, at the head
of `l`. -/
def matchSimpleBody (l : List Char) : Option (List Char × Nat) :=
  match l with
  | c :: m =>
    if isTypeStart c then
      let (nm, l2) := takeRun isTypeChar m
      match l2 with
      | '(' :: m2 =>
        let (inner, rest2) := takeRun (fun ch => ch ≠ ';') m2
        (parenIdxsDesc inner).findSome? (fun r =>
          match wsSemi (inner.drop (r+1) ++ rest2) with
          | some (wl, _) =>
            some (c :: nm ++ '(' :: inner.take (r+1),
                  1 + nm.length + 1 + (r+1) + wl)
          | none => Option.none)
      | _ => Option.none
    else Option.none
  | [] => Option.none

/-- Match the whole entity pattern
`#(\d+)\s*=\s*(\([^;]+\)|[A-Z_][A-Z0-9_]*\([^;]*\))\s*;` at the head of `l`.
The two body alternatives are disjoint (the first requires `(`, the second a
letter or underscore), so ordered alternation reduces to a case split.
Returns (id digits, body group, total match length). -/
def matchEntityAt (l : List Char) : Option (String × String × Nat) :=
  match l with
  | '#' :: l1 =>
    let (ds, l2) := takeRun isDigitC l1
    if ds.isEmpty then Option.none
    else
      let (w1, l3) := takeRun isPySpace l2
      match l3 with
      | '=' :: l4 =>
        let (w2, l5) := takeRun isPySpace l4
        let alt :=
          match l5 with
          | '(' :: _ => matchComplexBody l5
          | _ => matchSimpleBody l5
        alt.map (fun p =>
          ((⟨ds⟩ : String), (⟨p.1⟩ : String),
           1 + ds.length + w1.length + 1 + w2.length + p.2))
      | _ => Option.none
  | _ => Option.none

/-- `re.finditer` for the entity pattern: repeated leftmost matching,
resuming after each match. The fuel is the remaining text length, which
bounds the number of scanning steps. Yields (id digits, body group, matched
raw text). -/
def entityMatchesGo : Nat → List Char → List (String × String × String)
  | 0, _ => []
  | _, [] => []
  | Nat.succ f, l@(_ :: rest) =>
    match matchEntityAt l with
    | some (d, b, n) => (d, b, (⟨l.take n⟩ : String)) :: entityMatchesGo f (l.drop n)
    | none => entityMatchesGo f rest

/-- All entity-statement matches of the normalized DATA section. -/
def entityMatches (l : List Char) : List (String × String × String) :=
  entityMatchesGo l.length l

/-! ## step_parser.py: `_parse_entity_body` -/

/-- Match `([A-Z_][A-Z0-9_]*)\s*\(([^)]*)\)` (with `re.IGNORECASE`) at the
head of `l`: one member of a complex entity. The greedy `[^)]*` must be
followed directly by `)`. Returns (type name, attribute group, length). -/
def matchTypeAt (l : List Char) : Option (String × String × Nat) :=
  match l with
  | c :: m =>
    if isTypeStart c then
      let (nm, l2) := takeRun isTypeChar m
      let (w, l3) := takeRun isPySpace l2
      match l3 with
      | '(' :: m2 =>
        let (attrs, r2) := takeRun (fun ch => ch ≠ ')') m2
        match r2 with
        | ')' :: _ =>
          some ((⟨c :: nm⟩ : String), (⟨attrs⟩ : String),
                1 + nm.length + w.length + 1 + attrs.length + 1)
        | _ => Option.none
      | _ => Option.none
    else Option.none
  | [] => Option.none

/-- `re.finditer` for the complex-entity member pattern. -/
def typeMatchesGo : Nat → List Char → List (String × String)
  | 0, _ => []
  | _, [] => []
  | Nat.succ f, l@(_ :: rest) =>
    match matchTypeAt l with
    | some (nm, at_, n) => (nm, at_) :: typeMatchesGo f (l.drop n)
    | none => typeMatchesGo f rest

/-- All complex-entity member matches. -/
def typeMatches (l : List Char) : List (String × String) :=
  typeMatchesGo l.length l

/-- Characters before the last `')'` of `l` (the greedy `(.*)` of the
simple-entity regex, which captures everything up to the final close
paren under `re.DOTALL`); `none` when `l` has no `')'`. -/
def lastParenSplit (l : List Char) : Option (List Char) :=
  (parenIdxsDesc l).head?.map (fun r => l.take r)

/-- The bare-type fallback `re.match(r'([A-Z_][A-Z0-9_]*)', body)` of
`_parse_entity_body`; `none` models the `raise ParseError` path. -/
def typeOnly (b : List Char) : Option (List String × String) :=
  match b with
  | c :: m =>
    if isTypeStart c then some ([(⟨c :: (takeRun isTypeChar m).1⟩ : String)], "")
    else Option.none
  | [] => Option.none

/-- `StepParser._parse_entity_body`: split an entity body into its type
names and combined attribute text. `none` models `ParseError` (the entity is
skipped by the caller). -/
def parseEntityBody (body : String) : Option (List String × String) :=
  let b := stripChars body.data
  if b.head? = some '(' ∧ ¬ csStarts "((".data b then
    let inner :=
      if b.getLast? = some ')' then stripChars ((b.drop 1).dropLast)
      else stripChars (b.drop 1)
    let tms := typeMatches inner
    let types := tms.map (·.1)
    let attrsL := (tms.map (fun t => pyStrip t.2)).filter (fun a => ¬a.isEmpty)
    some (types, String.intercalate "," attrsL)
  else
    match b with
    | c :: m =>
      if isTypeStart c then
        let (nm, l2) := takeRun isTypeChar m
        let (_, l3) := takeRun isPySpace l2
        match l3 with
        | '(' :: m2 =>
          match lastParenSplit m2 with
          | some before => some ([(⟨c :: nm⟩ : String)], (⟨before⟩ : String))
          | none => typeOnly b
        | _ => typeOnly b
      else Option.none
    | [] => Option.none

/-! ## step_parser.py: `_parse_attributes` / `_parse_single_value` -/

/-- Top-level comma split of `_parse_attributes`: commas inside parentheses
(`depth` tracked as a Python int, which may go negative) or inside strings
do not split; a quote preceded by a backslash does not toggle the string
state. Every comma-delimited piece is emitted stripped (even when empty);
a final empty piece is dropped. -/
def splitTop (prev : Option Char) (inStr : Bool) (depth : Int)
    (cur : List Char) : List Char → List (List Char)
  | [] => if (stripChars cur.reverse).isEmpty then [] else [stripChars cur.reverse]
  | c :: rest =>
    if c = qc ∧ prev ≠ some bsl then splitTop (some c) (!inStr) depth (c :: cur) rest
    else if inStr then splitTop (some c) inStr depth (c :: cur) rest
    else if c = '(' then splitTop (some c) inStr (depth + 1) (c :: cur) rest
    else if c = ')' then splitTop (some c) inStr (depth - 1) (c :: cur) rest
    else if c = ',' ∧ depth = 0 then
      stripChars cur.reverse :: splitTop (some c) inStr depth [] rest
    else splitTop (some c) inStr depth (c :: cur) rest

/-- `StepParser._parse_single_value`, parameterized by the recursive
re-entry into `_parse_attributes` for the nested-list case. Entity
references, quoted-string contents, enumeration names and unrecognized
tokens are all Python `str` values, hence all map to `PyVal.str`. A failing
`float(...)` or `int(...)` falls through to the raw token. -/
def parseSingleWith (pa : String → List PyVal) (v0 : String) : PyVal :=
  let v := pyStrip v0
  if v.isEmpty ∨ v = "$" ∨ v = "*" then PyVal.none
  else if strStarts "#" v then PyVal.str v
  else if strStarts (String.singleton qc) v ∧ strEnds (String.singleton qc) v then
    PyVal.str (⟨(v.data.drop 1).dropLast⟩ : String)
  else if strStarts "." v ∧ strEnds "." v then
    PyVal.str (⟨(v.data.drop 1).dropLast⟩ : String)
  else if strStarts "(" v ∧ strEnds ")" v then
    let inner : String := ⟨(v.data.drop 1).dropLast⟩
    if (pyStrip inner).isEmpty then PyVal.list []
    else PyVal.list (pa inner)
  else if v.data.contains '.' ∨ (lowStr v).data.contains 'e' then
    match pyFloatParse v with
    | some q => PyVal.float q
    | none => PyVal.str v
  else
    match pyIntParse v with
    | some n => PyVal.int n
    | none => PyVal.str v

/-- `StepParser._parse_attributes` with explicit fuel for the mutual
recursion with `_parse_single_value`: one fuel unit per nesting level, and
each level strips at least the two surrounding parentheses, so the call
sites' fuel of `length + 1` never runs out (the fuel-zero branch is
unreachable there). -/
def parseAttrsF : Nat → String → List PyVal
  | 0, _ => []
  | Nat.succ f, s =>
    if s.isEmpty ∨ (pyStrip s).isEmpty then []
    else (splitTop Option.none false 0 [] s.data).map
      (fun piece => parseSingleWith (parseAttrsF f) (⟨piece⟩ : String))

/-- Attribute parsing as the code calls it (fuel ample for the nesting
depth, which is at most half the string length). -/
def parseAttributes (s : String) : List PyVal :=
  parseAttrsF (s.length + 1) s

/-! ## step_parser.py: entity and document model -/

/-- `StepEntity` of step_parser.py (the `parsed_attributes` field is always
populated by `_parse_file` right after construction). -/
structure StepEntity where
  id : String
  types : List String
  attributes : String
  rawLine : String
  parsedAttributes : List PyVal
deriving DecidableEq

/-- `StepEntity.primary_type`. -/
def StepEntity.primaryType (e : StepEntity) : String :=
  e.types.headD "UNKNOWN"

/-- `StepEntity.has_type`: case-insensitive membership among the entity's
type names. -/
def StepEntity.hasType (e : StepEntity) (t : String) : Bool :=
  (e.types.map upStr).contains (upStr t)

/-- Ordered association-list lookup (Python `dict.get`). -/
def alistLookup (m : List (String × α)) (k : String) : Option α :=
  (m.find? (fun p => p.1 = k)).map (·.2)

/-- Python dict assignment `m[k] = v`: replace in place, else append
(insertion order preserved, as CPython does). -/
def alistInsert (m : List (String × α)) (k : String) (v : α) : List (String × α) :=
  match m with
  | [] => [(k, v)]
  | (k2, v2) :: rest =>
    if k2 = k then (k, v) :: rest else (k2, v2) :: alistInsert rest k v

/-- The type-index update of `_parse_file`: append `eid` to the bucket of
`k`, creating the bucket at the end on first use. -/
def alistAppendId (m : List (String × List String)) (k eid : String) :
    List (String × List String) :=
  match m with
  | [] => [(k, [eid])]
  | (k2, ids) :: rest =>
    if k2 = k then (k2, ids ++ [eid]) :: rest
    else (k2, ids) :: alistAppendId rest k eid

/-- The document store built by `StepParser._parse_file`: the id→entity map
and the case-normalized type→ids index. -/
structure StepDoc where
  entities : List (String × StepEntity)
  byType : List (String × List String)
deriving DecidableEq

/-- One iteration of the `_parse_file` entity loop: parse the body, build
the entity, store it, index its types; a `ParseError` (or any exception)
skips the statement. -/
def parseFileStep (doc : StepDoc) (m : String × String × String) : StepDoc :=
  let (digits, body, raw) := m
  let eid := "#" ++ digits
  match parseEntityBody body with
  | none => doc
  | some (types, attrs) =>
    let e : StepEntity :=
      { id := eid, types := types, attributes := attrs, rawLine := raw,
        parsedAttributes := parseAttributes attrs }
    { entities := alistInsert doc.entities eid e,
      byType := types.foldl (fun bt t => alistAppendId bt (upStr t) eid) doc.byType }

/-- Entity parsing of a DATA section (normalization, statement matching,
per-statement parsing with skip-on-error). -/
def parseDataSection (dataSec : String) : StepDoc :=
  (entityMatches (normalizeStep dataSec).data).foldl parseFileStep
    { entities := [], byType := [] }

/-- `StepParser.__init__`/`_parse_file` on the file content; `none` is the
no-DATA-section fatal error. -/
def stepParse (content : String) : Option StepDoc :=
  (findDataSection content).map parseDataSection

/-- `StepParser.get_entity` (string argument): normalize the id with or
without the leading `#`, then look it up. -/
def getEntity (doc : StepDoc) (eid : String) : Option StepEntity :=
  if eid.isEmpty then Option.none
  else
    let k := if strStarts "#" eid then eid else "#" ++ eid
    alistLookup doc.entities k

/-- `StepParser.find_entities`: ids of the case-normalized type bucket,
resolved through the entity map. (In the Python code the looked-up ids are
always present in the map, so the `filterMap` never actually drops one.) -/
def findEntities (doc : StepDoc) (t : String) : List StepEntity :=
  ((alistLookup doc.byType (upStr t)).getD []).filterMap (alistLookup doc.entities)

/-- `StepParser.get_attribute_value`: the parsed attribute at `index`, or
None when out of range. -/
def attrAt (e : StepEntity) (i : Nat) : PyVal :=
  (e.parsedAttributes.get? i).getD PyVal.none

/-- `re.findall(r'#\d+', s)` of `StepParser.extract_references`. -/
def findRefsGo : Nat → List Char → List String
  | 0, _ => []
  | _, [] => []
  | Nat.succ f, '#' :: rest =>
    let (ds, r) := takeRun isDigitC rest
    if ds.isEmpty then findRefsGo f rest
    else ("#" ++ (⟨ds⟩ : String)) :: findRefsGo f r
  | Nat.succ f, _ :: rest => findRefsGo f rest

/-- `StepParser.extract_references`: all `#digits` references of the
attribute text. -/
def extractReferences (e : StepEntity) : List String :=
  findRefsGo e.attributes.data.length e.attributes.data

/-! ## Python exceptions that the extraction layer can raise -/

/-- The uncaught-exception kinds the embedded code can produce: `TypeError`
(unhashable dict key, `float()` of a wrong type), `AttributeError` (string
method on a non-string), `ValueError` (failed `chr`), and `RecursionError`
(CPython recursion limit, modelled as fuel exhaustion). -/
inductive PyErr where
  | typeErr : PyErr
  | attrErr : PyErr
  | valueErr : PyErr
  | recursionErr : PyErr
deriving DecidableEq

/-- Python `try/except Exception` around a computation, with a default. -/
def pyCatch (x : Except PyErr α) (d : α) : α :=
  match x with
  | .ok a => a
  | .error _ => d

/-- `StepParser.get_entity` called on a parsed attribute value, as the
extractors do: a falsy value returns None before any method call, a truthy
string is looked up, and a truthy non-string raises `AttributeError` at
`entity_id.startswith('#')`. -/
def getEntityV (doc : StepDoc) (v : PyVal) : Except PyErr (Option StepEntity) :=
  if !pyTruthy v then .ok Option.none
  else
    match v with
    | .str s => .ok (getEntity doc s)
    | _ => .error .attrErr

/-- `StepParser.resolve_reference`: only a string starting with `#` resolves. -/
def resolveReference (doc : StepDoc) (v : PyVal) : Option StepEntity :=
  match v with
  | .str s => if strStarts "#" s then getEntity doc s else Option.none
  | _ => Option.none

/-! ## step_parser.py: `follow_reference` -/

/-- `StepParser.follow_reference`: raises `CircularReferenceError` when the
visited set is larger than `max_depth` or already contains the reference;
otherwise it records the reference and returns the single `get_entity`
lookup (it does not recurse). `visited` models the Python set (`[]` for the
`None` default); the updated set is returned alongside. -/
def followReference (doc : StepDoc) (refId : String)
    (visited : List String := []) (maxDepth : Nat := 50) :
    Except Unit (Option StepEntity × List String) :=
  if visited.length > maxDepth then .error ()
  else if visited.contains refId then .error ()
  else .ok (getEntity doc refId, visited ++ [refId])

/-! ## step_parser.py: `get_numeric_value_from_entity` and its regexes -/

/-- Whether `\s*` followed by one delimiter from `dset` matches at `l`
(the delimiter is not whitespace, so the greedy run cannot backtrack). -/
def wsThenDelim (dset : List Char) (l : List Char) : Bool :=
  match (takeRun isPySpace l).2 with
  | c :: _ => dset.contains c
  | [] => false

/-- Match `([-+]?\d+\.?\d*)\s*D` (`D` a delimiter from `dset`) at the head
of `l`, returning the number group. The greedy quantifiers cannot usefully
backtrack: stopping a digit run early leaves a digit where `\s*D` must
match, and dropping the optional dot leaves the dot there, so the maximal
reading is the only viable one. -/
def numGroupDelim (dset : List Char) (l : List Char) : Option (List Char) :=
  let (sign, l1) :=
    match l with
    | c :: r => if c = '-' ∨ c = '+' then ([c], r) else (([] : List Char), l)
    | [] => ([], [])
  let (ds, l2) := takeRun isDigitC l1
  if ds.isEmpty then Option.none
  else
    match l2 with
    | '.' :: l3 =>
      let (ds2, l4) := takeRun isDigitC l3
      if wsThenDelim dset l4 then some (sign ++ ds ++ '.' :: ds2) else Option.none
    | _ => if wsThenDelim dset l2 then some (sign ++ ds) else Option.none

/-- The `\s*\(\s*NUMBER\s*D` tail shared by the measure patterns. -/
def measureTail (dset : List Char) (l : List Char) : Option (List Char) :=
  match (takeRun isPySpace l).2 with
  | '(' :: l2 => numGroupDelim dset (takeRun isPySpace l2).2
  | _ => Option.none

/-- Leftmost `re.search` of an anchored matcher: try every start position
left to right. -/
def reSearchGo (p : List Char → Option α) : List Char → Option α
  | [] => p []
  | l@(_ :: rest) =>
    match p l with
    | some r => some r
    | none => reSearchGo p rest

/-- Pattern `(?:POSITIVE_)?LENGTH_MEASURE\s*\(\s*([-+]?\d+\.?\d*)\s*[,\)]`
(`re.IGNORECASE`), anchored. The optional prefix is tried first; when it is
present the bare alternative cannot also match at the same start. -/
def pat1At (l : List Char) : Option (List Char) :=
  if ciStarts "POSITIVE_LENGTH_MEASURE".data l then
    measureTail [',', ')'] (l.drop 23)
  else if ciStarts "LENGTH_MEASURE".data l then
    measureTail [',', ')'] (l.drop 14)
  else Option.none

/-- Pattern `PLANE_ANGLE_MEASURE\s*\(\s*([-+]?\d+\.?\d*)\s*[,\)]`, anchored. -/
def pat2At (l : List Char) : Option (List Char) :=
  if ciStarts "PLANE_ANGLE_MEASURE".data l then
    measureTail [',', ')'] (l.drop 19)
  else Option.none

/-- Pattern `MEASURE_WITH_UNIT\s*\([^(]*\(\s*([-+]?\d+\.?\d*)\s*\)`,
anchored. The greedy `[^(]*` must stop at the first `(`. -/
def pat3At (l : List Char) : Option (List Char) :=
  if ciStarts "MEASURE_WITH_UNIT".data l then
    match (takeRun isPySpace (l.drop 17)).2 with
    | '(' :: l2 =>
      match (takeRun (fun c => c ≠ '(') l2).2 with
      | '(' :: l4 => numGroupDelim [')'] (takeRun isPySpace l4).2
      | _ => Option.none
    | _ => Option.none
  else Option.none

/-- Fallback pattern `\(\s*([-+]?\d+\.?\d*)\s*[,\)]`, anchored. -/
def pat4At (l : List Char) : Option (List Char) :=
  match l with
  | '(' :: l1 => numGroupDelim [',', ')'] (takeRun isPySpace l1).2
  | _ => Option.none

/-- The `"35." → "35.0"` trailing-decimal fix of
`get_numeric_value_from_entity`. -/
def fixTrailingDot (g : List Char) : List Char :=
  if g.getLast? = some '.' then g ++ ['0'] else g

/-- The ordered regex fallback of `get_numeric_value_from_entity`: search
each pattern over the raw statement; a group that `float()` rejects falls
through to the next pattern. -/
def regexNumFallback (raw : String) : Option ℚ :=
  let l := raw.data
  let tryPat (p : List Char → Option (List Char)) : Option ℚ :=
    (reSearchGo p l).bind (fun g => pyFloatParse (⟨fixTrailingDot g⟩ : String))
  (tryPat pat1At).orElse fun _ =>
  (tryPat pat2At).orElse fun _ =>
  (tryPat pat3At).orElse fun _ =>
  tryPat pat4At

/-- `StepParser.get_numeric_value_from_entity` with explicit recursion fuel:
scan the decoded attributes for a number, follow entity references
recursively, scan list attributes for a direct numeric item, then fall back
to the regexes over the raw statement. There is no cycle protection: on a
reference cycle the recursion consumes all fuel and the `RecursionError` is
propagated (`.error .recursionErr`). -/
def getNumericValue (doc : StepDoc) : Nat → StepEntity → Except PyErr (Option ℚ)
  | 0, _ => .error .recursionErr
  | Nat.succ fuel, e =>
    let step : Option (Except PyErr ℚ) → PyVal → Option (Except PyErr ℚ) :=
      fun acc a =>
        match acc with
        | some r => some r
        | none =>
          match a with
          | .int n => some (.ok (n : ℚ))
          | .float q => some (.ok q)
          | .str s =>
            if strStarts "#" s then
              match getEntity doc s with
              | some e2 =>
                match getNumericValue doc fuel e2 with
                | .error err => some (.error err)
                | .ok (some v) => some (.ok v)
                | .ok Option.none => Option.none
              | Option.none => Option.none
            else Option.none
          | .list items =>
            match items.findSome? (fun it =>
                match it with
                | .int n => some ((n : ℚ))
                | .float q => some q
                | _ => Option.none) with
            | some v => some (.ok v)
            | Option.none => Option.none
          | .none => Option.none
    match e.parsedAttributes.foldl step Option.none with
    | some (.error err) => .error err
    | some (.ok v) => .ok (some v)
    | Option.none => .ok (regexNumFallback e.rawLine)

/-! ## step_parser.py: point / direction / axis-placement resolution -/

/-- Python `float(x)` applied to a decoded attribute; `none` covers both the
`ValueError` (unparsable string) and `TypeError` (None or list) that the
call sites catch. -/
def pyFloatOfVal : PyVal → Option ℚ
  | .int n => some ((n : ℚ))
  | .float q => some q
  | .str s => pyFloatParse s
  | _ => Option.none

/-- `StepParser.get_point_coordinates`. -/
def getPointCoordinates (doc : StepDoc) (v : PyVal) :
    Except PyErr (Option (ℚ × ℚ × ℚ)) := do
  match ← getEntityV doc v with
  | Option.none => return Option.none
  | some e =>
    if ¬ e.hasType "CARTESIAN_POINT" then return Option.none
    else
      match attrAt e 1 with
      | .list coords =>
        if coords.length ≥ 3 then
          match pyFloatOfVal (coords.getD 0 .none), pyFloatOfVal (coords.getD 1 .none),
                pyFloatOfVal (coords.getD 2 .none) with
          | some x, some y, some z => return some (x, y, z)
          | _, _, _ => return Option.none
        else return Option.none
      | _ => return Option.none

/-- `StepParser.get_direction_vector`. -/
def getDirectionVector (doc : StepDoc) (v : PyVal) :
    Except PyErr (Option (ℚ × ℚ × ℚ)) := do
  match ← getEntityV doc v with
  | Option.none => return Option.none
  | some e =>
    if ¬ e.hasType "DIRECTION" then return Option.none
    else
      match attrAt e 1 with
      | .list coords =>
        if coords.length ≥ 3 then
          match pyFloatOfVal (coords.getD 0 .none), pyFloatOfVal (coords.getD 1 .none),
                pyFloatOfVal (coords.getD 2 .none) with
          | some x, some y, some z => return some (x, y, z)
          | _, _, _ => return Option.none
        else return Option.none
      | _ => return Option.none

/-- The partial result dict of `StepParser.get_axis_placement` (`z_axis` and
`normal` are always set together). -/
structure Placement where
  origin : Option (List ℚ)
  zAxis : Option (List ℚ)
  normal : Option (List ℚ)
  xAxis : Option (List ℚ)
deriving DecidableEq

/-- `StepParser.get_axis_placement`: resolve the point and the two direction
references of an `AXIS2_PLACEMENT_3D`, returning what was found, or None
when the dict stayed empty. -/
def getAxisPlacement (doc : StepDoc) (v : PyVal) :
    Except PyErr (Option Placement) := do
  match ← getEntityV doc v with
  | Option.none => return Option.none
  | some e =>
    if e.hasType "AXIS2_PLACEMENT_3D" then
      let pref := attrAt e 1
      let zref := attrAt e 2
      let xref := attrAt e 3
      let origin ← (if pyTruthy pref then do
          let c ← getPointCoordinates doc pref
          pure (c.map (fun (x, y, z) => [x, y, z]))
        else pure Option.none)
      let zd ← (if pyTruthy zref then do
          let c ← getDirectionVector doc zref
          pure (c.map (fun (x, y, z) => [x, y, z]))
        else pure Option.none)
      let xd ← (if pyTruthy xref then do
          let c ← getDirectionVector doc xref
          pure (c.map (fun (x, y, z) => [x, y, z]))
        else pure Option.none)
      if origin.isNone ∧ zd.isNone ∧ xd.isNone then return Option.none
      else return some { origin := origin, zAxis := zd, normal := zd, xAxis := xd }
    else return Option.none

/-! ## step_parser.py: statistics -/

/-- `StepParser.count_entities_by_type`. -/
def countEntitiesByType (doc : StepDoc) : List (String × Nat) :=
  doc.byType.map (fun p => (p.1, p.2.length))

/-- Stable descending insertion by count: Python `sorted(..., key=lambda x:
-x[1])`, which keeps the original order among equal counts. -/
def insertByCountDesc (x : String × Nat) : List (String × Nat) → List (String × Nat)
  | [] => [x]
  | y :: ys => if y.2 < x.2 then x :: y :: ys else y :: insertByCountDesc x ys

/-- Stable sort by descending count. -/
def sortByCountDesc (l : List (String × Nat)) : List (String × Nat) :=
  l.foldl (fun acc x => insertByCountDesc x acc) []

/-- The PMI-related type names of `StepParser.get_statistics`. -/
def pmiStatTypes : List String :=
  ["DIMENSIONAL_LOCATION", "DIMENSIONAL_SIZE", "ANGULAR_LOCATION",
   "GEOMETRIC_TOLERANCE", "POSITION_TOLERANCE", "FLATNESS_TOLERANCE",
   "PERPENDICULARITY_TOLERANCE", "SURFACE_PROFILE_TOLERANCE",
   "DATUM", "DATUM_FEATURE", "DATUM_SYSTEM",
   "PLUS_MINUS_TOLERANCE", "TOLERANCE_VALUE"]

/-- The parser statistics record of `StepParser.get_statistics`. -/
structure ParserStats where
  totalEntities : Nat
  uniqueTypes : Nat
  pmiEntities : Nat
  topTypes : List (String × Nat)
deriving DecidableEq

/-- `StepParser.get_statistics`. -/
def getStatistics (doc : StepDoc) : ParserStats :=
  let typeCounts := countEntitiesByType doc
  { totalEntities := doc.entities.length,
    uniqueTypes := typeCounts.length,
    pmiEntities := (pmiStatTypes.map (fun t =>
      ((alistLookup typeCounts t).getD 0))).sum,
    topTypes := (sortByCountDesc typeCounts).take 20 }

/-! ## pmi_extractors.py: output record types (the JSON-style dicts) -/

/-- CPython's default recursion limit: the fuel of each recursive resolver
(`get_numeric_value_from_entity`, `_get_associated_geometry`,
`_resolve_datum_reference`). -/
def pyRecLimit : Nat := 1000

/-- A 3D position dict (`{'x': ..., 'y': ..., 'z': ...}`). -/
structure Pos3 where
  x : ℚ
  y : ℚ
  z : ℚ
deriving DecidableEq

/-- The origin position the extractors write at creation time. -/
def originPos : Pos3 := ⟨0, 0, 0⟩

/-- An annotation-plane dict payload (`origin` / `normal` /
`writing_direction`). -/
structure PlaneInfo where
  origin : List ℚ
  normal : List ℚ
  writingDir : List ℚ
deriving DecidableEq

/-- The default plane `{'origin': [0,0,0], 'normal': [0,0,-1],
'writing_direction': [1,0,0]}`. -/
def defaultPlane : PlaneInfo := ⟨[0, 0, 0], [0, 0, mkRat (-1) 1], [1, 0, 0]⟩

/-- A dimension tolerance dict (`type` / `upper` / `lower`). -/
structure TolSpec where
  ttype : String
  upper : Option ℚ
  lower : Option ℚ
deriving DecidableEq

/-- The ISO 286 tolerance-class dict of `_extract_tolerance_class`. -/
structure TolClassInfo where
  formVariance : PyVal
  zoneVariance : PyVal
  grade : PyVal
  text : Option String
deriving DecidableEq

/-- The target-geometry dict of `_extract_target_geometry`. -/
structure TargetGeom where
  shapeAspectRefs : List PyVal
  featureType : String
  attachmentPoints : List Pos3
deriving DecidableEq

/-- A leader-line dict (`_extract_curve_geometry` plus the `has_arrowhead`
flag added by `_extract_leader_lines`). -/
structure LeaderLine where
  ltype : String
  points : List Pos3
  startP : Pos3
  endP : Pos3
  hasArrowhead : Bool
deriving DecidableEq

/-- A dimension dict. The AP242 extractors and the AP203 graphical
extractors build dicts with slightly different key sets; keys absent from a
variant (and keys present with value None that nothing downstream
distinguishes from absence) are `none`. -/
structure DimOut where
  id : String
  dtype : String
  value : ℚ
  unit : String
  tolerance : Option TolSpec
  toleranceClass : Option TolClassInfo
  associatedGeometry : Option (List PyVal)
  targetGeometry : Option TargetGeom
  leaderLines : Option (List LeaderLine)
  annotPlane : Option PlaneInfo
  position : Option Pos3
  text : String
  source : Option String
  entityId : Option String
deriving DecidableEq

/-- A geometric-tolerance dict of `ToleranceExtractor._extract_tolerance`. -/
structure TolOut where
  id : String
  ttype : String
  value : ℚ
  unit : String
  symbol : String
  modifier : String
  zoneModifier : String
  datumRefs : List String
  associatedGeometry : List PyVal
  position : Option Pos3
  annotPlane : Option PlaneInfo
  text : String
deriving DecidableEq

/-- A datum dict of `DatumExtractor` (the label attribute is stored as
parsed, which need not be a string). -/
structure DatumOut where
  id : String
  label : PyVal
  position : Option Pos3
  associatedGeometry : List PyVal
  annotPlane : Option PlaneInfo
deriving DecidableEq

/-- A surface-finish dict (covering both the roughness and the
machining-allowance variants). -/
structure SurfOut where
  id : String
  stype : String
  roughnessType : Option String
  roughnessValue : Option ℚ
  roughnessUnit : Option String
  machiningAllowance : Option ℚ
  unit : Option String
  laySymbol : Option String
  text : String
  position : Option Pos3
  associatedGeometry : List PyVal
deriving DecidableEq

/-- A weld-symbol dict (covering the weld and welding-process variants). -/
structure WeldOut where
  id : String
  wtype : String
  weldType : String
  symbol : String
  process : Option String
  size : Option ℚ
  lengthFld : Option ℚ
  pitch : Option ℚ
  text : String
  position : Option Pos3
  associatedGeometry : List PyVal
deriving DecidableEq

/-- A graphical-PMI dict of the AP203/AP214 extractor. -/
structure GraphOut where
  id : String
  gtype : String
  text : Option String
  points : Option (List Pos3)
  position : Option Pos3
  source : Option String
  entityId : Option String
deriving DecidableEq

/-- An annotation-plane dict of `extract_annotation_planes`. -/
structure AnnotPlaneOut where
  id : String
  name : PyVal
  origin : List ℚ
  normal : List ℚ
  writingDir : List ℚ
deriving DecidableEq

/-- The `statistics` entry of the final PMI structure. -/
structure PMIStats where
  dimensionCount : Nat
  toleranceCount : Nat
  datumCount : Nat
  surfaceFinishCount : Nat
  weldCount : Nat
  isLegacyFormat : Bool
  parserStats : ParserStats
deriving DecidableEq

/-- The complete PMI data structure returned by `PMIExtractor.extract_all`
(`annotation_planes` and `statistics` are added along the way, so they are
optional fields). -/
structure PMIRes where
  version : String
  source : String
  schema : String
  dimensions : List DimOut
  geometricTolerances : List TolOut
  datums : List DatumOut
  surfaceFinishes : List SurfOut
  weldSymbols : List WeldOut
  notes : List PyVal
  graphicalPMI : List GraphOut
  annotPlanes : Option (List AnnotPlaneOut)
  statistics : Option PMIStats
deriving DecidableEq

/-! ## pmi_extractors.py: DimensionExtractor -/

/-- `list(set(xs))` on attribute values: raises `TypeError` when an element
is unhashable (a list); otherwise deduplicates (first occurrence kept; the
Python enumeration order is unspecified, and no claim depends on it). -/
def pySetDedup (l : List PyVal) : Except PyErr (List PyVal) :=
  if l.any (fun v => match v with | .list _ => true | _ => false) then .error .typeErr
  else pure (l.foldl (fun acc v => if acc.any (fun w => pyEq w v) then acc else acc ++ [v]) [])

/-- `DimensionExtractor._get_associated_geometry`: geometry references via
`GEOMETRIC_ITEM_SPECIFIC_USAGE`, plus a recursive hop through
`SHAPE_ASPECT_RELATIONSHIP`, deduplicated through a Python set. -/
def dimAssociatedGeometry (doc : StepDoc) : Nat → PyVal → Except PyErr (List PyVal)
  | 0, _ => .error .recursionErr
  | Nat.succ fuel, shapeRef =>
    match shapeRef with
    | .str s =>
      if s.isEmpty then pure []
      else do
        let base := (findEntities doc "GEOMETRIC_ITEM_SPECIFIC_USAGE").foldl
          (fun acc g =>
            let gs := attrAt g 2
            let ge := attrAt g 4
            if pyEq gs shapeRef ∧ pyTruthy ge then acc ++ [ge] else acc) []
        let refs ← (findEntities doc "SHAPE_ASPECT_RELATIONSHIP").foldlM
          (fun acc r => do
            let related := attrAt r 2
            let relating := attrAt r 3
            if pyEq related shapeRef ∧ pyTruthy relating then do
              let child ← dimAssociatedGeometry doc fuel relating
              pure (acc ++ child)
            else pure acc) base
        pySetDedup refs
    | _ => pure []

/-- `DimensionExtractor._parse_shape_dimension_repr`: tag each measure item
by its name attribute (`nominal` / `upper` / `lower` substring,
case-insensitive), resolving values through the numeric resolver. -/
def parseShapeDimensionRepr (doc : StepDoc) (sdr : StepEntity) :
    Except PyErr (Option ℚ × Option ℚ × Option ℚ × Option String) := do
  let measures :=
    match attrAt sdr 1 with
    | .list l => l
    | v => if pyTruthy v then [v] else []
  measures.foldlM (fun st mref => do
    let (nominal, upper, lower, tolType) := st
    match mref with
    | .str s =>
      if s.isEmpty then pure st
      else
        match getEntity doc s with
        | Option.none => pure st
        | some m => do
          match ← getNumericValue doc pyRecLimit m with
          | Option.none => pure st
          | some value =>
            match attrAt m 0 with
            | .str na =>
              let nl := lowStr na
              if csContainsStr "nominal" nl then pure (some value, upper, lower, tolType)
              else if csContainsStr "upper" nl then pure (nominal, some value, lower, some "limits")
              else if csContainsStr "lower" nl then pure (nominal, upper, some value, some "limits")
              else if nominal.isNone then pure (some value, upper, lower, tolType)
              else pure st
            | _ =>
              if nominal.isNone then pure (some value, upper, lower, tolType)
              else pure st
    | _ => pure st)
    (Option.none, Option.none, Option.none, Option.none)

/-- `DimensionExtractor._parse_tolerance_value`: resolve the two references
of a `TOLERANCE_VALUE` through the numeric resolver. -/
def parseToleranceValue (doc : StepDoc) (tv : StepEntity) :
    Except PyErr (Option ℚ × Option ℚ) := do
  let upperRef := attrAt tv 0
  let lowerRef := attrAt tv 1
  let upper ← (if pyTruthy upperRef then do
      match ← getEntityV doc upperRef with
      | some ue => getNumericValue doc pyRecLimit ue
      | Option.none => pure Option.none
    else pure Option.none)
  let lower ← (if pyTruthy lowerRef then do
      match ← getEntityV doc lowerRef with
      | some le => getNumericValue doc pyRecLimit le
      | Option.none => pure Option.none
    else pure Option.none)
  pure (upper, lower)

/-- The `DIMENSIONAL_CHARACTERISTIC_REPRESENTATION` loop of
`_get_dimension_value`: the first DCR whose first attribute equals the
dimension id and whose representation resolves contributes, then the loop
breaks. -/
def dcrLoop (doc : StepDoc) (dimId : String) :
    List StepEntity → Except PyErr (Option (Option ℚ × Option ℚ × Option ℚ × Option String))
  | [] => pure Option.none
  | dcr :: rest => do
    let dimRef := attrAt dcr 0
    let sdrRef := attrAt dcr 1
    if ¬ pyEq dimRef (.str dimId) then dcrLoop doc dimId rest
    else if pyTruthy sdrRef then do
      match ← getEntityV doc sdrRef with
      | some sdrE => do
        let r ← parseShapeDimensionRepr doc sdrE
        pure (some r)
      | Option.none => dcrLoop doc dimId rest
    else dcrLoop doc dimId rest

/-- `DimensionExtractor._get_dimension_value`: the DCR chain, then every
matching `PLUS_MINUS_TOLERANCE` overrides the bounds. -/
def getDimensionValue (doc : StepDoc) (dimId : String) :
    Except PyErr (Option ℚ × Option ℚ × Option ℚ × Option String) := do
  let fromDcr ← dcrLoop doc dimId (findEntities doc "DIMENSIONAL_CHARACTERISTIC_REPRESENTATION")
  let (nominal, upper0, lower0, tolType0) := fromDcr.getD (Option.none, Option.none, Option.none, Option.none)
  let (upper, lower, tolType) ← (findEntities doc "PLUS_MINUS_TOLERANCE").foldlM
    (fun st pm => do
      let (u, l, _tt) := st
      let tolValRef := attrAt pm 0
      let pmDimRef := attrAt pm 1
      if pyEq pmDimRef (.str dimId) then
        if pyTruthy tolValRef then do
          match ← getEntityV doc tolValRef with
          | some tv => do
            let (u2, l2) ← parseToleranceValue doc tv
            pure (if u2.isSome then u2 else u, if l2.isSome then l2 else l, some "plus_minus")
          | Option.none => pure st
        else pure st
      else pure st)
    (upper0, lower0, tolType0)
  pure (nominal, upper, lower, tolType)

/-- `DimensionExtractor._extract_tolerance_class`: the first matching
`PLUS_MINUS_TOLERANCE` whose value entity is a `LIMITS_AND_FITS`. -/
def extractToleranceClassLoop (doc : StepDoc) (dimId : String) :
    List StepEntity → Except PyErr (Option TolClassInfo)
  | [] => pure Option.none
  | pm :: rest => do
    if ¬ pyEq (attrAt pm 1) (.str dimId) then extractToleranceClassLoop doc dimId rest
    else
      let tvr := attrAt pm 0
      if ¬ pyTruthy tvr then extractToleranceClassLoop doc dimId rest
      else do
        match ← getEntityV doc tvr with
        | Option.none => extractToleranceClassLoop doc dimId rest
        | some tv =>
          if ¬ tv.hasType "LIMITS_AND_FITS" then extractToleranceClassLoop doc dimId rest
          else
            let fv := attrAt tv 0
            let zv := attrAt tv 1
            let gr := attrAt tv 2
            let txt := if pyTruthy fv ∧ pyTruthy gr then some (pyStrOf fv ++ pyStrOf gr)
                       else Option.none
            pure (some { formVariance := fv, zoneVariance := zv, grade := gr, text := txt })

/-- `DimensionExtractor._extract_tolerance_class`. -/
def extractToleranceClass (doc : StepDoc) (dimId : String) :
    Except PyErr (Option TolClassInfo) :=
  extractToleranceClassLoop doc dimId (findEntities doc "PLUS_MINUS_TOLERANCE")

/-- Python `tuple(xs)` followed by the three subscripts `point[0..2]`, on
the length-3 origin lists this code produces. -/
def tripleOfList (l : List ℚ) : ℚ × ℚ × ℚ :=
  (l.getD 0 0, l.getD 1 0, l.getD 2 0)

/-- `DimensionExtractor._get_vertex_position`. -/
def getVertexPosition (doc : StepDoc) (vref : PyVal) : Option (ℚ × ℚ × ℚ) :=
  pyCatch (do
    match ← getEntityV doc vref with
    | some v =>
      if v.hasType "VERTEX_POINT" then getPointCoordinates doc (attrAt v 0)
      else pure Option.none
    | Option.none => pure Option.none) Option.none

/-- `DimensionExtractor._find_first_vertex_in_bound`: scan the first ten
references of the bound for a `VERTEX_POINT` with coordinates. -/
def findFirstVertexInBound (doc : StepDoc) (bound : StepEntity) : Option (ℚ × ℚ × ℚ) :=
  pyCatch (
    ((extractReferences bound).take 10).foldlM (fun acc r => do
      match acc with
      | some p => pure (some p)
      | Option.none =>
        match getEntity doc r with
        | some e =>
          if e.hasType "VERTEX_POINT" then do
            match ← getPointCoordinates doc (attrAt e 0) with
            | some c => pure (some c)
            | Option.none => pure Option.none
          else pure Option.none
        | Option.none => pure Option.none) Option.none) Option.none

/-- The `ADVANCED_FACE` case of `_get_attachment_point`: surface-derived
placement first, then the first face bound's first vertex. Returns `none`
when the loop should continue with the next geometry reference. -/
def attachmentPointAdvancedFace (doc : StepDoc) (geom : StepEntity) :
    Except PyErr (Option (ℚ × ℚ × ℚ)) := do
  let fromSurface ←
    (if geom.parsedAttributes.length ≥ 3 then
      match (geom.parsedAttributes.get? 2).getD PyVal.none with
      | .str sref =>
        if strStarts "#" sref then do
          match getEntity doc sref with
          | some surface =>
            if surface.hasType "CYLINDRICAL_SURFACE" then do
              let aref := attrAt surface 1
              if pyTruthy aref then do
                match ← getAxisPlacement doc aref with
                | some pl => pure (some (tripleOfList (pl.origin.getD [0, 0, 0])))
                | Option.none => pure Option.none
              else pure Option.none
            else if surface.hasType "PLANE" then do
              let aref := attrAt surface 1
              if pyTruthy aref then do
                match ← getAxisPlacement doc aref with
                | some pl => pure (some (tripleOfList (pl.origin.getD [0, 0, 0])))
                | Option.none => pure Option.none
              else pure Option.none
            else pure Option.none
          | Option.none => pure Option.none
        else pure Option.none
      | _ => pure Option.none
    else pure Option.none)
  match fromSurface with
  | some p => pure (some p)
  | Option.none =>
    match attrAt geom 1 with
    | .list bounds =>
      if bounds.isEmpty then pure Option.none
      else
        (bounds.take 1).foldlM (fun acc bref => do
          match acc with
          | some p => pure (some p)
          | Option.none => do
            match ← getEntityV doc bref with
            | some bound => pure (findFirstVertexInBound doc bound)
            | Option.none => pure Option.none) Option.none
    | _ => pure Option.none

/-- The geometry-reference loop of `_get_attachment_point`: classify the
geometry and derive an anchor; an unmatched or unresolved case falls through
to the next reference. -/
def attachmentPointLoop (doc : StepDoc) : List PyVal → Except PyErr (Option (ℚ × ℚ × ℚ))
  | [] => pure Option.none
  | gref :: rest => do
    match ← getEntityV doc gref with
    | Option.none => attachmentPointLoop doc rest
    | some geom =>
      if geom.hasType "VERTEX_POINT" then
        getPointCoordinates doc (attrAt geom 0)
      else if geom.hasType "CYLINDRICAL_SURFACE" then do
        let aref := attrAt geom 0
        if pyTruthy aref then do
          match ← getAxisPlacement doc aref with
          | some pl => pure (some (tripleOfList (pl.origin.getD [0, 0, 0])))
          | Option.none => attachmentPointLoop doc rest
        else attachmentPointLoop doc rest
      else if geom.hasType "CIRCLE" then do
        let cref := attrAt geom 0
        if pyTruthy cref then do
          match ← getAxisPlacement doc cref with
          | some pl => pure (some (tripleOfList (pl.origin.getD [0, 0, 0])))
          | Option.none => attachmentPointLoop doc rest
        else attachmentPointLoop doc rest
      else if geom.hasType "EDGE_CURVE" then
        let sp := getVertexPosition doc (attrAt geom 1)
        let ep := getVertexPosition doc (attrAt geom 2)
        match sp, ep with
        | some (sx, sy, sz), some (ex, ey, ez) =>
          pure (some (qDiv (qAdd sx ex) (mkRat 2 1),
                      qDiv (qAdd sy ey) (mkRat 2 1),
                      qDiv (qAdd sz ez) (mkRat 2 1)))
        | _, _ => attachmentPointLoop doc rest
      else if geom.hasType "ADVANCED_FACE" then do
        match ← attachmentPointAdvancedFace doc geom with
        | some p => pure (some p)
        | Option.none => attachmentPointLoop doc rest
      else attachmentPointLoop doc rest

/-- `DimensionExtractor._get_attachment_point`. -/
def getAttachmentPoint (doc : StepDoc) (shapeRef : PyVal) : Option (ℚ × ℚ × ℚ) :=
  pyCatch (do
    let grefs ← dimAssociatedGeometry doc pyRecLimit shapeRef
    attachmentPointLoop doc grefs) Option.none

/-- `DimensionExtractor._get_attachment_points_from_shape`. -/
def getAttachmentPointsFromShape (doc : StepDoc) (refs : List PyVal) : List Pos3 :=
  refs.foldl (fun acc r =>
    match getAttachmentPoint doc r with
    | some (x, y, z) => acc ++ [(⟨x, y, z⟩ : Pos3)]
    | Option.none => acc) []

/-- `DimensionExtractor._determine_feature_type`. -/
def determineFeatureType (doc : StepDoc) (sa : StepEntity) : String :=
  pyCatch (do
    let fromName ←
      (if sa.hasType "COMPOSITE_GROUP_SHAPE_ASPECT" then
        let namev := attrAt sa 0
        let nm := if pyTruthy namev then namev else PyVal.str ""
        match nm with
        | .str s =>
          let nl := lowStr s
          if csContainsStr "hole" nl ∨ csContainsStr "cylinder" nl then
            pure (some "cylindrical_surface")
          else if csContainsStr "radius" nl ∨ csContainsStr "radial" nl then
            pure (some "circular_edge")
          else if csContainsStr "diameter" nl then pure (some "cylindrical_surface")
          else if csContainsStr "face" nl then pure (some "planar_surface")
          else if csContainsStr "edge" nl then pure (some "linear_edge")
          else pure Option.none
        | _ => Except.error PyErr.attrErr
      else pure Option.none)
    match fromName with
    | some t => pure t
    | Option.none => do
      let grefs ← dimAssociatedGeometry doc pyRecLimit (.str sa.id)
      let cls ← grefs.foldlM (fun acc gref => do
        match acc with
        | some t => pure (some t)
        | Option.none => do
          match ← getEntityV doc gref with
          | some geom =>
            if geom.hasType "CYLINDRICAL_SURFACE" then pure (some "cylindrical_surface")
            else if geom.hasType "CIRCLE" ∨ geom.hasType "CIRCULAR_EDGE" then
              pure (some "circular_edge")
            else if geom.hasType "PLANE" ∨ geom.hasType "ADVANCED_FACE" then
              pure (some "planar_surface")
            else if geom.hasType "LINE" ∨ geom.hasType "EDGE_CURVE" then
              pure (some "linear_edge")
            else pure Option.none
          | Option.none => pure Option.none) Option.none
      pure (cls.getD "unknown_feature")) "unknown_feature"

/-- `DimensionExtractor._extract_target_geometry`. -/
def extractTargetGeometry (doc : StepDoc) (shapeRef : PyVal) : Option TargetGeom :=
  pyCatch (do
    if ¬ pyTruthy shapeRef then pure Option.none
    else do
      match ← getEntityV doc shapeRef with
      | Option.none => pure Option.none
      | some sa =>
        pure (some { shapeAspectRefs := [shapeRef],
                     featureType := determineFeatureType doc sa,
                     attachmentPoints := getAttachmentPointsFromShape doc [shapeRef] }))
    Option.none

/-- `DimensionExtractor._extract_target_geometry_location`. -/
def extractTargetGeometryLocation (doc : StepDoc) (s1 s2 : PyVal) : Option TargetGeom :=
  pyCatch (do
    let refs := [s1, s2].filter pyTruthy
    if refs.isEmpty then pure Option.none
    else
      pure (some { shapeAspectRefs := refs,
                   featureType := "linear_distance",
                   attachmentPoints := getAttachmentPointsFromShape doc refs }))
    Option.none

/-- `DimensionExtractor._has_terminator`. -/
def hasTerminator (doc : StepDoc) (annV : PyVal) : Bool :=
  pyCatch (do
    if (findEntities doc "TERMINATOR_SYMBOL").any (fun t => pyEq (attrAt t 0) annV) then
      pure true
    else do
      match ← getEntityV doc annV with
      | some e =>
        let raw := upStr e.rawLine
        pure (csContainsStr "ARROW" raw ∨ csContainsStr "TERMINATOR" raw)
      | Option.none => pure false) false

/-- `DimensionExtractor._extract_curve_geometry`: polyline points, or a line
extended by 10 mm along its direction. -/
def extractCurveGeometry (doc : StepDoc) (curve : StepEntity) :
    Option (String × List Pos3 × Pos3 × Pos3) :=
  pyCatch (do
    if curve.hasType "POLYLINE" then
      match attrAt curve 0 with
      | .list prefs => do
        let pts ← prefs.foldlM (fun acc pr => do
            match ← getPointCoordinates doc pr with
            | some (x, y, z) => pure (acc ++ [(⟨x, y, z⟩ : Pos3)])
            | Option.none => pure acc) []
        if pts.length ≥ 2 then
          pure (some ("polyline", pts, pts.headD originPos, pts.getLastD originPos))
        else pure Option.none
      | _ => pure Option.none
    else if curve.hasType "LINE" then do
      let pref := attrAt curve 0
      let dref := attrAt curve 1
      if pyTruthy pref ∧ pyTruthy dref then do
        let sc ← getPointCoordinates doc pref
        let dv ← getDirectionVector doc dref
        match sc, dv with
        | some (sx, sy, sz), some (dx, dy, dz) =>
          let len : ℚ := 10
          let e : Pos3 := ⟨qAdd sx (qMul dx len), qAdd sy (qMul dy len), qAdd sz (qMul dz len)⟩
          let s : Pos3 := ⟨sx, sy, sz⟩
          pure (some ("line", [s, e], s, e))
        | _, _ => pure Option.none
      else pure Option.none
    else pure Option.none) Option.none

/-- The per-DMIA body of `_extract_leader_lines`: the first association
whose item reference equals the dimension id and has a valid
`DRAUGHTING_CALLOUT` yields its annotation curves. -/
def leaderLinesLoop (doc : StepDoc) (dimId : String) :
    List StepEntity → Except PyErr (List LeaderLine)
  | [] => pure []
  | dmia :: rest => do
    if ¬ pyEq (attrAt dmia 2) (.str dimId) then leaderLinesLoop doc dimId rest
    else do
      let calloutRef := attrAt dmia 4
      if ¬ pyTruthy calloutRef then leaderLinesLoop doc dimId rest
      else do
        match ← getEntityV doc calloutRef with
        | Option.none => leaderLinesLoop doc dimId rest
        | some callout =>
          if ¬ callout.hasType "DRAUGHTING_CALLOUT" then leaderLinesLoop doc dimId rest
          else do
            let contents :=
              match attrAt callout 1 with
              | .list l => l
              | v => if pyTruthy v then [v] else []
            contents.foldlM (fun acc cref => do
              match ← getEntityV doc cref with
              | Option.none => pure acc
              | some content =>
                if content.hasType "ANNOTATION_CURVE_OCCURRENCE" ∨
                    content.hasType "LEADER_LINE" then do
                  let curveRef := attrAt content 0
                  match ← getEntityV doc curveRef with
                  | Option.none => pure acc
                  | some curve =>
                    match extractCurveGeometry doc curve with
                    | some (t, pts, sp, ep) =>
                      pure (acc ++ [{ ltype := t, points := pts, startP := sp, endP := ep,
                                      hasArrowhead := hasTerminator doc cref }])
                    | Option.none => pure acc
                else pure acc) []

/-- `DimensionExtractor._extract_leader_lines`. -/
def extractLeaderLines (doc : StepDoc) (dimId : String) : List LeaderLine :=
  pyCatch (leaderLinesLoop doc dimId
    (findEntities doc "DRAUGHTING_MODEL_ITEM_ASSOCIATION")) []

/-- `DimensionExtractor._format_dimension_text`. -/
def formatDimensionText (value : Option ℚ) (dimType : String)
    (upper lower : Option ℚ) (unit : String := "mm") : String :=
  match value with
  | Option.none => ""
  | some v =>
    let pfx := if dimType = "diameter" then "⌀" else if dimType = "radius" then "R" else ""
    let base := pfx ++ formatFixed 2 v
    let withTol :=
      match upper, lower with
      | some u, some l =>
        if qAbs u = qAbs l then base ++ " ±" ++ formatFixed 2 (qAbs u)
        else base ++ " +" ++ formatFixed 2 u ++ "/" ++ formatFixed 2 l
      | some u, Option.none => base ++ " +" ++ formatFixed 2 u
      | Option.none, some l => base ++ " " ++ formatFixed 2 l
      | Option.none, Option.none => base
    withTol ++ " " ++ unit

/-- `DimensionExtractor._extract_dimensional_size`. -/
def extractDimensionalSize (doc : StepDoc) (e : StepEntity) : Option DimOut :=
  pyCatch (do
    let shapeRef := attrAt e 0
    let sizeType := attrAt e 1
    let st := lowStr (pyStrOf sizeType)
    let dt0 := if pyTruthy sizeType ∧ csContainsStr "diameter" st then "diameter" else "radius"
    let dimType := if pyTruthy sizeType ∧ csContainsStr "radius" st then "radius" else dt0
    let (value, tolU, tolL, tolT) ← getDimensionValue doc e.id
    let geom ← dimAssociatedGeometry doc pyRecLimit shapeRef
    let target := extractTargetGeometry doc shapeRef
    let leaders := extractLeaderLines doc e.id
    let text := formatDimensionText value dimType tolU tolL
    let tolClass ← extractToleranceClass doc e.id
    let tolSpec := if tolU.isSome ∨ tolL.isSome then
        some { ttype := tolT.getD "symmetric", upper := tolU, lower := tolL }
      else Option.none
    pure (some {
      id := e.id, dtype := dimType, value := value.getD 0, unit := "mm",
      tolerance := tolSpec, toleranceClass := tolClass,
      associatedGeometry := some geom, targetGeometry := target,
      leaderLines := some leaders, annotPlane := some defaultPlane,
      position := some originPos, text := text,
      source := Option.none, entityId := Option.none })) Option.none

/-- `DimensionExtractor._extract_dimensional_location`. -/
def extractDimensionalLocation (doc : StepDoc) (e : StepEntity) : Option DimOut :=
  pyCatch (do
    let shapeRef1 := attrAt e 2
    let shapeRef2 := attrAt e 3
    let (value, tolU, tolL, tolT) ← getDimensionValue doc e.id
    let geom1 ← (if pyTruthy shapeRef1 then dimAssociatedGeometry doc pyRecLimit shapeRef1
                 else pure [])
    let geom2 ← (if pyTruthy shapeRef2 then dimAssociatedGeometry doc pyRecLimit shapeRef2
                 else pure [])
    let target := extractTargetGeometryLocation doc shapeRef1 shapeRef2
    let leaders := extractLeaderLines doc e.id
    let text := formatDimensionText value "linear" tolU tolL
    let tolSpec := if tolU.isSome ∨ tolL.isSome then
        some { ttype := tolT.getD "symmetric", upper := tolU, lower := tolL }
      else Option.none
    pure (some {
      id := e.id, dtype := "linear", value := value.getD 0, unit := "mm",
      tolerance := tolSpec, toleranceClass := Option.none,
      associatedGeometry := some (geom1 ++ geom2), targetGeometry := target,
      leaderLines := some leaders, annotPlane := Option.none,
      position := some originPos, text := text,
      source := Option.none, entityId := Option.none })) Option.none

/-- `DimensionExtractor._extract_angular_location`. -/
def extractAngularLocation (doc : StepDoc) (e : StepEntity) : Option DimOut :=
  pyCatch (do
    let shapeRef1 := attrAt e 2
    let shapeRef2 := attrAt e 3
    let (value, tolU, tolL, tolT) ← getDimensionValue doc e.id
    let geom1 ← (if pyTruthy shapeRef1 then dimAssociatedGeometry doc pyRecLimit shapeRef1
                 else pure [])
    let geom2 ← (if pyTruthy shapeRef2 then dimAssociatedGeometry doc pyRecLimit shapeRef2
                 else pure [])
    let text := formatDimensionText value "angular" tolU tolL "°"
    let tolSpec := if tolU.isSome ∨ tolL.isSome then
        some { ttype := tolT.getD "symmetric", upper := tolU, lower := tolL }
      else Option.none
    pure (some {
      id := e.id, dtype := "angular", value := value.getD 0, unit := "deg",
      tolerance := tolSpec, toleranceClass := Option.none,
      associatedGeometry := some (geom1 ++ geom2), targetGeometry := Option.none,
      leaderLines := Option.none, annotPlane := Option.none,
      position := some originPos, text := text,
      source := Option.none, entityId := Option.none })) Option.none

/-- `DimensionExtractor.extract_dimensions` (the two tolerance-linking
helpers at the end of the Python method are no-ops). -/
def extractDimensions (doc : StepDoc) : List DimOut :=
  ((findEntities doc "DIMENSIONAL_SIZE").filterMap (extractDimensionalSize doc))
    ++ ((findEntities doc "DIMENSIONAL_LOCATION").filterMap (extractDimensionalLocation doc))
    ++ ((findEntities doc "ANGULAR_LOCATION").filterMap (extractAngularLocation doc))

/-! ## pmi_extractors.py: ToleranceExtractor -/

/-- The `GDT_SYMBOLS` table, in source (dict-insertion) order. -/
def gdtSymbols : List (String × String × String) :=
  [("FLATNESS_TOLERANCE", "flatness", "⏥"),
   ("STRAIGHTNESS_TOLERANCE", "straightness", "⏤"),
   ("CIRCULARITY_TOLERANCE", "circularity", "○"),
   ("CYLINDRICITY_TOLERANCE", "cylindricity", "⌭"),
   ("LINE_PROFILE_TOLERANCE", "profile_line", "⌒"),
   ("SURFACE_PROFILE_TOLERANCE", "profile_surface", "⌓"),
   ("PARALLELISM_TOLERANCE", "parallelism", "∥"),
   ("PERPENDICULARITY_TOLERANCE", "perpendicularity", "⊥"),
   ("ANGULARITY_TOLERANCE", "angularity", "∠"),
   ("POSITION_TOLERANCE", "position", "⌖"),
   ("CONCENTRICITY_TOLERANCE", "concentricity", "◎"),
   ("SYMMETRY_TOLERANCE", "symmetry", "⌯"),
   ("CIRCULAR_RUNOUT_TOLERANCE", "circular_runout", "↗"),
   ("TOTAL_RUNOUT_TOLERANCE", "total_runout", "↗↗"),
   ("COAXIALITY_TOLERANCE", "coaxiality", "◎")]

/-- `GDT_SYMBOLS.get(name, ('unknown', '?'))`. -/
def gdtLookup (name : String) : String × String :=
  ((gdtSymbols.find? (fun p => p.1 = name)).map (·.2)).getD ("unknown", "?")

/-- `ToleranceExtractor._get_datum_label`: the fifth attribute of a `DATUM`
entity, when it is a string. -/
def getDatumLabel (doc : StepDoc) (dref : PyVal) : Except PyErr (Option String) := do
  match ← getEntityV doc dref with
  | some d =>
    if d.hasType "DATUM" then
      match attrAt d 4 with
      | .str s => pure (some s)
      | _ => pure Option.none
    else pure Option.none
  | Option.none => pure Option.none

/-- `ToleranceExtractor._resolve_datum_reference` with explicit recursion
fuel: unwrap a `DATUM_REFERENCE_COMPARTMENT`, join the labels of a
`DATUM_SYSTEM` with `-`, or read a bare `DATUM` label. -/
def resolveDatumReference (doc : StepDoc) : Nat → String → Except PyErr (Option String)
  | 0, _ => .error .recursionErr
  | Nat.succ fuel, ref => do
    match getEntity doc ref with
    | Option.none => pure Option.none
    | some drc => do
      let fromDrc ←
        (if drc.hasType "DATUM_REFERENCE_COMPARTMENT" then do
          let dref := attrAt drc 4
          if pyTruthy dref then do
            let l ← getDatumLabel doc dref
            pure (some l)
          else pure Option.none
        else pure Option.none)
      match fromDrc with
      | some l => pure l
      | Option.none => do
        let fromSys ←
          (if drc.hasType "DATUM_SYSTEM" then
            match attrAt drc 4 with
            | .list drefs => do
              let labels ← drefs.foldlM (fun acc d => do
                match d with
                | .str ds =>
                  if strStarts "#" ds then do
                    match ← resolveDatumReference doc fuel ds with
                    | some lbl => pure (acc ++ [lbl])
                    | Option.none => pure acc
                  else pure acc
                | _ => pure acc) []
              pure (some (if labels.isEmpty then Option.none
                          else some (String.intercalate "-" labels)))
            | _ => pure Option.none
          else pure Option.none)
        match fromSys with
        | some l => pure l
        | Option.none =>
          if drc.hasType "DATUM" then getDatumLabel doc (.str ref)
          else pure Option.none

/-- Anchored match of the raw-statement pattern
`GEOMETRIC_TOLERANCE_WITH_DATUM_REFERENCE\s*\(\s*\(([^)]+)\)`
(case-sensitive) used by `_get_datum_references`. -/
def gtwdrAt (l : List Char) : Option (List Char) :=
  if csStarts "GEOMETRIC_TOLERANCE_WITH_DATUM_REFERENCE".data l then
    match (takeRun isPySpace (l.drop 40)).2 with
    | '(' :: l2 =>
      match (takeRun isPySpace l2).2 with
      | '(' :: l4 =>
        let (grp, r) := takeRun (fun c => c ≠ ')') l4
        match r with
        | ')' :: _ => if grp.isEmpty then Option.none else some grp
        | _ => Option.none
      | _ => Option.none
    | _ => Option.none
  else Option.none

/-- `ToleranceExtractor._get_datum_references`: the
`GEOMETRIC_TOLERANCE_WITH_DATUM_REFERENCE` attribute scan (no
deduplication), the raw-statement regex scan and the trailing-list scan
(both with `not in` deduplication). -/
def getDatumReferences (doc : StepDoc) (e : StepEntity) : Except PyErr (List String) := do
  let refs1 ←
    (if e.hasType "GEOMETRIC_TOLERANCE_WITH_DATUM_REFERENCE" then
      e.parsedAttributes.foldlM (fun acc attr =>
        match attr with
        | .list items => items.foldlM (fun acc2 it =>
            match it with
            | .str s =>
              if strStarts "#" s then do
                match ← resolveDatumReference doc pyRecLimit s with
                | some lbl => pure (acc2 ++ [lbl])
                | Option.none => pure acc2
              else pure acc2
            | _ => pure acc2) acc
        | _ => pure acc) []
    else pure [])
  let refs2 :=
    match reSearchGo gtwdrAt e.rawLine.data with
    | some grp => findRefsGo grp.length grp
    | Option.none => []
  let withR2 ← refs2.foldlM (fun acc r => do
      match ← resolveDatumReference doc pyRecLimit r with
      | some lbl => pure (if pyTruthy (.str lbl) ∧ ¬ acc.contains lbl then acc ++ [lbl] else acc)
      | Option.none => pure acc) refs1
  if e.parsedAttributes.length ≥ 5 then
    match e.parsedAttributes.getLast? with
    | some (.list items) =>
      items.foldlM (fun acc it =>
        match it with
        | .str s =>
          if strStarts "#" s then do
            match ← resolveDatumReference doc pyRecLimit s with
            | some lbl => pure (if pyTruthy (.str lbl) ∧ ¬ acc.contains lbl then acc ++ [lbl] else acc)
            | Option.none => pure acc
          else pure acc
        | _ => pure acc) withR2
    | _ => pure withR2
  else pure withR2

/-- `ToleranceExtractor._get_material_modifier`. -/
def getMaterialModifier (e : StepEntity) : String :=
  let fromAttrs :=
    if e.hasType "GEOMETRIC_TOLERANCE_WITH_MODIFIERS" then
      e.parsedAttributes.findSome? (fun a =>
        match a with
        | .str s =>
          let u := upStr s
          if csContainsStr "MAXIMUM_MATERIAL" u ∨ u = "MMC" then some "Ⓜ"
          else if csContainsStr "LEAST_MATERIAL" u ∨ u = "LMC" then some "Ⓛ"
          else Option.none
        | _ => Option.none)
    else Option.none
  match fromAttrs with
  | some m => m
  | Option.none =>
    let raw := upStr e.rawLine
    if csContainsStr "MAXIMUM_MATERIAL" raw then "Ⓜ"
    else if csContainsStr "LEAST_MATERIAL" raw then "Ⓛ"
    else ""

/-- `ToleranceExtractor._get_zone_modifier`. -/
def getZoneModifier (e : StepEntity) : String :=
  let raw := upStr e.rawLine
  if csContainsStr "CYLINDRICAL" raw ∨ csContainsStr "DIAMETER" raw then "⌀" else ""

/-- `ToleranceExtractor._get_associated_geometry` (the non-recursive
tolerance-side variant). -/
def tolAssociatedGeometry (doc : StepDoc) (shapeRef : PyVal) : Except PyErr (List PyVal) :=
  match shapeRef with
  | .str s =>
    if s.isEmpty then pure []
    else
      pySetDedup ((findEntities doc "GEOMETRIC_ITEM_SPECIFIC_USAGE").foldl
        (fun acc g =>
          let gs := attrAt g 2
          let ge := attrAt g 4
          if pyEq gs shapeRef ∧ pyTruthy ge then acc ++ [ge] else acc) [])
  | _ => pure []

/-- `ToleranceExtractor._format_fcf_text`. -/
def formatFcfText (symbol : String) (value : ℚ) (zoneModifier modifier : String)
    (datumRefs : List String) : String :=
  let parts := [symbol]
    ++ (if ¬ zoneModifier.isEmpty then [zoneModifier] else [])
    ++ [formatFixed 3 value]
    ++ (if ¬ modifier.isEmpty then [modifier] else [])
    ++ (if ¬ datumRefs.isEmpty then ["|", String.intercalate " | " datumRefs] else [])
  String.intercalate " " parts

/-- `ToleranceExtractor._extract_tolerance`. -/
def extractTolerance (doc : StepDoc) (e : StepEntity) (tolTypeName : String) : Option TolOut :=
  pyCatch (do
    let (tolType, symbol) := gdtLookup tolTypeName
    let magnitudeRef := attrAt e 2
    let shapeRef := attrAt e 3
    let value ← (if pyTruthy magnitudeRef then do
        match ← getEntityV doc magnitudeRef with
        | some mag => do
          match ← getNumericValue doc pyRecLimit mag with
          | some v => pure v
          | Option.none => pure (0 : ℚ)
        | Option.none => pure (0 : ℚ)
      else pure (0 : ℚ))
    let datumRefs ← getDatumReferences doc e
    let modifier := getMaterialModifier e
    let zone := getZoneModifier e
    let geom ← (if pyTruthy shapeRef then tolAssociatedGeometry doc shapeRef else pure [])
    pure (some {
      id := e.id, ttype := tolType, value := value, unit := "mm", symbol := symbol,
      modifier := modifier, zoneModifier := zone, datumRefs := datumRefs,
      associatedGeometry := geom, position := some originPos,
      annotPlane := Option.none,
      text := formatFcfText symbol value zone modifier datumRefs })) Option.none

/-- The complex-entity second pass of `extract_tolerances`: the first
subtype the entity carries decides; an entity already extracted is skipped
(the `continue` moves on within the subtype loop). -/
def gtComplexStep (doc : StepDoc) (acc : List TolOut) (e : StepEntity) :
    List String → List TolOut
  | [] => acc
  | tn :: rest =>
    if e.hasType tn then
      if acc.any (fun t => t.id = e.id) then gtComplexStep doc acc e rest
      else
        match extractTolerance doc e tn with
        | some t => acc ++ [t]
        | Option.none => acc
    else gtComplexStep doc acc e rest

/-- `ToleranceExtractor.extract_tolerances`. -/
def extractTolerances (doc : StepDoc) : List TolOut :=
  let names := gdtSymbols.map (·.1)
  let base := names.foldl (fun acc tn =>
    acc ++ (findEntities doc tn).filterMap (fun e => extractTolerance doc e tn)) []
  (findEntities doc "GEOMETRIC_TOLERANCE").foldl
    (fun acc e => gtComplexStep doc acc e names) base

/-! ## pmi_extractors.py: DatumExtractor -/

/-- ASCII `str.isupper()`: at least one cased character and no lower-case
one (the code applies it to single-character strings). -/
def pyIsUpper (s : String) : Bool :=
  (s.data.any (fun c => ('A' ≤ c ∧ c ≤ 'Z') ∨ ('a' ≤ c ∧ c ≤ 'z'))) ∧
    (s.data.all (fun c => ¬ ('a' ≤ c ∧ c ≤ 'z')))

/-- `DatumExtractor._get_datum_geometry`:
`GEOMETRIC_ITEM_SPECIFIC_USAGE` plus
`ITEM_IDENTIFIED_REPRESENTATION_USAGE` reference collection, set-deduped. -/
def datumGeometry (doc : StepDoc) (entityId : String) : Except PyErr (List PyVal) := do
  let base := (findEntities doc "GEOMETRIC_ITEM_SPECIFIC_USAGE").foldl
    (fun acc g =>
      let gs := attrAt g 2
      let ge := attrAt g 4
      if pyEq gs (.str entityId) ∧ pyTruthy ge then acc ++ [ge] else acc) []
  let withIiru := (findEntities doc "ITEM_IDENTIFIED_REPRESENTATION_USAGE").foldl
    (fun acc i =>
      if pyEq (attrAt i 2) (.str entityId) then
        match attrAt i 4 with
        | .list items =>
          acc ++ (items.filter (fun r =>
            match r with
            | .str s => strStarts "#" s
            | _ => false))
        | _ => acc
      else acc) base
  pySetDedup withIiru

/-- `DatumExtractor._extract_datum`: read the label attribute, falling back
to any single upper-case-letter string attribute; a falsy label drops the
entity. -/
def extractDatum (doc : StepDoc) (e : StepEntity) : Option DatumOut :=
  pyCatch (do
    let label0 := attrAt e 4
    let isStr := match label0 with | .str _ => true | _ => false
    let label :=
      if !pyTruthy label0 || !isStr then
        match e.parsedAttributes.find? (fun a =>
          match a with
          | .str s => s.length = 1 ∧ pyIsUpper s
          | _ => false) with
        | some v => v
        | Option.none => label0
      else label0
    if ¬ pyTruthy label then pure Option.none
    else do
      let geom ← datumGeometry doc e.id
      pure (some { id := e.id, label := label, position := some originPos,
                   associatedGeometry := geom, annotPlane := Option.none })) Option.none

/-- The `SHAPE_ASPECT_RELATIONSHIP` search of `_extract_datum_feature`: the
first relationship relating this feature to a `DATUM` yields that datum's
label attribute. -/
def datumFeatureSarLoop (doc : StepDoc) (eid : String) :
    List StepEntity → Except PyErr (Option PyVal)
  | [] => pure Option.none
  | sar :: rest => do
    let related := attrAt sar 2
    let relating := attrAt sar 3
    if pyEq related (.str eid) then do
      match ← getEntityV doc relating with
      | some d =>
        if d.hasType "DATUM" then pure (some (attrAt d 4))
        else datumFeatureSarLoop doc eid rest
      | Option.none => datumFeatureSarLoop doc eid rest
    else datumFeatureSarLoop doc eid rest

/-- Anchored match of `Datum[.\s]*(\d+|[A-Z])` (`re.IGNORECASE`): a digit
run is preferred over a single letter (which the flag makes
case-insensitive). -/
def datumLabelAt (l : List Char) : Option (List Char) :=
  if ciStarts "Datum".data l then
    let l1 := (takeRun (fun c => c = '.' ∨ isPySpace c) (l.drop 5)).2
    let (ds, _) := takeRun isDigitC l1
    if ¬ ds.isEmpty then some ds
    else
      match l1 with
      | c :: _ =>
        if ('A' ≤ c ∧ c ≤ 'Z') ∨ ('a' ≤ c ∧ c ≤ 'z') then some [c] else Option.none
      | [] => Option.none
  else Option.none

/-- `DatumExtractor._extract_datum_feature`. -/
def extractDatumFeature (doc : StepDoc) (e : StepEntity) : Option DatumOut :=
  pyCatch (do
    let namev := attrAt e 0
    let label1 ← datumFeatureSarLoop doc e.id (findEntities doc "SHAPE_ASPECT_RELATIONSHIP")
    let labelV := label1.getD PyVal.none
    let label2 ←
      (if ¬ pyTruthy labelV then
        match reSearchGo datumLabelAt (pyStrOf namev).data with
        | some grp =>
          if grp.all isDigitC then
            let n := digitsVal grp
            let code := 65 + n - 1
            if code < 1114112 ∧ ¬ (55296 ≤ code ∧ code ≤ 57343) then
              pure (PyVal.str (String.singleton (Char.ofNat code)))
            else
              -- chr() raises ValueError beyond the Unicode range; for the
              -- surrogate range Python yields a lone surrogate that a Lean
              -- Char cannot carry (unreachable for real datum names)
              Except.error PyErr.valueErr
          else pure (PyVal.str (⟨grp⟩ : String))
        | Option.none => pure labelV
      else pure labelV)
    if ¬ pyTruthy label2 then pure Option.none
    else do
      let geom ← datumGeometry doc e.id
      pure (some { id := e.id, label := label2, position := some originPos,
                   associatedGeometry := geom, annotPlane := Option.none })) Option.none

/-- `DatumExtractor.extract_datums`: all `DATUM` entities (no mutual
deduplication), then `DATUM_FEATURE` entities deduplicated against every
label collected so far. -/
def extractDatums (doc : StepDoc) : List DatumOut :=
  let base := (findEntities doc "DATUM").filterMap (extractDatum doc)
  (findEntities doc "DATUM_FEATURE").foldl (fun acc e =>
    match extractDatumFeature doc e with
    | some d => if acc.any (fun x => pyEq x.label d.label) then acc else acc ++ [d]
    | Option.none => acc) base

/-! ## pmi_extractors.py: PresentationLinkExtractor -/

/-- Python dict assignment keyed by an attribute value (the key object of an
existing entry is kept, its value replaced). -/
def dictInsertPy (m : List (PyVal × StepEntity)) (k : PyVal) (v : StepEntity) :
    List (PyVal × StepEntity) :=
  match m with
  | [] => [(k, v)]
  | (k2, v2) :: rest =>
    if pyEq k2 k then (k2, v) :: rest else (k2, v2) :: dictInsertPy rest k v

/-- Python dict lookup keyed by an attribute value. -/
def dictGetPy (m : List (PyVal × StepEntity)) (k : PyVal) : Option StepEntity :=
  (m.find? (fun p => pyEq p.1 k)).map (·.2)

/-- `PresentationLinkExtractor._build_dmia_index`: index each
`DRAUGHTING_MODEL_ITEM_ASSOCIATION` by its item reference. A list-valued
item reference is an unhashable dict key: `TypeError`, uncaught. -/
def buildDmiaIndex (doc : StepDoc) : Except PyErr (List (PyVal × StepEntity)) :=
  (findEntities doc "DRAUGHTING_MODEL_ITEM_ASSOCIATION").foldlM
    (fun acc dmia =>
      let itemRef := attrAt dmia 2
      if pyTruthy itemRef then
        match itemRef with
        | .list _ => .error .typeErr
        | _ => pure (dictInsertPy acc itemRef dmia)
      else pure acc) []

/-- The result dict of `get_presentation_for_dimension` (its `position` key
is never set). -/
structure PresResult where
  annotType : PyVal
  planeRef : Option String
  dmiaRef : String
deriving DecidableEq

/-- `PresentationLinkExtractor._find_annotation_plane`: an
`ANNOTATION_PLANE` among the decoded references, else among the raw-line
references. -/
def findAnnotPlaneRef (doc : StepDoc) (tess : StepEntity) : Option String :=
  let isPlane := fun (r : String) =>
    match getEntity doc r with
    | some e => e.hasType "ANNOTATION_PLANE"
    | Option.none => false
  match (extractReferences tess).find? isPlane with
  | some r => some r
  | Option.none =>
    (findRefsGo tess.rawLine.data.length tess.rawLine.data).find? isPlane

/-- The tessellated-occurrence loop of `get_presentation_for_dimension`. -/
def presTessLoop (doc : StepDoc) : List PyVal → Except PyErr (Option String)
  | [] => pure Option.none
  | tr :: rest => do
    match ← getEntityV doc tr with
    | some tess =>
      if tess.hasType "TESSELLATED_ANNOTATION_OCCURRENCE" then
        match findAnnotPlaneRef doc tess with
        | some p => pure (some p)
        | Option.none => presTessLoop doc rest
      else presTessLoop doc rest
    | Option.none => presTessLoop doc rest

/-- `PresentationLinkExtractor.get_presentation_for_dimension`. -/
def getPresentationForDim (doc : StepDoc) (cache : List (PyVal × StepEntity))
    (dimId : String) : Except PyErr (Option PresResult) := do
  match dictGetPy cache (.str dimId) with
  | Option.none => pure Option.none
  | some dmia => do
    let presRef := attrAt dmia 4
    if ¬ pyTruthy presRef then pure Option.none
    else do
      match ← getEntityV doc presRef with
      | Option.none => pure Option.none
      | some pres => do
        let res0 : PresResult :=
          { annotType := .str "dimension", planeRef := Option.none, dmiaRef := dmia.id }
        let res ←
          (if pres.hasType "DRAUGHTING_CALLOUT" then do
            let at0 := attrAt pres 0
            let r1 := if pyTruthy at0 then { res0 with annotType := at0 } else res0
            let tessRefs := match attrAt pres 1 with | .list l => l | _ => []
            let pr ← presTessLoop doc tessRefs
            pure (match pr with
              | some p => { r1 with planeRef := some p }
              | Option.none => r1)
          else pure res0)
        if res.planeRef.isSome ∨ ¬ pyEq res.annotType (.str "dimension") then
          pure (some res)
        else pure Option.none

/-! ## pmi_extractors.py: AnnotationExtractor -/

/-- Ordered update of the annotation-plane dict keyed by entity id. -/
def planesInsert (m : List (String × AnnotPlaneOut)) (k : String) (v : AnnotPlaneOut) :
    List (String × AnnotPlaneOut) :=
  match m with
  | [] => [(k, v)]
  | (k2, v2) :: rest =>
    if k2 = k then (k2, v) :: rest else (k2, v2) :: planesInsert rest k v

/-- `AnnotationExtractor.extract_annotation_planes`: each `ANNOTATION_PLANE`
with a resolvable axis placement, keyed by entity id. The axis-placement
resolution can raise (`AttributeError` on a non-string reference inside). -/
def extractAnnotPlanes (doc : StepDoc) :
    Except PyErr (List (String × AnnotPlaneOut)) :=
  (findEntities doc "ANNOTATION_PLANE").foldlM (fun acc e => do
    let namev := attrAt e 0
    let axisRef := attrAt e 2
    if ¬ pyTruthy axisRef then pure acc
    else do
      match ← getAxisPlacement doc axisRef with
      | some pl => pure (planesInsert acc e.id
          { id := e.id,
            name := if pyTruthy namev then namev else .str "PMI PLANE",
            origin := pl.origin.getD [0, 0, 0],
            normal := pl.normal.getD [0, 0, mkRat (-1) 1],
            writingDir := pl.xAxis.getD [1, 0, 0] })
      | Option.none => pure acc) []

/-- `AnnotationExtractor._find_axis_placement_in_entity`: a direct
`AXIS2_PLACEMENT_3D` reference, one nested level, then the raw-line
references. -/
def findAxisPlacementInEntity (doc : StepDoc) (e : StepEntity) : Option String :=
  let direct := e.parsedAttributes.findSome? (fun attr =>
    match attr with
    | .str s =>
      if strStarts "#" s then
        match getEntity doc s with
        | some re2 =>
          if re2.hasType "AXIS2_PLACEMENT_3D" then some s
          else
            re2.parsedAttributes.findSome? (fun sub =>
              match sub with
              | .str s2 =>
                if strStarts "#" s2 then
                  match getEntity doc s2 with
                  | some se =>
                    if se.hasType "AXIS2_PLACEMENT_3D" then some s2 else Option.none
                  | Option.none => Option.none
                else Option.none
              | _ => Option.none)
        | Option.none => Option.none
      else Option.none
    | _ => Option.none)
  match direct with
  | some r => some r
  | Option.none =>
    (findRefsGo e.rawLine.data.length e.rawLine.data).find? (fun r =>
      match getEntity doc r with
      | some x => x.hasType "AXIS2_PLACEMENT_3D"
      | Option.none => false)

/-- A resolved chain position: the `position` and `annotation_plane`
payloads of `_extract_position_from_dmia_chain`. -/
structure ChainPos where
  position : Pos3
  plane : PlaneInfo
deriving DecidableEq

/-- The DMIA-search step of `_extract_position_from_dmia_chain`: a direct
item-reference match, or an attribute of the PMI entity equal to the item
reference. -/
def dmiaFindLoop (doc : StepDoc) (entityId : String) :
    List StepEntity → Option StepEntity
  | [] => Option.none
  | dmia :: rest =>
    let itemRef := attrAt dmia 2
    if pyEq itemRef (.str entityId) then some dmia
    else
      match getEntity doc entityId with
      | some e =>
        if e.parsedAttributes.any (fun a =>
            match a with
            | .str _ => pyEq a itemRef
            | _ => false) then some dmia
        else dmiaFindLoop doc entityId rest
      | Option.none => dmiaFindLoop doc entityId rest

/-- The tessellated-reference loop of `_extract_position_from_dmia_chain`. -/
def chainTessLoop (doc : StepDoc) : List PyVal → Except PyErr (Option ChainPos)
  | [] => pure Option.none
  | tr :: rest => do
    if ¬ pyTruthy tr then chainTessLoop doc rest
    else do
      match ← getEntityV doc tr with
      | Option.none => chainTessLoop doc rest
      | some tess =>
        match findAxisPlacementInEntity doc tess with
        | Option.none => chainTessLoop doc rest
        | some axisRef => do
          match ← getAxisPlacement doc (.str axisRef) with
          | some pl =>
            let origin := pl.origin.getD [0, 0, 0]
            pure (some {
              position := ⟨origin.getD 0 0, origin.getD 1 0, origin.getD 2 0⟩,
              plane := { origin := origin,
                         normal := pl.normal.getD [0, 0, mkRat (-1) 1],
                         writingDir := pl.xAxis.getD [1, 0, 0] } })
          | Option.none => chainTessLoop doc rest

/-- `AnnotationExtractor._extract_position_from_dmia_chain`. -/
def extractPositionFromDmiaChain (doc : StepDoc) (entityId : String)
    (dmias : List StepEntity) : Option ChainPos :=
  pyCatch (do
    match dmiaFindLoop doc entityId dmias with
    | Option.none => pure Option.none
    | some dmia => do
      let calloutRef := attrAt dmia 4
      if ¬ pyTruthy calloutRef then pure Option.none
      else do
        match ← getEntityV doc calloutRef with
        | Option.none => pure Option.none
        | some callout =>
          let tessRefs :=
            match attrAt callout 1 with
            | .list l => l
            | v => if pyTruthy v then [v] else []
          chainTessLoop doc tessRefs) Option.none

/-! ## cartesian_extractor.py -/

/-- Anchored match of
`#(\d+)=CARTESIAN_POINT\([^,]*,\(([^)]+)\)\);` (over the raw file text). -/
def cartPointAt (l : List Char) : Option (String × String × Nat) :=
  match l with
  | '#' :: l1 =>
    let (ds, l2) := takeRun isDigitC l1
    if ds.isEmpty then Option.none
    else
      match l2 with
      | '=' :: l3 =>
        if csStarts "CARTESIAN_POINT(".data l3 then
          let l4 := l3.drop 16
          let (nc, l5) := takeRun (fun c => c ≠ ',') l4
          match l5 with
          | ',' :: '(' :: l7 =>
            let (grp, l8) := takeRun (fun c => c ≠ ')') l7
            if grp.isEmpty then Option.none
            else
              match l8 with
              | ')' :: ')' :: ';' :: _ =>
                some ((⟨ds⟩ : String), (⟨grp⟩ : String),
                      1 + ds.length + 1 + 16 + nc.length + 2 + grp.length + 3)
              | _ => Option.none
          | _ => Option.none
        else Option.none
      | _ => Option.none
  | _ => Option.none

/-- Anchored match of
`#(\d+)=AXIS2_PLACEMENT_3D\([^,]*,(#\d+),[^)]*\);`. -/
def axisPlacementAt (l : List Char) : Option (String × String × Nat) :=
  match l with
  | '#' :: l1 =>
    let (ds, l2) := takeRun isDigitC l1
    if ds.isEmpty then Option.none
    else
      match l2 with
      | '=' :: l3 =>
        if csStarts "AXIS2_PLACEMENT_3D(".data l3 then
          let l4 := l3.drop 19
          let (nc, l5) := takeRun (fun c => c ≠ ',') l4
          match l5 with
          | ',' :: '#' :: l7 =>
            let (ds2, l8) := takeRun isDigitC l7
            if ds2.isEmpty then Option.none
            else
              match l8 with
              | ',' :: l9 =>
                let (np, l10) := takeRun (fun c => c ≠ ')') l9
                match l10 with
                | ')' :: ';' :: _ =>
                  some ((⟨ds⟩ : String), (⟨ds2⟩ : String),
                        1 + ds.length + 1 + 19 + nc.length + 2 + ds2.length + 1
                          + np.length + 2)
                | _ => Option.none
              | _ => Option.none
          | _ => Option.none
        else Option.none
      | _ => Option.none
  | _ => Option.none

/-- `re.findall` scanning for the two cartesian-extractor patterns. -/
def scanAllGo (p : List Char → Option (String × String × Nat)) :
    Nat → List Char → List (String × String)
  | 0, _ => []
  | _, [] => []
  | Nat.succ f, l@(_ :: rest) =>
    match p l with
    | some (a, b, n) => (a, b) :: scanAllGo p f (l.drop n)
    | Option.none => scanAllGo p f rest

/-- Python `str.split(',')` (keeping empty pieces). -/
def splitComma : List Char → List (List Char)
  | [] => [[]]
  | c :: rest =>
    if c = ',' then [] :: splitComma rest
    else
      match splitComma rest with
      | p :: ps => (c :: p) :: ps
      | [] => [[c]]

/-- Ordered dict update keyed by entity-id string. -/
def coordInsert (m : List (String × (ℚ × ℚ × ℚ))) (k : String) (v : ℚ × ℚ × ℚ) :
    List (String × (ℚ × ℚ × ℚ)) :=
  match m with
  | [] => [(k, v)]
  | (k2, v2) :: rest =>
    if k2 = k then (k2, v) :: rest else (k2, v2) :: coordInsert rest k v

/-- `CartesianExtractor.extract_coordinates_from_file`: every
`CARTESIAN_POINT` statement of the raw text whose coordinate list parses to
at least three floats. -/
def extractCoordinatesFromFile (content : String) : List (String × (ℚ × ℚ × ℚ)) :=
  (scanAllGo cartPointAt content.data.length content.data).foldl
    (fun acc (m : String × String) =>
      let (eid, coordStr) := m
      match (splitComma coordStr.data).mapM
          (fun p => pyFloatParse (⟨stripChars p⟩ : String)) with
      | some cs =>
        if cs.length ≥ 3 then
          coordInsert acc ("#" ++ eid) (cs.getD 0 0, cs.getD 1 0, cs.getD 2 0)
        else acc
      | Option.none => acc) []

/-- `CartesianExtractor.find_axis_placement_coordinates`. -/
def findAxisPlacementCoordinates (content : String) : List (String × (ℚ × ℚ × ℚ)) :=
  let cps := extractCoordinatesFromFile content
  (scanAllGo axisPlacementAt content.data.length content.data).foldl
    (fun acc (m : String × String) =>
      let (eid, pref) := m
      match alistLookup cps ("#" ++ pref) with
      | some c => coordInsert acc ("#" ++ eid) c
      | Option.none => acc) []

/-- `CartesianExtractor.get_pmi_positions`: merge the two coordinate maps
(`{**cartesian, **axis}`) and drop exact-origin points. -/
def getPmiPositions (content : String) : List (String × (ℚ × ℚ × ℚ)) :=
  let c := extractCoordinatesFromFile content
  let a := findAxisPlacementCoordinates content
  let merged := a.foldl (fun acc (p : String × (ℚ × ℚ × ℚ)) => coordInsert acc p.1 p.2) c
  merged.filter (fun p =>
    let (x, y, z) := p.2
    ¬ (x = 0 ∧ y = 0 ∧ z = 0))

/-- The per-item enrichment of `get_annotation_positions`: a chain-resolved
position and plane, else the origin defaults. -/
def enrichDim (doc : StepDoc) (dmias : List StepEntity) (acc : List DimOut × Nat)
    (dim : DimOut) : List DimOut × Nat :=
  let (l, n) := acc
  if dim.id.isEmpty then (l ++ [dim], n)
  else
    match extractPositionFromDmiaChain doc dim.id dmias with
    | some cp => (l ++ [{ dim with position := some cp.position, annotPlane := some cp.plane }], n + 1)
    | Option.none =>
      (l ++ [{ dim with position := some originPos, annotPlane := some defaultPlane }], n)

/-- Tolerance-list version of the enrichment step. -/
def enrichTol (doc : StepDoc) (dmias : List StepEntity) (acc : List TolOut × Nat)
    (tol : TolOut) : List TolOut × Nat :=
  let (l, n) := acc
  if tol.id.isEmpty then (l ++ [tol], n)
  else
    match extractPositionFromDmiaChain doc tol.id dmias with
    | some cp => (l ++ [{ tol with position := some cp.position, annotPlane := some cp.plane }], n + 1)
    | Option.none =>
      (l ++ [{ tol with position := some originPos, annotPlane := some defaultPlane }], n)

/-- Datum-list version of the enrichment step. -/
def enrichDatum (doc : StepDoc) (dmias : List StepEntity) (acc : List DatumOut × Nat)
    (datum : DatumOut) : List DatumOut × Nat :=
  let (l, n) := acc
  if datum.id.isEmpty then (l ++ [datum], n)
  else
    match extractPositionFromDmiaChain doc datum.id dmias with
    | some cp => (l ++ [{ datum with position := some cp.position, annotPlane := some cp.plane }], n + 1)
    | Option.none =>
      (l ++ [{ datum with position := some originPos, annotPlane := some defaultPlane }], n)

/-- The coordinate-assignment step of the Cartesian fallback: items receive
the remaining fallback coordinates in encounter order. -/
def fallbackDim (coords : List (ℚ × ℚ × ℚ)) (acc : List DimOut × Nat) (dim : DimOut) :
    List DimOut × Nat :=
  let (l, i) := acc
  if i < coords.length then
    let (x, y, z) := coords.getD i (0, 0, 0)
    let d2 := { dim with
                position := some ⟨x, y, z⟩,
                annotPlane := some ⟨[x, y, z], [0, 0, mkRat (-1) 1], [1, 0, 0]⟩ }
    (l ++ [d2], i + 1)
  else (l ++ [dim], i)

/-- Tolerance version of the fallback assignment. -/
def fallbackTol (coords : List (ℚ × ℚ × ℚ)) (acc : List TolOut × Nat) (tol : TolOut) :
    List TolOut × Nat :=
  let (l, i) := acc
  if i < coords.length then
    let (x, y, z) := coords.getD i (0, 0, 0)
    let t2 := { tol with
                position := some ⟨x, y, z⟩,
                annotPlane := some ⟨[x, y, z], [0, 0, mkRat (-1) 1], [1, 0, 0]⟩ }
    (l ++ [t2], i + 1)
  else (l ++ [tol], i)

/-- Datum version of the fallback assignment. -/
def fallbackDatum (coords : List (ℚ × ℚ × ℚ)) (acc : List DatumOut × Nat) (datum : DatumOut) :
    List DatumOut × Nat :=
  let (l, i) := acc
  if i < coords.length then
    let (x, y, z) := coords.getD i (0, 0, 0)
    let d2 := { datum with
                position := some ⟨x, y, z⟩,
                annotPlane := some ⟨[x, y, z], [0, 0, mkRat (-1) 1], [1, 0, 0]⟩ }
    (l ++ [d2], i + 1)
  else (l ++ [datum], i)

/-- `AnnotationExtractor.get_annotation_positions`: enrich dimensions,
geometric tolerances and datums with DMIA-chain positions (origin defaults
otherwise), record the annotation planes, and, when no chain position was
found anywhere, assign the whole-document Cartesian fallback coordinates in
encounter order. The surrounding `try/except` only logs; the only raise can
come from `extract_annotation_planes`, before any mutation, in which case
the input is returned unchanged. -/
def getAnnotPositions (content : String) (doc : StepDoc) (pmi : PMIRes) : PMIRes :=
  match extractAnnotPlanes doc with
  | .error _ => pmi
  | .ok planesAssoc =>
    let dmias := findEntities doc "DRAUGHTING_MODEL_ITEM_ASSOCIATION"
    let (dims2, n1) := pmi.dimensions.foldl (enrichDim doc dmias) ([], 0)
    let (tols2, n2) := pmi.geometricTolerances.foldl (enrichTol doc dmias) ([], 0)
    let (datums2, n3) := pmi.datums.foldl (enrichDatum doc dmias) ([], 0)
    let positionsFound := n1 + n2 + n3
    let planeList := planesAssoc.map (·.2)
    let pmi2 := { pmi with dimensions := dims2, geometricTolerances := tols2, datums := datums2, annotPlanes := some planeList }
    if positionsFound = 0 then
      let pmiPos := getPmiPositions content
      if pmiPos.isEmpty then pmi2
      else
        let coords := pmiPos.map (·.2)
        let (dims3, i1) := pmi2.dimensions.foldl (fallbackDim coords) ([], 0)
        let (tols3, i2) := pmi2.geometricTolerances.foldl (fallbackTol coords) ([], i1)
        let (datums3, _) := pmi2.datums.foldl (fallbackDatum coords) ([], i2)
        { pmi2 with dimensions := dims3, geometricTolerances := tols3, datums := datums3 }
    else pmi2

/-! ## pmi_extractors.py: SurfaceFinishExtractor -/

/-- `SurfaceFinishExtractor._format_surface_finish`. -/
def surfFormat (rt : String) (rv : ℚ) (eid : String) : SurfOut :=
  { id := eid, stype := "surface_finish", roughnessType := some rt,
    roughnessValue := some rv, roughnessUnit := some "μm",
    machiningAllowance := Option.none, unit := Option.none,
    laySymbol := Option.none,
    text := rt ++ " " ++ pyFloatRepr rv ++ " μm",
    position := some originPos, associatedGeometry := [] }

/-- The reference-scanning loop shared by the surface-texture extraction
methods: the first referenced entity with a resolvable numeric value. -/
def surfNumFromRefs (doc : StepDoc) : List PyVal → Except PyErr (Option ℚ)
  | [] => pure Option.none
  | a :: rest =>
    match a with
    | .str s =>
      if strStarts "#" s then
        match getEntity doc s with
        | some ref => do
          match ← getNumericValue doc pyRecLimit ref with
          | some v => pure (some v)
          | Option.none => surfNumFromRefs doc rest
        | Option.none => surfNumFromRefs doc rest
      else surfNumFromRefs doc rest
    | _ => surfNumFromRefs doc rest

/-- `SurfaceFinishExtractor._extract_surface_texture_repr`. -/
def extractSurfTextureRepr (doc : StepDoc) (e : StepEntity) : Option SurfOut :=
  pyCatch (do
    match ← surfNumFromRefs doc e.parsedAttributes with
    | some v => pure (some (surfFormat "Ra" v e.id))
    | Option.none => pure Option.none) Option.none

/-- The value loop of `_extract_surface_texture_param` and
`_extract_machining_allowance`: a direct numeric attribute, else the first
referenced entity with a numeric value. -/
def surfParamValue (doc : StepDoc) : List PyVal → Except PyErr (Option ℚ)
  | [] => pure Option.none
  | a :: rest =>
    match a with
    | .int n => pure (some (qOfInt n))
    | .float q => pure (some q)
    | .str s =>
      if strStarts "#" s then
        match getEntity doc s with
        | some ref => do
          match ← getNumericValue doc pyRecLimit ref with
          | some v => pure (some v)
          | Option.none => surfParamValue doc rest
        | Option.none => surfParamValue doc rest
      else surfParamValue doc rest
    | _ => surfParamValue doc rest

/-- `SurfaceFinishExtractor._extract_surface_texture_param`. -/
def extractSurfTextureParam (doc : StepDoc) (e : StepEntity) : Option SurfOut :=
  pyCatch (do
    let paramName := attrAt e 0
    match ← surfParamValue doc e.parsedAttributes with
    | some v =>
      let rt := if pyTruthy paramName then pyStrOf paramName else "Ra"
      pure (some (surfFormat rt v e.id))
    | Option.none => pure Option.none) Option.none

/-- `SurfaceFinishExtractor._extract_machining_allowance`. -/
def extractMachiningAllowance (doc : StepDoc) (e : StepEntity) : Option SurfOut :=
  pyCatch (do
    match ← surfParamValue doc e.parsedAttributes with
    | some v =>
      pure (some
        { id := e.id, stype := "machining_allowance",
          roughnessType := Option.none, roughnessValue := Option.none,
          roughnessUnit := Option.none, machiningAllowance := some v,
          unit := some "mm", laySymbol := Option.none,
          text := "Machining allowance: " ++ formatFixed 2 v ++ " mm",
          position := some originPos, associatedGeometry := [] })
    | Option.none => pure Option.none) Option.none

/-- Anchored match of the roughness pattern `XY\s*[=:]?\s*([\d.]+)` for a
two-letter marker `XY` (applied to upper-cased text; with the optional
separator and space runs greedy, backtracking adds no further matches). -/
def roughPatAt (m : List Char) (l : List Char) : Option String :=
  if csStarts m l then
    let l1 := l.drop m.length
    let l2 := (takeRun isPySpace l1).2
    let l3 :=
      match l2 with
      | c :: rest => if c = '=' ∨ c = ':' then rest else l2
      | [] => l2
    let l4 := (takeRun isPySpace l3).2
    let run := (takeRun (fun c => isDigitC c ∨ c = '.') l4).1
    if run.isEmpty then Option.none else some (⟨run⟩ : String)
  else Option.none

/-- The pattern loop of `SurfaceFinishExtractor._extract_from_text_annotations`:
for each `(pattern, type)` pair in order, the first search match whose group
parses as a float wins; a `ValueError` falls through to the next pattern. -/
def surfTextPatterns (raw : List Char) : Option (String × ℚ) :=
  [("RA".data, "Ra"), ("RZ".data, "Rz"), ("RY".data, "Ry"), ("RQ".data, "Rq")].findSome?
    (fun p =>
      match reSearchGo (roughPatAt p.1) raw with
      | some g =>
        match pyFloatParse g with
        | some v => some (p.2, v)
        | Option.none => Option.none
      | Option.none => Option.none)

/-- `SurfaceFinishExtractor._extract_from_text_annotations`. -/
def surfTextAnnotations (doc : StepDoc) : List SurfOut :=
  (["TEXT_LITERAL", "ANNOTATION_TEXT_OCCURRENCE",
    "DRAUGHTING_ANNOTATION_OCCURRENCE"].flatMap (findEntities doc)).foldl
    (fun acc e =>
      match surfTextPatterns (upStr e.rawLine).data with
      | some (rt, v) => acc ++ [surfFormat rt v e.id]
      | Option.none => acc) []

/-- `SurfaceFinishExtractor.extract_surface_finishes`. -/
def extractSurfaceFinishes (doc : StepDoc) : List SurfOut :=
  let p1 := (findEntities doc "SURFACE_TEXTURE_REPRESENTATION").foldl
    (fun acc e =>
      match extractSurfTextureRepr doc e with
      | some sf => acc ++ [sf] | Option.none => acc) []
  let p2 := (findEntities doc "SURFACE_TEXTURE_PARAMETER").foldl
    (fun acc e =>
      match extractSurfTextureParam doc e with
      | some sf => acc ++ [sf] | Option.none => acc) p1
  let p3 := (findEntities doc "MACHINING_ALLOWANCE").foldl
    (fun acc e =>
      match extractMachiningAllowance doc e with
      | some sf => acc ++ [sf] | Option.none => acc) p2
  p3 ++ surfTextAnnotations doc

/-! ## pmi_extractors.py: WeldSymbolExtractor -/

/-- The `WELD_TYPES` table, in source insertion order. -/
def weldTypes : List (String × String) :=
  [("FILLET", "△"), ("GROOVE", "V"), ("SQUARE", "||"), ("V_GROOVE", "V"),
   ("BEVEL", "/"), ("U_GROOVE", "U"), ("J_GROOVE", "J"), ("FLARE_V", "V~"),
   ("FLARE_BEVEL", "/~"), ("PLUG", "○"), ("SLOT", "▭"), ("SPOT", "●"),
   ("SEAM", "—"), ("BACK", "⌒"), ("SURFACING", "∿"), ("EDGE", "⊏")]

/-- `str.title()`: the first cased character of each alphabetic run is
upper-cased, the rest lower-cased (ASCII letters suffice here). -/
def titleGo : Bool → List Char → List Char
  | _, [] => []
  | prevAl, c :: rest =>
    let isAl := ('a' ≤ c ∧ c ≤ 'z') ∨ ('A' ≤ c ∧ c ≤ 'Z')
    let c2 := if isAl then (if prevAl then lowChar c else upChar c) else c
    c2 :: titleGo isAl rest

/-- `str.title()` over a whole string. -/
def pyTitle (s : String) : String := ⟨titleGo false s.data⟩

/-- Python `s.replace(u, v)` for the single characters used here. -/
def underscoreToSpace (s : String) : String :=
  ⟨s.data.map (fun c => if c = '_' then ' ' else c)⟩

/-- `WeldSymbolExtractor._format_weld_symbol` (a zero size is falsy, so it
is stored but omitted from the text). -/
def formatWeldSymbol (wt : String) (eid : String) (size : Option ℚ) : WeldOut :=
  let symbol := (((weldTypes.find? (fun p => p.1 = upStr wt)).map (·.2)).getD "")
  let baseTxt := symbol ++ " " ++ pyTitle (underscoreToSpace wt)
  let txt :=
    match size with
    | some s => if s = 0 then baseTxt else baseTxt ++ " " ++ pyFloatRepr s ++ "mm"
    | Option.none => baseTxt
  { id := eid, wtype := "weld", weldType := wt, symbol := symbol,
    process := Option.none, size := size, lengthFld := Option.none,
    pitch := Option.none, text := txt, position := some originPos,
    associatedGeometry := [] }

/-- `name = attribute 0 or ''` of the weld extraction methods. -/
def weldNameOf (e : StepEntity) : PyVal :=
  let a := attrAt e 0
  if pyTruthy a then a else .str ""

/-- `WeldSymbolExtractor._determine_weld_type`: `name.upper()` raises
`AttributeError` when the name attribute is a truthy non-string. -/
def determineWeldType (e : StepEntity) (name : PyVal) : Except PyErr String :=
  match name with
  | .str s =>
    let nU := upStr s
    let rU := upStr e.rawLine
    pure
      (match weldTypes.find? (fun p => csContainsStr p.1 nU ∨ csContainsStr p.1 rU) with
       | some p => lowStr p.1
       | Option.none => "unknown")
  | _ => .error .attrErr

/-- `WeldSymbolExtractor._extract_weld` / `_extract_weld_symbol` (identical
bodies; the per-entity `try/except` drops the item on error). -/
def extractWeldOne (e : StepEntity) : Option WeldOut :=
  pyCatch (do
    let wt ← determineWeldType e (weldNameOf e)
    pure (some (formatWeldSymbol wt e.id Option.none))) Option.none

/-- `WeldSymbolExtractor._extract_welding_process`. -/
def extractWeldingProcess (e : StepEntity) : Option WeldOut :=
  let name := weldNameOf e
  let processType := e.parsedAttributes.findSome? (fun a =>
    match a with
    | .str s =>
      if ["GMAW", "GTAW", "SMAW", "FCAW", "SAW", "MIG", "TIG"].contains (upStr s)
      then some (upStr s) else Option.none
    | _ => Option.none)
  some
    { id := e.id, wtype := "welding_process", weldType := "process", symbol := "",
      process := processType, size := Option.none, lengthFld := Option.none,
      pitch := Option.none,
      text := "Welding: " ++ (match processType with
        | some p => p
        | Option.none => if pyTruthy name then pyStrOf name else pyStrOf name),
      position := some originPos, associatedGeometry := [] }

/-- Anchored match of the weld size pattern `(\d+(?:\.\d+)?)\s*(?:MM|IN)`
(the group always parses as a float). -/
def weldSizeAt (l : List Char) : Option ℚ :=
  let (d1, l1) := takeRun isDigitC l
  if d1.isEmpty then Option.none
  else
    let (frac, l2) :=
      match l1 with
      | '.' :: rest =>
        let (d2, r2) := takeRun isDigitC rest
        if d2.isEmpty then (([] : List Char), l1) else ('.' :: d2, r2)
      | _ => (([] : List Char), l1)
    let l3 := (takeRun isPySpace l2).2
    if csStarts "MM".data l3 ∨ csStarts "IN".data l3 then
      pyFloatParse (⟨d1 ++ frac⟩ : String)
    else Option.none

/-- `WeldSymbolExtractor._extract_from_text_annotations`. -/
def weldTextAnnotations (doc : StepDoc) : List WeldOut :=
  (["TEXT_LITERAL", "ANNOTATION_TEXT_OCCURRENCE"].flatMap (findEntities doc)).foldl
    (fun acc e =>
      let raw := upStr e.rawLine
      if ["WELD", "FILLET", "GROOVE", "GMAW", "GTAW", "SMAW"].any
          (fun kw => csContainsStr kw raw) then
        let size := reSearchGo weldSizeAt raw.data
        let wt :=
          match weldTypes.find? (fun p => csContainsStr p.1 raw) with
          | some p => lowStr p.1
          | Option.none => "unknown"
        acc ++ [formatWeldSymbol wt e.id size]
      else acc) []

/-- `WeldSymbolExtractor.extract_weld_symbols`. -/
def extractWeldSymbols (doc : StepDoc) : List WeldOut :=
  let p1 := (findEntities doc "WELD").foldl
    (fun acc e =>
      match extractWeldOne e with
      | some w => acc ++ [w] | Option.none => acc) []
  let p2 := (findEntities doc "WELD_SYMBOL").foldl
    (fun acc e =>
      match extractWeldOne e with
      | some w => acc ++ [w] | Option.none => acc) p1
  let p3 := (findEntities doc "WELDING_PROCESS").foldl
    (fun acc e =>
      match extractWeldingProcess e with
      | some w => acc ++ [w] | Option.none => acc) p2
  p3 ++ weldTextAnnotations doc

/-! ## pmi_extractors.py: AP203AP214Extractor -/

/-- `AP203AP214Extractor.is_ap203_or_ap214`. -/
def isAp203OrAp214 (doc : StepDoc) : Bool :=
  if ["DIMENSIONAL_SIZE", "GEOMETRIC_TOLERANCE", "DATUM_SYSTEM"].any
      (fun t => ¬ (findEntities doc t).isEmpty) then false
  else
    ["ANNOTATION_OCCURRENCE", "DRAUGHTING_ANNOTATION_OCCURRENCE",
     "ANNOTATION_CURVE_OCCURRENCE", "DRAUGHTING_MODEL_ITEM_ASSOCIATION"].any
      (fun t => ¬ (findEntities doc t).isEmpty)

/-- Anchored case-insensitive match of
`ANNOTATION_OCCURRENCE\s*\(\s*\x27([^\x27]+)\x27` (the group is the quoted
annotation type). -/
def annOccTypeAt (l : List Char) : Option String :=
  if ciStarts "ANNOTATION_OCCURRENCE".data l then
    let l1 := (takeRun isPySpace (l.drop 21)).2
    match l1 with
    | '(' :: l2 =>
      match (takeRun isPySpace l2).2 with
      | q :: l4 =>
        if q = qc then
          let (body, l5) := takeRun (fun c => c ≠ qc) l4
          if body.isEmpty then Option.none
          else
            match l5 with
            | _ :: _ => some (⟨body⟩ : String)
            | [] => Option.none
        else Option.none
      | [] => Option.none
    | _ => Option.none
  else Option.none

/-- Anchored match of `LIT\s*\(\s*([\d.]+)` for a literal keyword `LIT`
(case-sensitive). -/
def measureDigitsAt (lit : List Char) (l : List Char) : Option String :=
  if csStarts lit l then
    match (takeRun isPySpace (l.drop lit.length)).2 with
    | '(' :: l2 =>
      let l3 := (takeRun isPySpace l2).2
      let run := (takeRun (fun c => isDigitC c ∨ c = '.') l3).1
      if run.isEmpty then Option.none else some (⟨run⟩ : String)
    | _ => Option.none
  else Option.none

/-- Anchored match of `\x27([\d.]+)\x27` (a digit-dot run in quotes). -/
def quotedNumAt (l : List Char) : Option String :=
  match l with
  | q :: l1 =>
    if q = qc then
      let (run, l2) := takeRun (fun c => isDigitC c ∨ c = '.') l1
      if run.isEmpty then Option.none
      else
        match l2 with
        | q2 :: _ => if q2 = qc then some (⟨run⟩ : String) else Option.none
        | [] => Option.none
    else Option.none
  | [] => Option.none

/-- Anchored match of `\(\s*([\d.]+)\s*[,)]`. -/
def parenNumAt (l : List Char) : Option String :=
  match l with
  | '(' :: l1 =>
    let l2 := (takeRun isPySpace l1).2
    let (run, l3) := takeRun (fun c => isDigitC c ∨ c = '.') l2
    if run.isEmpty then Option.none
    else
      match (takeRun isPySpace l3).2 with
      | c :: _ => if c = ',' ∨ c = ')' then some (⟨run⟩ : String) else Option.none
      | [] => Option.none
  | _ => Option.none

/-- `AP203AP214Extractor._extract_numeric_from_entity`: four patterns in
order; a group `float()` rejects falls through to the next pattern. -/
def numFromEntityGraph (e : StepEntity) : Option ℚ :=
  let l := e.rawLine.data
  let tryPat (p : List Char → Option String) : Option ℚ :=
    (reSearchGo p l).bind pyFloatParse
  (tryPat (measureDigitsAt "LENGTH_MEASURE".data)).orElse fun _ =>
  (tryPat (measureDigitsAt "PLANE_ANGLE_MEASURE".data)).orElse fun _ =>
  (tryPat quotedNumAt).orElse fun _ =>
  tryPat parenNumAt

/-- `AP203AP214Extractor._format_graphical_dimension`. -/
def formatGraphDim (dimType : String) (v : ℚ) (entityId : String) : DimOut :=
  let prefOut := if dimType = "diameter" then "⌀"
    else if dimType = "radius" then "R" else ""
  let unit := if dimType = "angular" then "°" else "mm"
  { id := entityId, dtype := dimType, value := v, unit := unit,
    tolerance := Option.none, toleranceClass := Option.none,
    associatedGeometry := some [], targetGeometry := Option.none,
    leaderLines := Option.none, annotPlane := Option.none,
    position := some originPos,
    text := prefOut ++ formatFixed 2 v ++ " " ++ unit,
    source := some "graphical", entityId := Option.none }

/-- The annotation-type → dimension-type map of
`_extract_from_annotation_occurrence`. -/
def graphTypeMap : List (String × String) :=
  [("radial dimension", "radius"), ("linear dimension", "linear"),
   ("angular dimension", "angular"), ("diameter dimension", "diameter")]

/-- `AP203AP214Extractor._extract_from_annotation_occurrence`. -/
def extractFromAnnOcc (doc : StepDoc) (e : StepEntity) (idx : Nat) : Option DimOut :=
  match reSearchGo annOccTypeAt e.rawLine.data with
  | Option.none => Option.none
  | some t =>
    let annType := lowStr t
    match alistLookup graphTypeMap annType with
    | Option.none => Option.none
    | some dimType =>
      let value := (findRefsGo e.rawLine.data.length e.rawLine.data).findSome?
        (fun rid =>
          match getEntity doc rid with
          | some re2 => numFromEntityGraph re2
          | Option.none => Option.none)
      match value with
      | Option.none =>
        some
          { id := "ap203_dim_" ++ natStr idx, dtype := dimType, value := 0,
            unit := "mm", tolerance := Option.none, toleranceClass := Option.none,
            associatedGeometry := Option.none, targetGeometry := Option.none,
            leaderLines := Option.none, annotPlane := Option.none,
            position := some originPos, text := pyTitle annType,
            source := some "graphical_pmi", entityId := some e.id }
      | some v => some (formatGraphDim dimType v e.id)

/-- Anchored match of `[ØⰆ∅]\s*([\d.]+)`. -/
def diaPatAt (l : List Char) : Option String :=
  match l with
  | c :: l1 =>
    if c = 'Ø' ∨ c = 'Ⰶ' ∨ c = '∅' then
      let l2 := (takeRun isPySpace l1).2
      let run := (takeRun (fun c2 => isDigitC c2 ∨ c2 = '.') l2).1
      if run.isEmpty then Option.none else some (⟨run⟩ : String)
    else Option.none
  | [] => Option.none

/-- Anchored match of `R\s*([\d.]+)`. -/
def rPatAt (l : List Char) : Option String :=
  match l with
  | 'R' :: l1 =>
    let l2 := (takeRun isPySpace l1).2
    let run := (takeRun (fun c => isDigitC c ∨ c = '.') l2).1
    if run.isEmpty then Option.none else some (⟨run⟩ : String)
  | _ => Option.none

/-- Anchored match of `([\d.]+)\s*[°]`. -/
def degPatAt (l : List Char) : Option String :=
  let (run, l1) := takeRun (fun c => isDigitC c ∨ c = '.') l
  if run.isEmpty then Option.none
  else
    match (takeRun isPySpace l1).2 with
    | c :: _ => if c = '°' then some (⟨run⟩ : String) else Option.none
    | [] => Option.none

/-- Anchored match of `([\d.]+)\s*(?:mm|MM|in|IN)`. -/
def mmPatAt (l : List Char) : Option String :=
  let (run, l1) := takeRun (fun c => isDigitC c ∨ c = '.') l
  if run.isEmpty then Option.none
  else
    let l2 := (takeRun isPySpace l1).2
    if csStarts "mm".data l2 ∨ csStarts "MM".data l2 ∨
        csStarts "in".data l2 ∨ csStarts "IN".data l2 then
      some (⟨run⟩ : String)
    else Option.none

/-- `AP203AP214Extractor._extract_dimension_from_text`: the first pattern
with a search match decides; a `ValueError` from `float()` aborts the whole
extraction (the surrounding `try` returns `None`). -/
def extractDimFromText (e : StepEntity) (_idx : Nat) : Option DimOut :=
  let l := e.rawLine.data
  let pats : List ((List Char → Option String) × String) :=
    [(diaPatAt, "diameter"), (rPatAt, "radius"), (degPatAt, "angular"),
     (mmPatAt, "linear"), (quotedNumAt, "linear")]
  match pats.findSome? (fun p => (reSearchGo p.1 l).map (fun g => (g, p.2))) with
  | Option.none => Option.none
  | some (g, dt) =>
    match pyFloatParse g with
    | some v => some (formatGraphDim dt v e.id)
    | Option.none => Option.none

/-- `AP203AP214Extractor._extract_dimension_from_text_literal`. -/
def extractDimFromTextLit (e : StepEntity) (_idx : Nat) : Option DimOut :=
  let text0 := e.parsedAttributes.findSome? (fun a =>
    match a with
    | .str s => if strStarts "#" s then Option.none else some s
    | _ => Option.none)
  let text :=
    match text0 with
    | some t => if t.isEmpty then e.rawLine else t
    | Option.none => e.rawLine
  let l := text.data
  match reSearchGo
      (fun l2 =>
        let run := (takeRun (fun c => isDigitC c ∨ c = '.') l2).1
        if run.isEmpty then Option.none else some ((⟨run⟩ : String))) l with
  | Option.none => Option.none
  | some g =>
    match pyFloatParse g with
    | Option.none => Option.none
    | some v =>
      let lowT := lowStr text
      let dimType :=
        if csContainsStr "Ø" text ∨ csContainsStr "∅" text ∨
            csContainsStr "diameter" lowT then "diameter"
        else if strStarts "R" text ∨ csContainsStr "radius" lowT then "radius"
        else if csContainsStr "°" text then "angular"
        else "linear"
      some (formatGraphDim dimType v e.id)

/-- `AP203AP214Extractor._extract_dimension_from_draughting`. -/
def extractDimFromDraughting (doc : StepDoc) (e : StepEntity) (idx : Nat) :
    Option DimOut :=
  match e.parsedAttributes.findSome? (fun a =>
      match a with
      | .str s =>
        if strStarts "#" s then
          match getEntity doc s with
          | some ref => if ref.hasType "TEXT_LITERAL" then some ref else Option.none
          | Option.none => Option.none
        else Option.none
      | _ => Option.none) with
  | some ref => extractDimFromTextLit ref idx
  | Option.none => Option.none

/-- One index-threaded phase of the graphical extraction loops. -/
def graphPhase (f : StepEntity → Nat → Option α) (es : List StepEntity)
    (acc : List α × Nat) : List α × Nat :=
  es.foldl
    (fun (a : List α × Nat) e =>
      match f e a.2 with
      | some d => (a.1 ++ [d], a.2 + 1)
      | Option.none => a) acc

/-- `AP203AP214Extractor.extract_graphical_dimensions`. -/
def extractGraphicalDimensions (doc : StepDoc) : List DimOut :=
  let p1 := graphPhase (fun e i => extractFromAnnOcc doc e i)
    (findEntities doc "ANNOTATION_OCCURRENCE") ([], 1)
  let p2 := graphPhase (fun e i => extractDimFromText e i)
    (findEntities doc "ANNOTATION_TEXT_OCCURRENCE") p1
  let p3 := graphPhase (fun e i => extractDimFromDraughting doc e i)
    (findEntities doc "DRAUGHTING_ANNOTATION_OCCURRENCE") p2
  let p4 := graphPhase (fun e i => extractDimFromTextLit e i)
    (findEntities doc "TEXT_LITERAL") p3
  p4.1

/-- The display map of `_extract_non_dimension_annotation`. -/
def graphDisplayMap : List (String × String) :=
  [("fcf", "GD&T Feature Control Frame"), ("datum", "Datum Reference"),
   ("note", "Note"), ("surface finish", "Surface Finish")]

/-- `AP203AP214Extractor._extract_non_dimension_annotation`. -/
def extractNonDimAnn (e : StepEntity) (idx : Nat) : Option GraphOut :=
  match reSearchGo annOccTypeAt e.rawLine.data with
  | Option.none => Option.none
  | some t =>
    let annType := lowStr t
    if ["radial dimension", "linear dimension", "angular dimension",
        "diameter dimension"].contains annType then Option.none
    else
      let display := (alistLookup graphDisplayMap annType).getD (pyTitle annType)
      some
        { id := "ap203_ann_" ++ natStr idx, gtype := annType,
          text := some display, points := Option.none,
          position := some originPos, source := some "graphical_pmi",
          entityId := some e.id }

/-- `AP203AP214Extractor._extract_curve_annotation` / `_extract_leader`. -/
def extractCurveOrLeader (gtype : String) (e : StepEntity) (_idx : Nat) :
    Option GraphOut :=
  some
    { id := e.id, gtype := gtype, text := Option.none, points := some [],
      position := some originPos, source := Option.none, entityId := Option.none }

/-- `AP203AP214Extractor.extract_graphical_annotations`. -/
def extractGraphicalAnnotations (doc : StepDoc) : List GraphOut :=
  let p1 := graphPhase extractNonDimAnn
    (findEntities doc "ANNOTATION_OCCURRENCE") ([], 1)
  let p2 := graphPhase (extractCurveOrLeader "curve")
    (findEntities doc "ANNOTATION_CURVE_OCCURRENCE") p1
  let p3 := graphPhase (extractCurveOrLeader "leader")
    (findEntities doc "LEADER_CURVE") p2
  p3.1

/-! ## pmi_extractors.py: PMIExtractor.extract_all and the core entry point -/

/-- The AP242 presentation-linking loop of `extract_all`: each dimension
whose presentation resolves to a known annotation plane gets that plane. -/
def linkDims (doc : StepDoc) (cache : List (PyVal × StepEntity))
    (planes : List (String × AnnotPlaneOut)) (dims : List DimOut) :
    Except PyErr (List DimOut) :=
  dims.foldlM
    (fun acc dim => do
      let pres ← getPresentationForDim doc cache dim.id
      match pres with
      | some p =>
        match p.planeRef with
        | some pr =>
          match alistLookup planes pr with
          | some plane =>
            let d2 := { dim with
              annotPlane := some ⟨plane.origin, plane.normal, plane.writingDir⟩ }
            pure (acc ++ [d2])
          | Option.none => pure (acc ++ [dim])
        | Option.none => pure (acc ++ [dim])
      | Option.none => pure (acc ++ [dim])) []

/-- `PMIExtractor.extract_all` over an already-parsed document and the raw
file content (the file path is assumed truthy, as the extractor is always
constructed with one). Uncaught exceptions propagate. -/
def extractAll (content : String) (doc : StepDoc) : Except PyErr PMIRes := do
  let isLegacy := isAp203OrAp214 doc
  let base : PMIRes :=
    { version := "2.0", source := "text_parser",
      schema := if isLegacy then "AP203/AP214" else "AP242",
      dimensions := [], geometricTolerances := [], datums := [],
      surfaceFinishes := [], weldSymbols := [], notes := [], graphicalPMI := [],
      annotPlanes := Option.none, statistics := Option.none }
  let pmi1 ←
    if isLegacy then
      pure { base with
             dimensions := extractGraphicalDimensions doc,
             graphicalPMI := extractGraphicalAnnotations doc }
    else do
      let dims := extractDimensions doc
      let tols := extractTolerances doc
      let datums := extractDatums doc
      let planes ← extractAnnotPlanes doc
      let cache ← buildDmiaIndex doc
      let dims2 ← linkDims doc cache planes dims
      let planeList := planes.map (·.2)
      pure { base with
             dimensions := dims2, geometricTolerances := tols, datums := datums,
             annotPlanes := some planeList }
  let pmi2 := { pmi1 with
                surfaceFinishes := extractSurfaceFinishes doc,
                weldSymbols := extractWeldSymbols doc }
  let pmi3 := getAnnotPositions content doc pmi2
  let stats : PMIStats :=
    { dimensionCount := pmi3.dimensions.length,
      toleranceCount := pmi3.geometricTolerances.length,
      datumCount := pmi3.datums.length,
      surfaceFinishCount := pmi3.surfaceFinishes.length,
      weldCount := pmi3.weldSymbols.length,
      isLegacyFormat := isLegacy,
      parserStats := getStatistics doc }
  pure { pmi3 with statistics := some stats }

/-- The error contract of the core entry point: a missing DATA section is
the spec's FormatError (the parser's `ValueError`); any other escaping
exception is an uncaught crash. -/
inductive CoreError where
  | formatError : CoreError
  | uncaught : PyErr → CoreError
deriving DecidableEq

/-- `extract_pmi_from_step` over the raw file content: parse
(`StepParser.__init__`), then `PMIExtractor.extract_all`. -/
def extract (content : String) : Except CoreError PMIRes :=
  match stepParse content with
  | Option.none => .error .formatError
  | some doc =>
    match extractAll content doc with
    | Except.error e => .error (.uncaught e)
    | Except.ok res => .ok res

/-! ## Concrete documents used to settle the specification claims -/

/-- A single-quote character as a string (STEP text is quote-heavy). -/
def sq : String := "\x27"

/-- The empty document (used only to strip the `Option` from `stepParse`
on inputs that are known to parse). -/
def emptyDoc : StepDoc := ⟨[], []⟩

/-- A placeholder entity for total lookups on known-present ids. -/
def emptyEntity : StepEntity := ⟨"", [], "", "", []⟩

/-- A file whose `DRAUGHTING_MODEL_ITEM_ASSOCIATION` has a list-valued item
reference (third attribute `(1)`), which `_build_dmia_index` uses as a dict
key. -/
def c1content : String :=
  "DATA;\n#1=DIMENSIONAL_SIZE(#9," ++ sq ++ "diameter" ++ sq ++ ");\n" ++
  "#2=DRAUGHTING_MODEL_ITEM_ASSOCIATION(" ++ sq ++ sq ++ "," ++ sq ++ sq ++
  ",(1),#3,#4);\nENDSEC;"

/-- A `DIMENSIONAL_SIZE` linked via `DIMENSIONAL_CHARACTERISTIC_REPRESENTATION`
to a `SHAPE_DIMENSION_REPRESENTATION` with nominal / upper / lower measure
items (the spec's worked example). -/
def c2content : String :=
  "DATA;\n#1=DIMENSIONAL_SIZE(#9," ++ sq ++ "diameter" ++ sq ++ ");\n" ++
  "#2=DIMENSIONAL_CHARACTERISTIC_REPRESENTATION(#1,#3);\n" ++
  "#3=SHAPE_DIMENSION_REPRESENTATION(" ++ sq ++ sq ++ ",(#4,#5,#6),#9);\n" ++
  "#4=MEASURE_REPRESENTATION_ITEM(" ++ sq ++ "nominal value" ++ sq ++
  ",LENGTH_MEASURE(25.0),#9);\n" ++
  "#5=MEASURE_REPRESENTATION_ITEM(" ++ sq ++ "upper limit" ++ sq ++
  ",LENGTH_MEASURE(0.1),#9);\n" ++
  "#6=MEASURE_REPRESENTATION_ITEM(" ++ sq ++ "lower limit" ++ sq ++
  ",LENGTH_MEASURE(-0.1),#9);\nENDSEC;"

/-- The parsed C2 document. -/
def c2doc : StepDoc := (stepParse c2content).getD emptyDoc

/-- A `POSITION_TOLERANCE` whose datum list resolves through a
`DATUM_SYSTEM` enumerating datums labelled A, B and C. -/
def c3content : String :=
  "DATA;\n#1=POSITION_TOLERANCE(" ++ sq ++ sq ++ "," ++ sq ++ sq ++
  ",#9,#9,(#5));\n" ++
  "#5=DATUM_SYSTEM(" ++ sq ++ sq ++ "," ++ sq ++ sq ++ "," ++ sq ++ sq ++
  ",.F.,(#6,#7,#8));\n" ++
  "#6=DATUM(" ++ sq ++ sq ++ "," ++ sq ++ sq ++ ",#9,.F.," ++ sq ++ "A" ++ sq ++ ");\n" ++
  "#7=DATUM(" ++ sq ++ sq ++ "," ++ sq ++ sq ++ ",#9,.F.," ++ sq ++ "B" ++ sq ++ ");\n" ++
  "#8=DATUM(" ++ sq ++ sq ++ "," ++ sq ++ sq ++ ",#9,.F.," ++ sq ++ "C" ++ sq ++ ");\nENDSEC;"

/-- The parsed C3 document. -/
def c3doc : StepDoc := (stepParse c3content).getD emptyDoc

/-- The two-entity reference cycle of the `follow_reference` claim. -/
def c4content : String := "DATA; #1=A(#2); #2=A(#1); ENDSEC;"

/-- The parsed C4 document. -/
def c4doc : StepDoc := (stepParse c4content).getD emptyDoc

/-- Entity `#1` of the C4 cycle. -/
def c4e1 : StepEntity := (getEntity c4doc "#1").getD emptyEntity

/-- The two-entity measure cycle of the numeric-resolver claim. -/
def c5content : String :=
  "DATA; #1=MEASURE_WITH_UNIT(#2); #2=MEASURE_WITH_UNIT(#1); ENDSEC;"

/-- The parsed C5 document. -/
def c5doc : StepDoc := (stepParse c5content).getD emptyDoc

/-- Entity `#1` of the C5 cycle. -/
def c5e1 : StepEntity := (getEntity c5doc "#1").getD emptyEntity

/-- Entity `#2` of the C5 cycle. -/
def c5e2 : StepEntity := (getEntity c5doc "#2").getD emptyEntity

/-- The complex-entity statement of the C6 claim. -/
def c6content : String :=
  "DATA; #10=(FOO(1.0) BAR(" ++ sq ++ "x" ++ sq ++ ")); ENDSEC;"

/-- The parsed C6 document. -/
def c6doc : StepDoc := (stepParse c6content).getD emptyDoc

/-- A DATA-section text whose only whitespace run is two tabs. -/
def c7tab : String := "A\t\tB"

/-- Normalization as the spec describes it (spec-side definition, for
comparison): newlines become spaces and every whitespace run outside
single-quoted strings collapses to one space; string content is verbatim. -/
def specNormGo (inStr prevWs : Bool) : List Char → List Char
  | [] => []
  | c :: rest =>
    if c = qc then c :: specNormGo (!inStr) false rest
    else if isPySpace c ∧ ¬inStr then
      if prevWs then specNormGo inStr true rest
      else spc :: specNormGo inStr true rest
    else c :: specNormGo inStr false rest

/-- Spec-side normalization over a whole string. -/
def specNormalizeStep (s : String) : String := ⟨specNormGo false false s.data⟩

/-- The corrected single-pass description of what the two passes of
`_normalize_step_content` actually do on backslash-free input: outside
single-quoted strings, runs of spaces, newlines and carriage returns
collapse to one space; every other character — tabs included — and all
string content is kept verbatim; every quote toggles the string state. -/
def fusedGo (inStr prevSp : Bool) : List Char → List Char
  | [] => []
  | c :: rest =>
    if c = qc then c :: fusedGo (!inStr) false rest
    else if ¬inStr ∧ (c = spc ∨ c = nlc ∨ c = crc) then
      if prevSp then fusedGo inStr true rest
      else spc :: fusedGo inStr true rest
    else c :: fusedGo inStr false rest

/-- The fused normalization over a whole string. -/
def normalizeFused (s : String) : String := ⟨fusedGo false false s.data⟩

/-- A backslash-free sample input for the normalization equivalence. -/
def w7content : String :=
  "#1=FOO( 1.0 ,\n  " ++ sq ++ "a  b" ++ sq ++ " )\t;\r\n#2=BAR();"

/-- Two `DATUM` entities that share the label A. -/
def c8content : String :=
  "DATA;\n#1=DATUM(" ++ sq ++ sq ++ "," ++ sq ++ sq ++ ",#9,.F.," ++ sq ++ "A" ++ sq ++ ");\n" ++
  "#2=DATUM(" ++ sq ++ sq ++ "," ++ sq ++ sq ++ ",#9,.F.," ++ sq ++ "A" ++ sq ++ ");\nENDSEC;"

/-- The parsed C8 document. -/
def c8doc : StepDoc := (stepParse c8content).getD emptyDoc

/-- A document with one `DATUM` (label A) and one `DATUM_FEATURE` that the
label regex also resolves to A (dedup across kinds applies to the feature
phase). -/
def w8content : String :=
  "DATA;\n#1=DATUM(" ++ sq ++ sq ++ "," ++ sq ++ sq ++ ",#9,.F.," ++ sq ++ "A" ++ sq ++ ");\n" ++
  "#2=DATUM_FEATURE(" ++ sq ++ "Datum 1" ++ sq ++ "," ++ sq ++ sq ++ ",#9,.T.);\nENDSEC;"

/-- The parsed C8-witness document. -/
def w8doc : StepDoc := (stepParse w8content).getD emptyDoc

/-- A small extraction input with one dimension and one weld symbol. -/
def w9content : String :=
  "DATA;\n#1=DIMENSIONAL_SIZE(#9," ++ sq ++ "diameter" ++ sq ++ ");\n" ++
  "#2=WELD(" ++ sq ++ "FILLET" ++ sq ++ ");\nENDSEC;"

/-- The extraction result on `w9content` (checked by evaluation in the
witness theorem). -/
def r9 : PMIRes :=
  { version := "2.0", source := "text_parser", schema := "AP242",
    dimensions := [
      { id := "#1", dtype := "diameter", value := 0, unit := "mm",
        tolerance := Option.none, toleranceClass := Option.none,
        associatedGeometry := some [], targetGeometry := Option.none,
        leaderLines := some [],
        annotPlane := some ⟨[0, 0, 0], [0, 0, mkRat (-1) 1], [1, 0, 0]⟩,
        position := some ⟨0, 0, 0⟩, text := "",
        source := Option.none, entityId := Option.none }],
    geometricTolerances := [], datums := [], surfaceFinishes := [],
    weldSymbols := [
      { id := "#2", wtype := "weld", weldType := "fillet", symbol := "△",
        process := Option.none, size := Option.none, lengthFld := Option.none,
        pitch := Option.none, text := "△ Fillet",
        position := some ⟨0, 0, 0⟩, associatedGeometry := [] }],
    notes := [], graphicalPMI := [], annotPlanes := some [],
    statistics := some
      { dimensionCount := 1, toleranceCount := 0, datumCount := 0,
        surfaceFinishCount := 0, weldCount := 1, isLegacyFormat := false,
        parserStats := { totalEntities := 2, uniqueTypes := 2, pmiEntities := 1,
                         topTypes := [("DIMENSIONAL_SIZE", 1), ("WELD", 1)] } } }

/-- The same `#1` used for two statements of different types. -/
def c10content : String := "DATA; #1=FOO(1); #1=BAR(2); ENDSEC;"

/-- The parsed C10 document. -/
def c10doc : StepDoc := (stepParse c10content).getD emptyDoc

/-- A well-formed two-entity document (distinct ids, duplicate-free type
lists). -/
def w10content : String := "DATA; #1=FOO(1); #2=BAR(2); ENDSEC;"

/-- Consistency of the document store: every type bucket holds distinct
ids, and each of them resolves to a stored entity that carries that id and
that (upper-cased) type. -/
def docConsistent (doc : StepDoc) : Prop :=
  ∀ k ids, alistLookup doc.byType k = some ids →
    ids.Nodup ∧ ∀ i ∈ ids, ∃ e, alistLookup doc.entities i = some e ∧
      e.id = i ∧ (e.types.map upStr).contains k = true

/-! ## Theorems -/

/-- Eliminating a successful `Except` bind. -/
theorem exBind_ok {α β : Type} (x : Except PyErr α) (f : α → Except PyErr β) (b : β)
    (h : x >>= f = Except.ok b) : ∃ a, x = Except.ok a ∧ f a = Except.ok b := by
  cases x with
  | error e => simp [Bind.bind, Except.bind] at h
  | ok a => exact ⟨a, rfl, by simpa [Bind.bind, Except.bind] using h⟩

/-- A `pyCatch` with default `none` only returns `some` from a successful
computation. -/
theorem pyCatch_none_eq_some {α : Type} (x : Except PyErr (Option α)) (v : α)
    (h : pyCatch x Option.none = some v) : x = Except.ok (some v) := by
  unfold pyCatch at h
  cases x with
  | error e => simp at h
  | ok a => simpa using h

set_option maxRecDepth 1000000 in
/-- C1: the single entry point does not keep its error contract: on
`c1content` — a syntactically valid STEP file — a `TypeError` (an
unhashable list used as the DMIA-index dict key) escapes the core instead
of a result or a FormatError. -/
theorem C1_list_key_typeerror_escapes :
    extract c1content = Except.error (CoreError.uncaught PyErr.typeErr) := by
  decide

set_option maxRecDepth 1000000 in
/-- C2: on the spec's worked example, the dimension extractor returns
exactly one dimension: type diameter, value 25, tolerance upper 0.1 and
lower -0.1 of type limits, display text "⌀25.00 ±0.10 mm". -/
theorem C2_dimension_chain_extraction :
    (extractDimensions c2doc).map
        (fun d => (d.dtype, d.value, d.tolerance, d.text)) =
      [("diameter", 25,
        some { ttype := "limits", upper := some (mkRat 1 10),
               lower := some (mkRat (-1) 10) },
        "⌀25.00 ±0.10 mm")] := by
  decide

set_option maxRecDepth 1000000 in
/-- C3, counterexample: on a `POSITION_TOLERANCE` resolving through a
`DATUM_SYSTEM` enumerating A, B, C, the extracted `datum_refs` is not the
spec's `["A", "B", "C"]`. -/
theorem C3_datum_refs_counterexample :
    (extractTolerances c3doc).map (fun t => t.datumRefs) ≠ [["A", "B", "C"]] := by
  decide

set_option maxRecDepth 1000000 in
/-- C3, amended: the `DATUM_SYSTEM` branch joins the enumerated labels with
`-` into a single string, so the tolerance's `datum_refs` is `["A-B-C"]`
(one element, original order inside it). -/
theorem C3_datum_refs_joined :
    (extractTolerances c3doc).map (fun t => t.datumRefs) = [["A-B-C"]] := by
  decide

set_option maxRecDepth 1000000 in
/-- C4, counterexample: on the two-entity cycle, `follow_reference("#1")`
with a fresh visited set does not raise at all — it returns entity `#1` and
the visited set `["#1"]` (the function never recurses). -/
theorem C4_cycle_follow_returns_ok :
    followReference c4doc "#1" [] 50 = Except.ok (some c4e1, ["#1"]) := by
  decide

/-- C4, amended: `follow_reference` raises CircularReferenceError exactly
when the visited set is longer than `max_depth` or already contains the
reference; otherwise it returns the looked-up entity and appends the
reference to the visited set. A first call with a fresh visited set
therefore never raises. -/
theorem C4_follow_raise_characterization (doc : StepDoc) (ref : String)
    (visited : List String) (maxDepth : Nat) :
    followReference doc ref visited maxDepth =
      if visited.length > maxDepth ∨ visited.contains ref = true then
        Except.error ()
      else Except.ok (getEntity doc ref, visited ++ [ref]) := by
  unfold followReference
  by_cases h1 : visited.length > maxDepth
  · simp [h1]
  · by_cases h2 : visited.contains ref = true
    · simp [h1, h2]
    · simp [h1, h2]

set_option maxRecDepth 1000000 in
/-- One unrolling of the numeric resolver on an entity whose only decoded
attribute is an entity reference: the recursion error of the referenced
entity propagates. -/
theorem refOnly_recursion_step (doc : StepDoc) (e e2 : StepEntity) (r : String)
    (ha : e.parsedAttributes = [PyVal.str r]) (hr : strStarts "#" r = true)
    (hg : getEntity doc r = some e2) (n : Nat)
    (h : getNumericValue doc n e2 = Except.error PyErr.recursionErr) :
    getNumericValue doc (n + 1) e = Except.error PyErr.recursionErr := by
  rw [getNumericValue, ha]
  simp [List.foldl, hr, hg, h]

set_option maxRecDepth 100000 in
/-- C5: on the two-entity measure cycle, the numeric-value resolver is not
cycle-protected: whatever the recursion limit (the fuel), resolving either
entity aborts with a RecursionError instead of returning a number or
nothing. -/
theorem C5_cycle_recursion_error_all_fuel : ∀ fuel : Nat,
    getNumericValue c5doc fuel c5e1 = Except.error PyErr.recursionErr ∧
    getNumericValue c5doc fuel c5e2 = Except.error PyErr.recursionErr := by
  intro fuel
  induction fuel with
  | zero => exact ⟨rfl, rfl⟩
  | succ n ih =>
    refine ⟨refOnly_recursion_step c5doc c5e1 c5e2 "#2" (by decide) (by decide)
        (by decide) n ih.2,
      refOnly_recursion_step c5doc c5e2 c5e1 "#1" (by decide) (by decide)
        (by decide) n ih.1⟩

/-- The two normalization passes compose, on backslash-free input, to the
fused single-pass machine. -/
theorem passes_fuse (l : List Char) : ∀ (prev : Option Char) (inStr prevSp : Bool),
    bsl ∉ l → prev ≠ some bsl →
    normPass2 inStr prevSp (normPass1 prev inStr l) = fusedGo inStr prevSp l := by
  induction l with
  | nil => intro prev inStr prevSp _ _; rfl
  | cons c rest ih =>
    intro prev inStr prevSp hall hprev
    have hc : c ≠ bsl := fun h => hall (h ▸ List.mem_cons_self c rest)
    have hrest : bsl ∉ rest := fun h => hall (List.mem_cons_of_mem c h)
    have hprev2 : some c ≠ some bsl := by
      intro h; exact hc (Option.some.inj h)
    by_cases hq : c = qc
    · subst hq
      rw [normPass1, if_pos ⟨rfl, hprev⟩, normPass2, if_pos rfl, fusedGo, if_pos rfl]
      rw [ih (some qc) (!inStr) false hrest hprev2]
    · rw [normPass1, if_neg (fun hand => hq hand.1)]
      by_cases hnl : (c = nlc ∨ c = crc) ∧ ¬ inStr = true
      · rw [if_pos hnl, normPass2]
        have hsq : spc ≠ qc := by decide
        rw [if_neg hsq]
        have hsp : (spc = spc ∧ ¬ inStr = true) := ⟨rfl, hnl.2⟩
        rw [if_pos hsp]
        have hfc : (¬ inStr = true ∧ (c = spc ∨ c = nlc ∨ c = crc)) := ⟨hnl.2, Or.inr hnl.1⟩
        rw [fusedGo, if_neg hq, if_pos hfc]
        by_cases hps : prevSp
        · subst hps; simp only [if_pos rfl]
          exact ih (some c) inStr true hrest hprev2
        · simp only [Bool.not_eq_true] at hps; subst hps
          simp only [if_neg (by decide : ¬ (false = true))]
          rw [ih (some c) inStr true hrest hprev2]
      · rw [if_neg hnl, normPass2, if_neg hq, fusedGo, if_neg hq]
        by_cases hsp : c = spc ∧ ¬ inStr = true
        · have hfc : (¬ inStr = true ∧ (c = spc ∨ c = nlc ∨ c = crc)) := ⟨hsp.2, Or.inl hsp.1⟩
          rw [if_pos hsp, if_pos hfc]
          by_cases hps : prevSp
          · subst hps; simp only [if_pos rfl]
            exact ih (some c) inStr true hrest hprev2
          · simp only [Bool.not_eq_true] at hps; subst hps
            simp only [if_neg (by decide : ¬ (false = true))]
            rw [ih (some c) inStr true hrest hprev2]
        · have hfc : ¬ (¬ inStr = true ∧ (c = spc ∨ c = nlc ∨ c = crc)) := by
            intro hand
            rcases hand.2 with h1 | h2
            · exact hsp ⟨h1, hand.1⟩
            · exact hnl ⟨h2, hand.1⟩
          rw [if_neg hsp, if_neg hfc]
          rw [ih (some c) inStr false hrest hprev2]

/-- C7, amended: on every backslash-free DATA-section text, the two-pass
normalizer equals the fused machine: outside single-quoted strings, runs of
spaces, newlines and carriage returns collapse to a single space, while
tabs and all other characters — and everything inside strings, doubled
quotes included — are preserved verbatim. -/
theorem C7_normalize_fused_on_backslash_free (s : String) (h : bsl ∉ s.data) :
    normalizeStep s = normalizeFused s := by
  unfold normalizeStep normalizeFused
  rw [passes_fuse s.data Option.none false false h (by simp)]

/-- C7 witness: the amended normalization theorem applied to the sample
input. -/
theorem C7_normalize_fused_witness :
    bsl ∉ w7content.data ∧ normalizeStep w7content = normalizeFused w7content :=
  ⟨by decide, C7_normalize_fused_on_backslash_free w7content (by decide)⟩

/-- C6: the complex-entity statement yields one entity, types
`["FOO", "BAR"]` in order, comma-joined attribute text, and a
case-insensitive `has_type("bar")`. -/
theorem C6_complex_entity_parse :
    c6doc.entities.length = 1 ∧
    (getEntity c6doc "#10").map (fun e => (e.types, e.attributes)) =
      some (["FOO", "BAR"], "1.0," ++ sq ++ "x" ++ sq) ∧
    (getEntity c6doc "#10").map (fun e => e.hasType "bar") = some true := by
  refine ⟨by decide, by decide, by decide⟩

/-- C7, counterexample: a run of two tabs is left untouched by the
normalizer (only space runs collapse), so normalization does not collapse
every whitespace run as the spec states (the spec-worded normalizer gives
`"A B"`). -/
theorem C7_tabs_not_collapsed :
    normalizeStep c7tab = c7tab ∧
    normalizeStep c7tab ≠ specNormalizeStep c7tab := by
  refine ⟨by decide, by decide⟩

set_option maxRecDepth 1000000 in
/-- C8, counterexample: two `DATUM` entities sharing the label A both end
up in the result — datums produced from `DATUM` entities are never
de-duplicated. -/
theorem C8_datum_phase_no_dedup :
    (extractDatums c8doc).map (fun d => d.label) =
      [PyVal.str "A", PyVal.str "A"] := by
  decide

set_option maxRecDepth 1000000 in
/-- The `DATUM_FEATURE` phase of `extract_datums` preserves pairwise-distinct
labels: a feature whose label equals any collected label is skipped. -/
theorem datumFold_pairwise (doc : StepDoc) (fs : List StepEntity) :
    ∀ acc : List DatumOut,
      acc.Pairwise (fun a b => pyEq a.label b.label = false) →
      (fs.foldl (fun acc e =>
        match extractDatumFeature doc e with
        | some d => if acc.any (fun x => pyEq x.label d.label) then acc else acc ++ [d]
        | Option.none => acc) acc).Pairwise (fun a b => pyEq a.label b.label = false) := by
  induction fs with
  | nil => intro acc hacc; simpa [List.foldl] using hacc
  | cons e rest ih =>
    intro acc hacc
    rw [List.foldl_cons]
    apply ih
    cases hd : extractDatumFeature doc e with
    | none => simpa [hd] using hacc
    | some d =>
      simp only [hd]
      by_cases hany : acc.any (fun x => pyEq x.label d.label) = true
      · simpa [hany] using hacc
      · have hne : ∀ x ∈ acc, pyEq x.label d.label = false := by
          intro x hx
          by_contra hcon
          exact hany (List.any_eq_true.mpr ⟨x, hx, by
            cases hpe : pyEq x.label d.label with
            | true => rfl
            | false => exact absurd hpe hcon⟩)
        rw [if_neg hany, List.pairwise_append]
        exact ⟨hacc, List.pairwise_singleton _ _, by
          intro x hx y hy
          rw [List.mem_singleton] at hy
          subst hy
          exact hne x hx⟩

/-- C8, amended: only the `DATUM_FEATURE` phase de-duplicates (against all
labels collected so far, of either kind); so whenever the labels produced
from the `DATUM` entities are pairwise distinct, the whole result is
pairwise distinct by label. -/
theorem C8_feature_dedup_preserves_distinct (doc : StepDoc)
    (h : ((findEntities doc "DATUM").filterMap (extractDatum doc)).Pairwise
        (fun a b => pyEq a.label b.label = false)) :
    (extractDatums doc).Pairwise (fun a b => pyEq a.label b.label = false) := by
  unfold extractDatums
  exact datumFold_pairwise doc _ _ h

set_option maxRecDepth 100000 in
/-- C8 witness: the amended theorem applied to a document with one `DATUM`
labelled A and one `DATUM_FEATURE` resolving to A (the feature is
de-duplicated across kinds). -/
theorem C8_feature_dedup_witness :
    ((findEntities w8doc "DATUM").filterMap (extractDatum w8doc)).Pairwise
        (fun a b => pyEq a.label b.label = false) ∧
    (extractDatums w8doc).Pairwise (fun a b => pyEq a.label b.label = false) ∧
    (extractDatums w8doc).map (fun d => d.label) = [PyVal.str "A"] :=
  ⟨by decide, C8_feature_dedup_preserves_distinct w8doc (by decide), by decide⟩

/-- C10, counterexample: after `#1=FOO(1); #1=BAR(2);` the type index for
FOO still points at `#1`, which now carries only type BAR, so
`find_entities("FOO")` returns an entity without `has_type("FOO")`. -/
theorem C10_duplicate_id_stale_index :
    (findEntities c10doc "FOO").map (fun e => e.types) = [["BAR"]] ∧
    (findEntities c10doc "FOO").all (fun e => e.hasType "FOO") = false := by
  refine ⟨by decide, by decide⟩

/-- Looking up in the empty association list. -/
theorem alistLookup_nil {α : Type} (k : String) :
    alistLookup ([] : List (String × α)) k = Option.none := rfl

/-- Association-list lookup on a cons cell. -/
theorem alistLookup_cons {α : Type} (k1 : String) (v1 : α)
    (rest : List (String × α)) (k2 : String) :
    alistLookup ((k1, v1) :: rest) k2 =
      if k1 = k2 then some v1 else alistLookup rest k2 := by
  by_cases h : k1 = k2 <;> simp [alistLookup, List.find?, h]

/-- Lookup after a dict assignment: the assigned key reads the new value,
every other key is untouched. -/
theorem alistLookup_insert {α : Type} (m : List (String × α)) (k k2 : String) (v : α) :
    alistLookup (alistInsert m k v) k2 =
      if k2 = k then some v else alistLookup m k2 := by
  induction m with
  | nil =>
    show alistLookup [(k, v)] k2 = _
    rw [alistLookup_cons]
    by_cases h : k2 = k
    · simp [h]
    · simp [h, Ne.symm h, alistLookup_nil]
  | cons p rest ih =>
    obtain ⟨k1, v1⟩ := p
    show alistLookup (if k1 = k then (k, v) :: rest else (k1, v1) :: alistInsert rest k v) k2 = _
    by_cases h1 : k1 = k
    · rw [if_pos h1, alistLookup_cons, alistLookup_cons]
      by_cases h2 : k2 = k
      · simp [h2]
      · simp [h2, Ne.symm h2]
        rw [if_neg (by rw [h1]; exact fun hh => h2 hh.symm)]
    · rw [if_neg h1, alistLookup_cons, alistLookup_cons, ih]
      by_cases h2 : k1 = k2
      · subst h2
        simp [if_pos rfl, if_neg (fun hh : k1 = k => h1 hh), Ne.symm h1]
      · simp [h2]

/-- Lookup after a type-index append: the appended key's bucket grows by
the id, every other bucket is untouched. -/
theorem alistLookup_appendId (m : List (String × List String)) (k k2 eid : String) :
    alistLookup (alistAppendId m k eid) k2 =
      if k2 = k then some (((alistLookup m k).getD []) ++ [eid])
      else alistLookup m k2 := by
  induction m with
  | nil =>
    show alistLookup [(k, [eid])] k2 = _
    rw [alistLookup_cons]
    by_cases h : k2 = k
    · simp [h, alistLookup_nil]
    · simp [h, Ne.symm h, alistLookup_nil]
  | cons p rest ih =>
    obtain ⟨k1, ids1⟩ := p
    show alistLookup (if k1 = k then (k1, ids1 ++ [eid]) :: rest
        else (k1, ids1) :: alistAppendId rest k eid) k2 = _
    by_cases h1 : k1 = k
    · rw [if_pos h1, alistLookup_cons]
      by_cases h2 : k2 = k
      · rw [if_pos h2, if_pos (h1.trans h2.symm)]
        rw [alistLookup_cons, if_pos h1]
        simp
      · rw [if_neg h2, if_neg (by rw [h1]; exact fun hh => h2 hh.symm)]
        rw [alistLookup_cons, if_neg (by rw [h1]; exact fun hh => h2 hh.symm)]
    · rw [if_neg h1, alistLookup_cons, ih]
      by_cases h2 : k2 = k
      · rw [if_pos h2, if_pos h2]
        rw [if_neg (fun hh : k1 = k2 => h1 (hh.trans h2))]
        rw [alistLookup_cons, if_neg h1]
      · rw [if_neg h2, if_neg h2, alistLookup_cons]

/-- The type-index fold of `_parse_file` preserves store consistency when
the inserted id is fresh and the entity's upper-cased types are
duplicate-free. -/
theorem btFold_inv (em2 : List (String × StepEntity)) (e : StepEntity) (eid : String)
    (he : alistLookup em2 eid = some e) (hid : e.id = eid) :
    ∀ (tys : List String) (bt : List (String × List String)),
      (tys.map upStr).Nodup →
      (∀ t ∈ tys, (e.types.map upStr).contains (upStr t) = true) →
      (∀ k ids, alistLookup bt k = some ids →
          ids.Nodup ∧ (eid ∈ ids → k ∉ tys.map upStr) ∧
          ∀ i ∈ ids, ∃ e2, alistLookup em2 i = some e2 ∧ e2.id = i ∧
            (e2.types.map upStr).contains k = true) →
      (∀ k ids,
          alistLookup (tys.foldl (fun bt t => alistAppendId bt (upStr t) eid) bt) k
            = some ids →
          ids.Nodup ∧ ∀ i ∈ ids, ∃ e2, alistLookup em2 i = some e2 ∧ e2.id = i ∧
            (e2.types.map upStr).contains k = true) := by
  intro tys
  induction tys with
  | nil =>
    intro bt _ _ hinv k ids hl
    obtain ⟨h1, _, h3⟩ := hinv k ids hl
    exact ⟨h1, h3⟩
  | cons t ts ih =>
    intro bt hnd hmem hinv
    rw [List.foldl_cons]
    have hnd2 : (ts.map upStr).Nodup := by
      rw [List.map_cons, List.nodup_cons] at hnd
      exact hnd.2
    have hhead : upStr t ∉ ts.map upStr := by
      rw [List.map_cons, List.nodup_cons] at hnd
      exact hnd.1
    apply ih _ hnd2 (fun t2 ht2 => hmem t2 (List.mem_cons_of_mem t ht2))
    intro k ids hl
    rw [alistLookup_appendId] at hl
    by_cases hk : k = upStr t
    · rw [if_pos hk] at hl
      cases hold : alistLookup bt k with
      | none =>
        rw [hk] at hold
        rw [hold] at hl
        simp only [Option.getD_none, List.nil_append] at hl
        cases hl
        refine ⟨List.nodup_singleton eid, ?_, ?_⟩
        · intro _ ; rw [hk]; exact hhead
        · intro i hi
          rw [List.mem_singleton] at hi
          subst hi
          exact ⟨e, he, hid, hk ▸ hmem t (List.mem_cons_self t ts)⟩
      | some ids0 =>
        rw [hk] at hold
        rw [hold] at hl
        simp only [Option.getD_some] at hl
        obtain ⟨hnd0, hmid0, hmem0⟩ := hk ▸ hinv (upStr t) ids0 hold
        have hfresh : eid ∉ ids0 := by
          intro hin
          exact (hmid0 hin) (by rw [hk, List.map_cons]; exact List.mem_cons_self _ _)
        cases hl
        refine ⟨?_, ?_, ?_⟩
        · rw [List.nodup_append]
          exact ⟨hnd0, List.nodup_singleton eid, by
            intro a ha hb
            rw [List.mem_singleton] at hb
            subst hb
            exact hfresh ha⟩
        · intro _; rw [hk]; exact hhead
        · intro i hi
          rw [List.mem_append] at hi
          rcases hi with hi | hi
          · exact hmem0 i hi
          · rw [List.mem_singleton] at hi
            subst hi
            exact ⟨e, he, hid, hk ▸ hmem t (List.mem_cons_self t ts)⟩
    · rw [if_neg hk] at hl
      obtain ⟨hnd0, hmid0, hmem0⟩ := hinv k ids hl
      refine ⟨hnd0, ?_, hmem0⟩
      intro hin hk2
      exact (hmid0 hin) (by rw [List.map_cons]; exact List.mem_cons_of_mem _ hk2)

/-- One `_parse_file` iteration preserves consistency and only ever adds
its own id to the entity map. -/
theorem parseFileStep_inv (doc : StepDoc) (m : String × String × String)
    (seen : List String)
    (hinv : docConsistent doc)
    (hkeys : ∀ i e, alistLookup doc.entities i = some e → i ∈ seen)
    (hfresh : ("#" ++ m.1) ∉ seen)
    (htys : ∀ tys attrs, parseEntityBody m.2.1 = some (tys, attrs) →
      (tys.map upStr).Nodup) :
    docConsistent (parseFileStep doc m) ∧
    (∀ i e2, alistLookup (parseFileStep doc m).entities i = some e2 →
      i ∈ seen ++ ["#" ++ m.1]) := by
  obtain ⟨digits, body, raw⟩ := m
  unfold parseFileStep
  dsimp only
  cases hpb : parseEntityBody body with
  | none =>
    refine ⟨hinv, ?_⟩
    intro i e2 hl
    exact List.mem_append_left _ (hkeys i e2 hl)
  | some pr =>
    obtain ⟨tys, attrs⟩ := pr
    dsimp only
    constructor
    · intro k ids hl
      refine btFold_inv (alistInsert doc.entities ("#" ++ digits)
          { id := "#" ++ digits, types := tys, attributes := attrs, rawLine := raw,
            parsedAttributes := parseAttributes attrs })
          { id := "#" ++ digits, types := tys, attributes := attrs, rawLine := raw,
            parsedAttributes := parseAttributes attrs }
          ("#" ++ digits) ?_ rfl tys doc.byType (htys tys attrs hpb) ?_ ?_ k ids hl
      · rw [alistLookup_insert, if_pos rfl]
      · intro t ht
        show (tys.map upStr).elem (upStr t) = true
        exact List.elem_iff.mpr (List.mem_map_of_mem upStr ht)
      · intro k2 ids2 hl2
        obtain ⟨hnd2, hmem2⟩ := hinv k2 ids2 hl2
        refine ⟨hnd2, ?_, ?_⟩
        · intro hin
          obtain ⟨e2, hle2, _, _⟩ := hmem2 _ hin
          exact absurd (hkeys _ e2 hle2) hfresh
        · intro i hi
          obtain ⟨e2, hle2, hid2, hct2⟩ := hmem2 i hi
          have hne : i ≠ "#" ++ digits := by
            intro hh
            exact hfresh (hh ▸ hkeys i e2 hle2)
          refine ⟨e2, ?_, hid2, hct2⟩
          rw [alistLookup_insert, if_neg hne]
          exact hle2
    · intro i e2 hl
      rw [alistLookup_insert] at hl
      by_cases hi : i = "#" ++ digits
      · exact List.mem_append_right _ (by rw [hi]; exact List.mem_singleton.mpr rfl)
      · rw [if_neg hi] at hl
        exact List.mem_append_left _ (hkeys i e2 hl)

/-- The whole `_parse_file` fold keeps the store consistent when the
statement ids are fresh throughout. -/
theorem parseFold_inv (ms : List (String × String × String)) :
    ∀ (doc : StepDoc) (seen : List String),
      (ms.map (fun m => "#" ++ m.1)).Nodup →
      (∀ m ∈ ms, ("#" ++ m.1) ∉ seen) →
      (∀ m ∈ ms, ∀ tys attrs, parseEntityBody m.2.1 = some (tys, attrs) →
        (tys.map upStr).Nodup) →
      docConsistent doc →
      (∀ i e, alistLookup doc.entities i = some e → i ∈ seen) →
      docConsistent (ms.foldl parseFileStep doc) := by
  induction ms with
  | nil => intro doc seen _ _ _ hinv _; simpa using hinv
  | cons m rest ih =>
    intro doc seen hnd hfr htys hinv hkeys
    rw [List.foldl_cons]
    rw [List.map_cons, List.nodup_cons] at hnd
    obtain ⟨hstep1, hstep2⟩ := parseFileStep_inv doc m seen hinv hkeys
      (hfr m (List.mem_cons_self m rest))
      (htys m (List.mem_cons_self m rest))
    refine ih (parseFileStep doc m) (seen ++ ["#" ++ m.1]) hnd.2 ?_
      (fun m2 hm2 => htys m2 (List.mem_cons_of_mem m hm2)) hstep1 hstep2
    intro m2 hm2
    rw [List.mem_append]
    rintro (h1 | h2)
    · exact hfr m2 (List.mem_cons_of_mem m hm2) h1
    · rw [List.mem_singleton] at h2
      exact hnd.1 (h2 ▸ List.mem_map_of_mem (fun m => "#" ++ m.1) hm2)

/-- Distinct ids resolve through the entity map to distinct entities (the
stored entity carries its id). -/
theorem nodup_filterMap_ids (ids : List String) (f : String → Option StepEntity)
    (hinj : ∀ i ∈ ids, ∀ e, f i = some e → e.id = i) (h : ids.Nodup) :
    (ids.filterMap f).Nodup := by
  induction ids with
  | nil => simp
  | cons i rest ih =>
    rw [List.filterMap_cons]
    rw [List.nodup_cons] at h
    cases hf : f i with
    | none => exact ih (fun j hj => hinj j (List.mem_cons_of_mem _ hj)) h.2
    | some e =>
      rw [List.nodup_cons]
      refine ⟨?_, ih (fun j hj => hinj j (List.mem_cons_of_mem _ hj)) h.2⟩
      intro hmem2
      rw [List.mem_filterMap] at hmem2
      obtain ⟨j, hj, hfj⟩ := hmem2
      have hide : e.id = i := hinj i (List.mem_cons_self _ _) e hf
      have hidj : e.id = j := hinj j (List.mem_cons_of_mem _ hj) e hfj
      exact h.1 ((hide ▸ hidj : i = j) ▸ hj)

/-- C10, amended: for every input whose matched statement ids are pairwise
distinct and whose parsed type lists are duplicate-free after upper-casing,
the store is consistent: every entity returned by `find_entities(T)`
satisfies `has_type(T)`, and no entity appears twice in the returned
list. -/
theorem C10_unique_ids_index_consistent (s : String)
    (hids : ((entityMatches (normalizeStep s).data).map (fun m => "#" ++ m.1)).Nodup)
    (htys : ∀ m ∈ entityMatches (normalizeStep s).data, ∀ tys attrs,
        parseEntityBody m.2.1 = some (tys, attrs) → (tys.map upStr).Nodup) :
    ∀ t, (findEntities (parseDataSection s) t).all (fun e => e.hasType t) = true ∧
         (findEntities (parseDataSection s) t).Nodup := by
  have hdc : docConsistent (parseDataSection s) := by
    unfold parseDataSection
    refine parseFold_inv _ ⟨[], []⟩ [] hids (by simp) htys ?_ ?_
    · intro k ids h
      simp [alistLookup] at h
    · intro i e h
      simp [alistLookup] at h
  intro t
  unfold findEntities
  cases hb : alistLookup (parseDataSection s).byType (upStr t) with
  | none => simp
  | some ids =>
    obtain ⟨hnd, hmem⟩ := hdc (upStr t) ids hb
    simp only [Option.getD_some]
    constructor
    · rw [List.all_eq_true]
      intro e he2
      rw [List.mem_filterMap] at he2
      obtain ⟨i, hi, hlk⟩ := he2
      obtain ⟨e2, hlk2, hid2, hct⟩ := hmem i hi
      rw [hlk2] at hlk
      cases hlk
      exact hct
    · refine nodup_filterMap_ids ids _ ?_ hnd
      intro i hi e hf
      obtain ⟨e2, hlk2, hid2, _⟩ := hmem i hi
      rw [hlk2] at hf
      cases hf
      exact hid2

/-- C10 witness: the amended consistency theorem applied to a well-formed
two-entity input, instantiated at type FOO. -/
theorem C10_unique_ids_witness :
    (findEntities (parseDataSection w10content) "FOO").all
        (fun e => e.hasType "FOO") = true ∧
    (findEntities (parseDataSection w10content) "FOO").Nodup := by
  refine C10_unique_ids_index_consistent w10content (by decide) ?_ "FOO"
  intro m hm tys attrs hpb
  rw [show entityMatches (normalizeStep w10content).data =
      [("1", "FOO(1)", "#1=FOO(1);"), ("2", "BAR(2)", "#2=BAR(2);")] from by decide] at hm
  rcases List.mem_cons.mp hm with hm1 | hm2
  · subst hm1
    rw [show parseEntityBody ("1", "FOO(1)", "#1=FOO(1);").2.1 =
        some (["FOO"], "1") from by decide] at hpb
    cases hpb
    decide
  · rcases List.mem_cons.mp hm2 with hm3 | hm4
    · subst hm3
      rw [show parseEntityBody ("2", "BAR(2)", "#2=BAR(2);").2.1 =
          some (["BAR"], "2") from by decide] at hpb
      cases hpb
      decide
    · exact absurd hm4 (List.not_mem_nil m)


/-- Every dimension built from a `DIMENSIONAL_SIZE` starts at the origin position. -/
theorem posOf_extractDimensionalSize (doc : StepDoc) (e : StepEntity) (d : DimOut)
    (h : extractDimensionalSize doc e = some d) : d.position.isSome = true := by
  unfold extractDimensionalSize at h
  have h2 := pyCatch_none_eq_some _ _ h
  dsimp only at h2
  obtain ⟨v, _, h3⟩ := exBind_ok _ _ _ h2
  obtain ⟨value, tolU, tolL, tolT⟩ := v
  dsimp only at h3
  obtain ⟨g1, _, h4⟩ := exBind_ok _ _ _ h3
  obtain ⟨tc, _, h5⟩ := exBind_ok _ _ _ h4
  simp only [pure, Except.pure] at h5
  cases h5
  rfl

/-- Every dimension built from a `DIMENSIONAL_LOCATION` starts at the origin position. -/
theorem posOf_extractDimensionalLocation (doc : StepDoc) (e : StepEntity) (d : DimOut)
    (h : extractDimensionalLocation doc e = some d) : d.position.isSome = true := by
  unfold extractDimensionalLocation at h
  have h2 := pyCatch_none_eq_some _ _ h
  dsimp only at h2
  obtain ⟨v, _, h3⟩ := exBind_ok _ _ _ h2
  obtain ⟨value, tolU, tolL, tolT⟩ := v
  dsimp only at h3
  obtain ⟨g1, _, h4⟩ := exBind_ok _ _ _ h3
  obtain ⟨g2, _, h5⟩ := exBind_ok _ _ _ h4
  simp only [pure, Except.pure] at h5
  cases h5
  rfl

/-- Every dimension built from an `ANGULAR_LOCATION` starts at the origin position. -/
theorem posOf_extractAngularLocation (doc : StepDoc) (e : StepEntity) (d : DimOut)
    (h : extractAngularLocation doc e = some d) : d.position.isSome = true := by
  unfold extractAngularLocation at h
  have h2 := pyCatch_none_eq_some _ _ h
  dsimp only at h2
  obtain ⟨v, _, h3⟩ := exBind_ok _ _ _ h2
  obtain ⟨value, tolU, tolL, tolT⟩ := v
  dsimp only at h3
  obtain ⟨g1, _, h4⟩ := exBind_ok _ _ _ h3
  obtain ⟨g2, _, h5⟩ := exBind_ok _ _ _ h4
  simp only [pure, Except.pure] at h5
  cases h5
  rfl

/-- Every extracted dimension carries a position. -/
theorem posOf_extractDimensions (doc : StepDoc) :
    ∀ d ∈ extractDimensions doc, d.position.isSome = true := by
  intro d hd
  unfold extractDimensions at hd
  rw [List.mem_append, List.mem_append] at hd
  rcases hd with (hd | hd) | hd <;> rw [List.mem_filterMap] at hd <;>
    obtain ⟨e, _, he⟩ := hd
  · exact posOf_extractDimensionalSize doc e d he
  · exact posOf_extractDimensionalLocation doc e d he
  · exact posOf_extractAngularLocation doc e d he


/-- Every extracted geometric tolerance carries a position. -/
theorem posOf_extractTolerance (doc : StepDoc) (e : StepEntity) (tn : String) (t : TolOut)
    (h : extractTolerance doc e tn = some t) : t.position.isSome = true := by
  unfold extractTolerance at h
  have h2 := pyCatch_none_eq_some _ _ h
  rcases hgl : gdtLookup tn with ⟨tolType, symbol⟩
  rw [hgl] at h2
  dsimp only at h2
  obtain ⟨v, _, h3⟩ := exBind_ok _ _ _ h2
  obtain ⟨dr, _, h4⟩ := exBind_ok _ _ _ h3
  obtain ⟨g, _, h5⟩ := exBind_ok _ _ _ h4
  simp only [pure, Except.pure] at h5
  cases h5
  rfl

/-- The complex-entity tolerance pass preserves the position invariant. -/
theorem posOf_gtComplexStep (doc : StepDoc) (e : StepEntity) :
    ∀ (names : List String) (acc : List TolOut),
      (∀ x ∈ acc, x.position.isSome = true) →
      ∀ x ∈ gtComplexStep doc acc e names, x.position.isSome = true := by
  intro names
  induction names with
  | nil => intro acc hacc x hx; exact hacc x hx
  | cons tn rest ih =>
    intro acc hacc x hx
    unfold gtComplexStep at hx
    by_cases h1 : e.hasType tn = true
    · rw [if_pos h1] at hx
      by_cases h2 : acc.any (fun t => t.id = e.id) = true
      · rw [if_pos h2] at hx
        exact ih acc hacc x hx
      · rw [if_neg h2] at hx
        cases het : extractTolerance doc e tn with
        | none => rw [het] at hx; exact hacc x hx
        | some t =>
          rw [het] at hx
          rw [List.mem_append] at hx
          rcases hx with hx | hx
          · exact hacc x hx
          · rw [List.mem_singleton] at hx
            subst hx
            exact posOf_extractTolerance doc e tn x het
    · rw [if_neg h1] at hx
      exact ih acc hacc x hx

/-- Every tolerance of the tolerance extractor carries a position. -/
theorem posOf_extractTolerances (doc : StepDoc) :
    ∀ t ∈ extractTolerances doc, t.position.isSome = true := by
  unfold extractTolerances
  have hbase : ∀ (names : List String) (acc : List TolOut),
      (∀ x ∈ acc, x.position.isSome = true) →
      ∀ x ∈ names.foldl (fun acc tn =>
        acc ++ (findEntities doc tn).filterMap (fun e => extractTolerance doc e tn)) acc,
        x.position.isSome = true := by
    intro names
    induction names with
    | nil => intro acc hacc x hx; exact hacc x hx
    | cons tn rest ih =>
      intro acc hacc x hx
      rw [List.foldl_cons] at hx
      refine ih _ ?_ x hx
      intro y hy
      rw [List.mem_append] at hy
      rcases hy with hy | hy
      · exact hacc y hy
      · rw [List.mem_filterMap] at hy
        obtain ⟨e, _, he⟩ := hy
        exact posOf_extractTolerance doc e tn y he
  have hgt : ∀ (es : List StepEntity) (acc : List TolOut),
      (∀ x ∈ acc, x.position.isSome = true) →
      ∀ x ∈ es.foldl (fun acc e => gtComplexStep doc acc e (gdtSymbols.map (·.1))) acc,
        x.position.isSome = true := by
    intro es
    induction es with
    | nil => intro acc hacc x hx; exact hacc x hx
    | cons e rest ih =>
      intro acc hacc x hx
      rw [List.foldl_cons] at hx
      exact ih _ (posOf_gtComplexStep doc e _ acc hacc) x hx
  intro t ht
  exact hgt _ _ (hbase _ [] (by intro x hx; cases hx)) t ht

/-- Every datum built from a `DATUM` entity carries a position. -/
theorem posOf_extractDatum (doc : StepDoc) (e : StepEntity) (d : DatumOut)
    (h : extractDatum doc e = some d) : d.position.isSome = true := by
  unfold extractDatum at h
  have h2 := pyCatch_none_eq_some _ _ h
  dsimp only at h2
  by_cases hl : pyTruthy (if (!pyTruthy (attrAt e 4) || !(match attrAt e 4 with
      | PyVal.str _ => true | _ => false)) = true then
      match e.parsedAttributes.find? (fun a =>
        match a with
        | PyVal.str s => decide (s.length = 1 ∧ pyIsUpper s = true)
        | _ => false) with
      | some v => v
      | Option.none => attrAt e 4
    else attrAt e 4) = true
  · rw [if_neg (by simpa using hl)] at h2
    obtain ⟨g, _, h3⟩ := exBind_ok _ _ _ h2
    simp only [pure, Except.pure] at h3
    cases h3
    rfl
  · rw [if_pos (by simpa using hl)] at h2
    simp only [pure, Except.pure] at h2
    cases h2


/-- Every datum built from a `DATUM_FEATURE` entity carries a position. -/
theorem posOf_extractDatumFeature (doc : StepDoc) (e : StepEntity) (d : DatumOut)
    (h : extractDatumFeature doc e = some d) : d.position.isSome = true := by
  unfold extractDatumFeature at h
  have h2 := pyCatch_none_eq_some _ _ h
  dsimp only at h2
  obtain ⟨l1, _, h3⟩ := exBind_ok _ _ _ h2
  obtain ⟨l2, _, h4⟩ := exBind_ok _ _ _ h3
  by_cases ht : pyTruthy l2 = true
  · rw [if_neg (fun hc => hc ht)] at h4
    obtain ⟨g, _, h5⟩ := exBind_ok _ _ _ h4
    simp only [pure, Except.pure] at h5
    cases h5
    rfl
  · rw [if_pos ht] at h4
    simp only [pure, Except.pure] at h4
    cases h4

/-- Every extracted datum carries a position. -/
theorem posOf_extractDatums (doc : StepDoc) :
    ∀ d ∈ extractDatums doc, d.position.isSome = true := by
  unfold extractDatums
  have hbase : ∀ x ∈ (findEntities doc "DATUM").filterMap (extractDatum doc),
      x.position.isSome = true := by
    intro x hx
    rw [List.mem_filterMap] at hx
    obtain ⟨e, _, he⟩ := hx
    exact posOf_extractDatum doc e x he
  have hfold : ∀ (fs : List StepEntity) (acc : List DatumOut),
      (∀ x ∈ acc, x.position.isSome = true) →
      ∀ x ∈ fs.foldl (fun acc e =>
        match extractDatumFeature doc e with
        | some d => if acc.any (fun x => pyEq x.label d.label) then acc else acc ++ [d]
        | Option.none => acc) acc, x.position.isSome = true := by
    intro fs
    induction fs with
    | nil => intro acc hacc x hx; exact hacc x hx
    | cons e rest ih =>
      intro acc hacc x hx
      rw [List.foldl_cons] at hx
      refine ih _ ?_ x hx
      intro y hy
      cases he : extractDatumFeature doc e with
      | none => rw [he] at hy; exact hacc y hy
      | some d =>
        rw [he] at hy
        dsimp only at hy
        by_cases ha : acc.any (fun x => pyEq x.label d.label) = true
        · rw [if_pos ha] at hy; exact hacc y hy
        · rw [if_neg ha] at hy
          rw [List.mem_append] at hy
          rcases hy with hy | hy
          · exact hacc y hy
          · rw [List.mem_singleton] at hy
            subst hy
            exact posOf_extractDatumFeature doc e y he
  intro d hd
  exact hfold _ _ hbase d hd

/-- A formatted surface finish carries a position. -/
theorem posOf_surfFormat (rt : String) (rv : ℚ) (eid : String) :
    (surfFormat rt rv eid).position.isSome = true := rfl

/-- A `SURFACE_TEXTURE_REPRESENTATION` item carries a position. -/
theorem posOf_extractSurfTextureRepr (doc : StepDoc) (e : StepEntity) (s : SurfOut)
    (h : extractSurfTextureRepr doc e = some s) : s.position.isSome = true := by
  unfold extractSurfTextureRepr at h
  have h2 := pyCatch_none_eq_some _ _ h
  obtain ⟨r, _, h3⟩ := exBind_ok _ _ _ h2
  cases r with
  | none => simp [pure, Except.pure] at h3
  | some v =>
    simp only [pure, Except.pure] at h3
    cases h3
    rfl

/-- A `SURFACE_TEXTURE_PARAMETER` item carries a position. -/
theorem posOf_extractSurfTextureParam (doc : StepDoc) (e : StepEntity) (s : SurfOut)
    (h : extractSurfTextureParam doc e = some s) : s.position.isSome = true := by
  unfold extractSurfTextureParam at h
  have h2 := pyCatch_none_eq_some _ _ h
  dsimp only at h2
  obtain ⟨r, _, h3⟩ := exBind_ok _ _ _ h2
  cases r with
  | none => simp [pure, Except.pure] at h3
  | some v =>
    simp only [pure, Except.pure] at h3
    cases h3
    rfl

/-- A `MACHINING_ALLOWANCE` item carries a position. -/
theorem posOf_extractMachiningAllowance (doc : StepDoc) (e : StepEntity) (s : SurfOut)
    (h : extractMachiningAllowance doc e = some s) : s.position.isSome = true := by
  unfold extractMachiningAllowance at h
  have h2 := pyCatch_none_eq_some _ _ h
  obtain ⟨r, _, h3⟩ := exBind_ok _ _ _ h2
  cases r with
  | none => simp [pure, Except.pure] at h3
  | some v =>
    simp only [pure, Except.pure] at h3
    cases h3
    rfl

/-- Every extracted surface finish carries a position. -/
theorem posOf_extractSurfaceFinishes (doc : StepDoc) :
    ∀ s ∈ extractSurfaceFinishes doc, s.position.isSome = true := by
  unfold extractSurfaceFinishes
  have hgen : ∀ (f : StepEntity → Option SurfOut)
      (hf : ∀ e x, f e = some x → x.position.isSome = true)
      (es : List StepEntity) (acc : List SurfOut),
      (∀ x ∈ acc, x.position.isSome = true) →
      ∀ x ∈ es.foldl (fun acc e =>
        match f e with
        | some sf => acc ++ [sf] | Option.none => acc) acc, x.position.isSome = true := by
    intro f hf es
    induction es with
    | nil => intro acc hacc x hx; exact hacc x hx
    | cons e rest ih =>
      intro acc hacc x hx
      rw [List.foldl_cons] at hx
      refine ih _ ?_ x hx
      intro y hy
      cases he : f e with
      | none => rw [he] at hy; exact hacc y hy
      | some sf =>
        rw [he] at hy
        rw [List.mem_append] at hy
        rcases hy with hy | hy
        · exact hacc y hy
        · rw [List.mem_singleton] at hy
          subst hy
          exact hf e y he
  have htext : ∀ x ∈ surfTextAnnotations doc, x.position.isSome = true := by
    unfold surfTextAnnotations
    intro x hx
    have hgen2 : ∀ (es : List StepEntity) (acc : List SurfOut),
        (∀ y ∈ acc, y.position.isSome = true) →
        ∀ y ∈ es.foldl (fun acc e =>
          match surfTextPatterns (upStr e.rawLine).data with
          | some (rt, v) => acc ++ [surfFormat rt v e.id]
          | Option.none => acc) acc, y.position.isSome = true := by
      intro es
      induction es with
      | nil => intro acc hacc y hy; exact hacc y hy
      | cons e rest ih =>
        intro acc hacc y hy
        rw [List.foldl_cons] at hy
        refine ih _ ?_ y hy
        intro z hz
        cases he : surfTextPatterns (upStr e.rawLine).data with
        | none => rw [he] at hz; exact hacc z hz
        | some pr =>
          obtain ⟨rt, v⟩ := pr
          rw [he] at hz
          rw [List.mem_append] at hz
          rcases hz with hz | hz
          · exact hacc z hz
          · rw [List.mem_singleton] at hz
            subst hz
            exact posOf_surfFormat rt v e.id
    exact hgen2 _ [] (by intro y hy; cases hy) x hx
  intro s hs
  rw [List.mem_append] at hs
  rcases hs with hs | hs
  · refine hgen _ (posOf_extractMachiningAllowance doc) _ _ ?_ s hs
    refine hgen _ (posOf_extractSurfTextureParam doc) _ _ ?_
    refine hgen _ (posOf_extractSurfTextureRepr doc) _ _ ?_
    intro x hx; cases hx
  · exact htext s hs


/-- A formatted weld symbol carries a position. -/
theorem posOf_formatWeldSymbol (wt eid : String) (size : Option ℚ) :
    (formatWeldSymbol wt eid size).position.isSome = true := rfl

/-- A weld item built from a `WELD`/`WELD_SYMBOL` entity carries a position. -/
theorem posOf_extractWeldOne (e : StepEntity) (w : WeldOut)
    (h : extractWeldOne e = some w) : w.position.isSome = true := by
  unfold extractWeldOne at h
  have h2 := pyCatch_none_eq_some _ _ h
  obtain ⟨wt, _, h3⟩ := exBind_ok _ _ _ h2
  simp only [pure, Except.pure] at h3
  cases h3
  rfl

/-- A `WELDING_PROCESS` item carries a position. -/
theorem posOf_extractWeldingProcess (e : StepEntity) (w : WeldOut)
    (h : extractWeldingProcess e = some w) : w.position.isSome = true := by
  unfold extractWeldingProcess at h
  dsimp only at h
  cases h
  rfl

/-- Every extracted weld symbol carries a position. -/
theorem posOf_extractWeldSymbols (doc : StepDoc) :
    ∀ w ∈ extractWeldSymbols doc, w.position.isSome = true := by
  unfold extractWeldSymbols
  have hgen : ∀ (f : StepEntity → Option WeldOut)
      (hf : ∀ e x, f e = some x → x.position.isSome = true)
      (es : List StepEntity) (acc : List WeldOut),
      (∀ x ∈ acc, x.position.isSome = true) →
      ∀ x ∈ es.foldl (fun acc e =>
        match f e with
        | some w => acc ++ [w] | Option.none => acc) acc, x.position.isSome = true := by
    intro f hf es
    induction es with
    | nil => intro acc hacc x hx; exact hacc x hx
    | cons e rest ih =>
      intro acc hacc x hx
      rw [List.foldl_cons] at hx
      refine ih _ ?_ x hx
      intro y hy
      cases he : f e with
      | none => rw [he] at hy; exact hacc y hy
      | some w =>
        rw [he] at hy
        dsimp only at hy
        rw [List.mem_append] at hy
        rcases hy with hy | hy
        · exact hacc y hy
        · rw [List.mem_singleton] at hy
          subst hy
          exact hf e y he
  have htext : ∀ x ∈ weldTextAnnotations doc, x.position.isSome = true := by
    unfold weldTextAnnotations
    have hgen2 : ∀ (es : List StepEntity) (acc : List WeldOut),
        (∀ y ∈ acc, y.position.isSome = true) →
        ∀ y ∈ es.foldl (fun acc e =>
          let raw := upStr e.rawLine
          if ["WELD", "FILLET", "GROOVE", "GMAW", "GTAW", "SMAW"].any
              (fun kw => csContainsStr kw raw) then
            let size := reSearchGo weldSizeAt raw.data
            let wt :=
              match weldTypes.find? (fun p => csContainsStr p.1 raw) with
              | some p => lowStr p.1
              | Option.none => "unknown"
            acc ++ [formatWeldSymbol wt e.id size]
          else acc) acc, y.position.isSome = true := by
      intro es
      induction es with
      | nil => intro acc hacc y hy; exact hacc y hy
      | cons e rest ih =>
        intro acc hacc y hy
        rw [List.foldl_cons] at hy
        refine ih _ ?_ y hy
        intro z hz
        dsimp only at hz
        by_cases hc : ["WELD", "FILLET", "GROOVE", "GMAW", "GTAW", "SMAW"].any
            (fun kw => csContainsStr kw (upStr e.rawLine)) = true
        · rw [if_pos hc] at hz
          rw [List.mem_append] at hz
          rcases hz with hz | hz
          · exact hacc z hz
          · rw [List.mem_singleton] at hz
            subst hz
            exact posOf_formatWeldSymbol _ _ _
        · rw [if_neg hc] at hz
          exact hacc z hz
    intro x hx
    exact hgen2 _ [] (by intro y hy; cases hy) x hx
  intro w hw
  rw [List.mem_append] at hw
  rcases hw with hw | hw
  · refine hgen _ (fun e x he => posOf_extractWeldingProcess e x he) _ _ ?_ w hw
    refine hgen _ (fun e x he => posOf_extractWeldOne e x he) _ _ ?_
    refine hgen _ (fun e x he => posOf_extractWeldOne e x he) _ _ ?_
    intro x hx; cases hx
  · exact htext w hw


/-- A formatted graphical dimension carries a position. -/
theorem posOf_formatGraphDim (dt : String) (v : ℚ) (eid : String) :
    (formatGraphDim dt v eid).position.isSome = true := rfl

/-- A dimension from an `ANNOTATION_OCCURRENCE` carries a position. -/
theorem posOf_extractFromAnnOcc (doc : StepDoc) (e : StepEntity) (i : Nat) (d : DimOut)
    (h : extractFromAnnOcc doc e i = some d) : d.position.isSome = true := by
  unfold extractFromAnnOcc at h
  cases h1 : reSearchGo annOccTypeAt e.rawLine.data with
  | none => rw [h1] at h; cases h
  | some t =>
    rw [h1] at h
    dsimp only at h
    cases h2 : alistLookup graphTypeMap (lowStr t) with
    | none => rw [h2] at h; cases h
    | some dimType =>
      rw [h2] at h
      dsimp only at h
      cases h3 : (findRefsGo e.rawLine.data.length e.rawLine.data).findSome?
          (fun rid => match getEntity doc rid with
            | some re2 => numFromEntityGraph re2
            | Option.none => Option.none) with
      | none => rw [h3] at h; cases h; rfl
      | some v => rw [h3] at h; cases h; exact posOf_formatGraphDim _ _ _

/-- A dimension from a text annotation carries a position. -/
theorem posOf_extractDimFromText (e : StepEntity) (i : Nat) (d : DimOut)
    (h : extractDimFromText e i = some d) : d.position.isSome = true := by
  unfold extractDimFromText at h
  dsimp only at h
  cases h1 : ([(diaPatAt, "diameter"), (rPatAt, "radius"), (degPatAt, "angular"),
      (mmPatAt, "linear"), (quotedNumAt, "linear")] :
        List ((List Char → Option String) × String)).findSome?
      (fun p => (reSearchGo p.1 e.rawLine.data).map (fun g => (g, p.2))) with
  | none => rw [h1] at h; cases h
  | some pr =>
    obtain ⟨g, dt⟩ := pr
    rw [h1] at h
    dsimp only at h
    cases h2 : pyFloatParse g with
    | none => rw [h2] at h; cases h
    | some v => rw [h2] at h; cases h; exact posOf_formatGraphDim _ _ _

/-- A dimension from a `TEXT_LITERAL` carries a position. -/
theorem posOf_extractDimFromTextLit (e : StepEntity) (i : Nat) (d : DimOut)
    (h : extractDimFromTextLit e i = some d) : d.position.isSome = true := by
  unfold extractDimFromTextLit at h
  simp only [] at h
  split at h
  · cases h
  · split at h
    · cases h
    · cases h
      exact posOf_formatGraphDim _ _ _

/-- A dimension from a draughting annotation carries a position. -/
theorem posOf_extractDimFromDraughting (doc : StepDoc) (e : StepEntity) (i : Nat)
    (d : DimOut) (h : extractDimFromDraughting doc e i = some d) :
    d.position.isSome = true := by
  unfold extractDimFromDraughting at h
  cases h1 : e.parsedAttributes.findSome? (fun a =>
      match a with
      | PyVal.str s =>
        if strStarts "#" s then
          match getEntity doc s with
          | some ref => if ref.hasType "TEXT_LITERAL" then some ref else Option.none
          | Option.none => Option.none
        else Option.none
      | _ => Option.none) with
  | none => rw [h1] at h; cases h
  | some ref =>
    rw [h1] at h
    exact posOf_extractDimFromTextLit ref i d h

/-- An index-threaded graphical extraction phase preserves a per-item invariant. -/
theorem posOf_graphPhase {α : Type} (p : α → Bool) (f : StepEntity → Nat → Option α)
    (hf : ∀ e i x, f e i = some x → p x = true) (es : List StepEntity) :
    ∀ (acc : List α × Nat), (∀ x ∈ acc.1, p x = true) →
    ∀ x ∈ (graphPhase f es acc).1, p x = true := by
  induction es with
  | nil => intro acc hacc x hx; exact hacc x hx
  | cons e rest ih =>
    intro acc hacc x hx
    unfold graphPhase at hx
    rw [List.foldl_cons] at hx
    refine ih _ ?_ x (by unfold graphPhase; exact hx)
    intro y hy
    cases he : f e acc.2 with
    | none => rw [he] at hy; exact hacc y hy
    | some v =>
      rw [he] at hy
      dsimp only at hy
      rw [List.mem_append] at hy
      rcases hy with hy | hy
      · exact hacc y hy
      · rw [List.mem_singleton] at hy
        subst hy
        exact hf e acc.2 y he

/-- Every AP203/AP214 graphical dimension carries a position. -/
theorem posOf_extractGraphicalDimensions (doc : StepDoc) :
    ∀ d ∈ extractGraphicalDimensions doc, d.position.isSome = true := by
  unfold extractGraphicalDimensions
  intro d hd
  refine posOf_graphPhase _ _ (fun e i x he => posOf_extractDimFromTextLit e i x he) _ _ ?_ d hd
  refine posOf_graphPhase _ _ (fun e i x he => posOf_extractDimFromDraughting doc e i x he) _ _ ?_
  refine posOf_graphPhase _ _ (fun e i x he => posOf_extractDimFromText e i x he) _ _ ?_
  refine posOf_graphPhase _ _ (fun e i x he => posOf_extractFromAnnOcc doc e i x he) _ _ ?_
  intro x hx; cases hx

/-- A non-dimension graphical annotation carries a position. -/
theorem posOf_extractNonDimAnn (e : StepEntity) (i : Nat) (g : GraphOut)
    (h : extractNonDimAnn e i = some g) : g.position.isSome = true := by
  unfold extractNonDimAnn at h
  cases h1 : reSearchGo annOccTypeAt e.rawLine.data with
  | none => rw [h1] at h; cases h
  | some t =>
    rw [h1] at h
    dsimp only at h
    by_cases h2 : ["radial dimension", "linear dimension", "angular dimension",
        "diameter dimension"].contains (lowStr t) = true
    · rw [if_pos h2] at h; cases h
    · rw [if_neg h2] at h; cases h; rfl

/-- A curve or leader annotation carries a position. -/
theorem posOf_extractCurveOrLeader (gt : String) (e : StepEntity) (i : Nat) (g : GraphOut)
    (h : extractCurveOrLeader gt e i = some g) : g.position.isSome = true := by
  unfold extractCurveOrLeader at h
  cases h
  rfl

/-- Every AP203/AP214 graphical annotation carries a position. -/
theorem posOf_extractGraphicalAnnotations (doc : StepDoc) :
    ∀ g ∈ extractGraphicalAnnotations doc, g.position.isSome = true := by
  unfold extractGraphicalAnnotations
  intro g hg
  refine posOf_graphPhase _ _ (fun e i x he => posOf_extractCurveOrLeader "leader" e i x he) _ _ ?_ g hg
  refine posOf_graphPhase _ _ (fun e i x he => posOf_extractCurveOrLeader "curve" e i x he) _ _ ?_
  refine posOf_graphPhase _ _ (fun e i x he => posOf_extractNonDimAnn e i x he) _ _ ?_
  intro x hx; cases hx


/-- The presentation-linking pass only changes annotation planes, so positions survive it. -/
theorem posOf_linkDims (doc : StepDoc) (cache : List (PyVal × StepEntity))
    (planes : List (String × AnnotPlaneOut)) :
    ∀ (dims acc : List DimOut) (out : List DimOut),
      (∀ x ∈ acc, x.position.isSome = true) →
      (∀ x ∈ dims, x.position.isSome = true) →
      (dims.foldlM (fun acc dim => do
        let pres ← getPresentationForDim doc cache dim.id
        match pres with
        | some p =>
          match p.planeRef with
          | some pr =>
            match alistLookup planes pr with
            | some plane =>
              let d2 := { dim with
                annotPlane := some ⟨plane.origin, plane.normal, plane.writingDir⟩ }
              pure (acc ++ [d2])
            | Option.none => pure (acc ++ [dim])
          | Option.none => pure (acc ++ [dim])
        | Option.none => pure (acc ++ [dim])) acc) = Except.ok out →
      ∀ x ∈ out, x.position.isSome = true := by
  intro dims
  induction dims with
  | nil =>
    intro acc out hacc _ heq x hx
    simp only [List.foldlM_nil, pure, Except.pure] at heq
    cases heq
    exact hacc x hx
  | cons dim rest ih =>
    intro acc out hacc hdims heq x hx
    rw [List.foldlM_cons] at heq
    obtain ⟨b, hb, h2⟩ := exBind_ok _ _ _ heq
    obtain ⟨pres, _, h3⟩ := exBind_ok _ _ _ hb
    have hdim : dim.position.isSome = true := hdims dim (List.mem_cons_self _ _)
    have hrest : ∀ y ∈ rest, y.position.isSome = true :=
      fun y hy => hdims y (List.mem_cons_of_mem _ hy)
    have happ : ∀ (d2 : DimOut), d2.position.isSome = true →
        (∀ y ∈ acc ++ [d2], y.position.isSome = true) := by
      intro d2 hd2 y hy
      rw [List.mem_append] at hy
      rcases hy with hy | hy
      · exact hacc y hy
      · rw [List.mem_singleton] at hy; subst hy; exact hd2
    cases pres with
    | none =>
      simp only [pure, Except.pure] at h3
      cases h3
      exact ih _ out (happ dim hdim) hrest h2 x hx
    | some p =>
      dsimp only at h3
      cases hpr : p.planeRef with
      | none =>
        rw [hpr] at h3
        simp only [pure, Except.pure] at h3
        cases h3
        exact ih _ out (happ dim hdim) hrest h2 x hx
      | some pr =>
        rw [hpr] at h3
        dsimp only at h3
        cases hlk : alistLookup planes pr with
        | none =>
          rw [hlk] at h3
          simp only [pure, Except.pure] at h3
          cases h3
          exact ih _ out (happ dim hdim) hrest h2 x hx
        | some plane =>
          rw [hlk] at h3
          simp only [pure, Except.pure] at h3
          cases h3
          exact ih _ out (happ { dim with
            annotPlane := some ⟨plane.origin, plane.normal, plane.writingDir⟩ } hdim)
            hrest h2 x hx

/-- The dimension enrichment step appends exactly one item: the input one or one given a position. -/
theorem enrichDim_shape (doc : StepDoc) (dmias : List StepEntity)
    (acc : List DimOut × Nat) (dim : DimOut) :
    ∃ d2 n2, enrichDim doc dmias acc dim = (acc.1 ++ [d2], n2) ∧
      (d2 = dim ∨ d2.position.isSome = true) := by
  unfold enrichDim
  by_cases h1 : dim.id.isEmpty = true
  · exact ⟨dim, acc.2, by simp [h1], Or.inl rfl⟩
  · cases hc : extractPositionFromDmiaChain doc dim.id dmias with
    | none =>
      exact ⟨{ dim with position := some originPos, annotPlane := some defaultPlane },
        acc.2, by simp [h1, hc], Or.inr rfl⟩
    | some cp =>
      exact ⟨{ dim with position := some cp.position, annotPlane := some cp.plane },
        acc.2 + 1, by simp [h1, hc], Or.inr rfl⟩

/-- The tolerance enrichment step appends exactly one item: the input one or one given a position. -/
theorem enrichTol_shape (doc : StepDoc) (dmias : List StepEntity)
    (acc : List TolOut × Nat) (tol : TolOut) :
    ∃ d2 n2, enrichTol doc dmias acc tol = (acc.1 ++ [d2], n2) ∧
      (d2 = tol ∨ d2.position.isSome = true) := by
  unfold enrichTol
  by_cases h1 : tol.id.isEmpty = true
  · exact ⟨tol, acc.2, by simp [h1], Or.inl rfl⟩
  · cases hc : extractPositionFromDmiaChain doc tol.id dmias with
    | none =>
      exact ⟨{ tol with position := some originPos, annotPlane := some defaultPlane },
        acc.2, by simp [h1, hc], Or.inr rfl⟩
    | some cp =>
      exact ⟨{ tol with position := some cp.position, annotPlane := some cp.plane },
        acc.2 + 1, by simp [h1, hc], Or.inr rfl⟩

/-- The datum enrichment step appends exactly one item: the input one or one given a position. -/
theorem enrichDatum_shape (doc : StepDoc) (dmias : List StepEntity)
    (acc : List DatumOut × Nat) (datum : DatumOut) :
    ∃ d2 n2, enrichDatum doc dmias acc datum = (acc.1 ++ [d2], n2) ∧
      (d2 = datum ∨ d2.position.isSome = true) := by
  unfold enrichDatum
  by_cases h1 : datum.id.isEmpty = true
  · exact ⟨datum, acc.2, by simp [h1], Or.inl rfl⟩
  · cases hc : extractPositionFromDmiaChain doc datum.id dmias with
    | none =>
      exact ⟨{ datum with position := some originPos, annotPlane := some defaultPlane },
        acc.2, by simp [h1, hc], Or.inr rfl⟩
    | some cp =>
      exact ⟨{ datum with position := some cp.position, annotPlane := some cp.plane },
        acc.2 + 1, by simp [h1, hc], Or.inr rfl⟩

/-- The dimension coordinate-fallback step appends exactly one item: the input one or one given a position. -/
theorem fallbackDim_shape (coords : List (ℚ × ℚ × ℚ)) (acc : List DimOut × Nat)
    (dim : DimOut) :
    ∃ d2 n2, fallbackDim coords acc dim = (acc.1 ++ [d2], n2) ∧
      (d2 = dim ∨ d2.position.isSome = true) := by
  obtain ⟨l, n⟩ := acc
  rcases hco : coords.getD n (0, 0, 0) with ⟨x, y, z⟩
  unfold fallbackDim
  by_cases h1 : n < coords.length
  · refine ⟨{ dim with
      position := some ⟨x, y, z⟩,
      annotPlane := some ⟨[x, y, z], [0, 0, mkRat (-1) 1], [1, 0, 0]⟩ }, n + 1,
      ?_, Or.inr rfl⟩
    rw [List.getD_eq_getElem _ _ h1] at hco
    simp [h1, hco]
  · exact ⟨dim, n, by simp [h1], Or.inl rfl⟩

/-- The tolerance coordinate-fallback step appends exactly one item: the input one or one given a position. -/
theorem fallbackTol_shape (coords : List (ℚ × ℚ × ℚ)) (acc : List TolOut × Nat)
    (tol : TolOut) :
    ∃ d2 n2, fallbackTol coords acc tol = (acc.1 ++ [d2], n2) ∧
      (d2 = tol ∨ d2.position.isSome = true) := by
  obtain ⟨l, n⟩ := acc
  rcases hco : coords.getD n (0, 0, 0) with ⟨x, y, z⟩
  unfold fallbackTol
  by_cases h1 : n < coords.length
  · refine ⟨{ tol with
      position := some ⟨x, y, z⟩,
      annotPlane := some ⟨[x, y, z], [0, 0, mkRat (-1) 1], [1, 0, 0]⟩ }, n + 1,
      ?_, Or.inr rfl⟩
    rw [List.getD_eq_getElem _ _ h1] at hco
    simp [h1, hco]
  · exact ⟨tol, n, by simp [h1], Or.inl rfl⟩

/-- The datum coordinate-fallback step appends exactly one item: the input one or one given a position. -/
theorem fallbackDatum_shape (coords : List (ℚ × ℚ × ℚ)) (acc : List DatumOut × Nat)
    (datum : DatumOut) :
    ∃ d2 n2, fallbackDatum coords acc datum = (acc.1 ++ [d2], n2) ∧
      (d2 = datum ∨ d2.position.isSome = true) := by
  obtain ⟨l, n⟩ := acc
  rcases hco : coords.getD n (0, 0, 0) with ⟨x, y, z⟩
  unfold fallbackDatum
  by_cases h1 : n < coords.length
  · refine ⟨{ datum with
      position := some ⟨x, y, z⟩,
      annotPlane := some ⟨[x, y, z], [0, 0, mkRat (-1) 1], [1, 0, 0]⟩ }, n + 1,
      ?_, Or.inr rfl⟩
    rw [List.getD_eq_getElem _ _ h1] at hco
    simp [h1, hco]
  · exact ⟨datum, n, by simp [h1], Or.inl rfl⟩

/-- A fold of one-append steps preserves a per-item invariant and adds one output item per input item. -/
theorem fold_shape_all {β : Type} (p : β → Bool) (g : List β × Nat → β → List β × Nat)
    (hg : ∀ acc x, ∃ d2 n2, g acc x = (acc.1 ++ [d2], n2) ∧
      (d2 = x ∨ p d2 = true)) :
    ∀ (l : List β) (acc : List β × Nat),
      (∀ x ∈ acc.1, p x = true) → (∀ x ∈ l, p x = true) →
      (∀ x ∈ (l.foldl g acc).1, p x = true) ∧
      (l.foldl g acc).1.length = acc.1.length + l.length := by
  intro l
  induction l with
  | nil =>
    intro acc hacc _
    exact ⟨hacc, by simp⟩
  | cons b rest ih =>
    intro acc hacc hl
    rw [List.foldl_cons]
    obtain ⟨d2, n2, hshape, hp⟩ := hg acc b
    rw [hshape]
    have hacc2 : ∀ x ∈ acc.1 ++ [d2], p x = true := by
      intro x hx
      rw [List.mem_append] at hx
      rcases hx with hx | hx
      · exact hacc x hx
      · rw [List.mem_singleton] at hx
        subst hx
        rcases hp with hp | hp
        · exact hp ▸ hl b (List.mem_cons_self _ _)
        · exact hp
    have := ih (acc.1 ++ [d2], n2) hacc2 (fun x hx => hl x (List.mem_cons_of_mem _ hx))
    refine ⟨this.1, ?_⟩
    rw [this.2]
    simp [List.length_append]
    omega


/-- A fold of one-append steps yields exactly one output item per input item. -/
theorem fold_shape_len {β : Type} (g : List β × Nat → β → List β × Nat)
    (hg : ∀ acc x, ∃ d2 n2, g acc x = (acc.1 ++ [d2], n2)) :
    ∀ (l : List β) (acc : List β × Nat),
      (l.foldl g acc).1.length = acc.1.length + l.length := by
  intro l
  induction l with
  | nil => intro acc; simp
  | cons b rest ih =>
    intro acc
    rw [List.foldl_cons]
    obtain ⟨d2, n2, hshape⟩ := hg acc b
    rw [hshape, ih]
    simp [List.length_append]
    omega

/-- Position enrichment never adds or removes a PMI item: the three enriched lists keep their lengths and the other categories are untouched. -/
theorem getAnnotPositions_shape (content : String) (doc : StepDoc) (pmi : PMIRes) :
    (getAnnotPositions content doc pmi).dimensions.length = pmi.dimensions.length ∧
    (getAnnotPositions content doc pmi).geometricTolerances.length =
      pmi.geometricTolerances.length ∧
    (getAnnotPositions content doc pmi).datums.length = pmi.datums.length ∧
    (getAnnotPositions content doc pmi).surfaceFinishes = pmi.surfaceFinishes ∧
    (getAnnotPositions content doc pmi).weldSymbols = pmi.weldSymbols ∧
    (getAnnotPositions content doc pmi).graphicalPMI = pmi.graphicalPMI := by
  have hedim := fun (l : List DimOut) (acc : List DimOut × Nat) => fold_shape_len _
    (fun acc x => by
      obtain ⟨d2, n2, hs, _⟩ := enrichDim_shape doc
        (findEntities doc "DRAUGHTING_MODEL_ITEM_ASSOCIATION") acc x
      exact ⟨d2, n2, hs⟩) l acc
  have hetol := fun (l : List TolOut) (acc : List TolOut × Nat) => fold_shape_len _
    (fun acc x => by
      obtain ⟨d2, n2, hs, _⟩ := enrichTol_shape doc
        (findEntities doc "DRAUGHTING_MODEL_ITEM_ASSOCIATION") acc x
      exact ⟨d2, n2, hs⟩) l acc
  have hedat := fun (l : List DatumOut) (acc : List DatumOut × Nat) => fold_shape_len _
    (fun acc x => by
      obtain ⟨d2, n2, hs, _⟩ := enrichDatum_shape doc
        (findEntities doc "DRAUGHTING_MODEL_ITEM_ASSOCIATION") acc x
      exact ⟨d2, n2, hs⟩) l acc
  have hfdim := fun (coords : List (ℚ × ℚ × ℚ)) (l : List DimOut) (acc : List DimOut × Nat) =>
    fold_shape_len _
      (fun acc x => by
        obtain ⟨d2, n2, hs, _⟩ := fallbackDim_shape coords acc x
        exact ⟨d2, n2, hs⟩) l acc
  have hftol := fun (coords : List (ℚ × ℚ × ℚ)) (l : List TolOut) (acc : List TolOut × Nat) =>
    fold_shape_len _
      (fun acc x => by
        obtain ⟨d2, n2, hs, _⟩ := fallbackTol_shape coords acc x
        exact ⟨d2, n2, hs⟩) l acc
  have hfdat := fun (coords : List (ℚ × ℚ × ℚ)) (l : List DatumOut) (acc : List DatumOut × Nat) =>
    fold_shape_len _
      (fun acc x => by
        obtain ⟨d2, n2, hs, _⟩ := fallbackDatum_shape coords acc x
        exact ⟨d2, n2, hs⟩) l acc
  unfold getAnnotPositions
  cases hp : extractAnnotPlanes doc with
  | error e => exact ⟨rfl, rfl, rfl, rfl, rfl, rfl⟩
  | ok planesAssoc =>
    simp only []
    rcases hd2 : pmi.dimensions.foldl
        (enrichDim doc (findEntities doc "DRAUGHTING_MODEL_ITEM_ASSOCIATION")) ([], 0)
      with ⟨dims2, n1⟩
    rcases ht2 : pmi.geometricTolerances.foldl
        (enrichTol doc (findEntities doc "DRAUGHTING_MODEL_ITEM_ASSOCIATION")) ([], 0)
      with ⟨tols2, n2⟩
    rcases hda2 : pmi.datums.foldl
        (enrichDatum doc (findEntities doc "DRAUGHTING_MODEL_ITEM_ASSOCIATION")) ([], 0)
      with ⟨datums2, n3⟩
    have hlen1 : dims2.length = pmi.dimensions.length := by
      have h := hedim pmi.dimensions ([], 0)
      rw [hd2] at h
      simpa using h
    have hlen2 : tols2.length = pmi.geometricTolerances.length := by
      have h := hetol pmi.geometricTolerances ([], 0)
      rw [ht2] at h
      simpa using h
    have hlen3 : datums2.length = pmi.datums.length := by
      have h := hedat pmi.datums ([], 0)
      rw [hda2] at h
      simpa using h
    simp only []
    by_cases hpf : n1 + n2 + n3 = 0
    · rw [if_pos hpf]
      by_cases hpe : (getPmiPositions content).isEmpty = true
      · rw [if_pos hpe]
        exact ⟨hlen1, hlen2, hlen3, rfl, rfl, rfl⟩
      · rw [if_neg hpe]
        refine ⟨?_, ?_, ?_, rfl, rfl, rfl⟩
        · rw [hfdim]
          simpa using hlen1
        · rw [hftol]
          simpa using hlen2
        · rw [hfdat]
          simpa using hlen3
    · rw [if_neg hpf]
      exact ⟨hlen1, hlen2, hlen3, rfl, rfl, rfl⟩


/-- Position enrichment preserves the everything-has-a-position invariant. -/
theorem getAnnotPositions_posAll (content : String) (doc : StepDoc) (pmi : PMIRes)
    (h1 : ∀ x ∈ pmi.dimensions, x.position.isSome = true)
    (h2 : ∀ x ∈ pmi.geometricTolerances, x.position.isSome = true)
    (h3 : ∀ x ∈ pmi.datums, x.position.isSome = true) :
    (∀ x ∈ (getAnnotPositions content doc pmi).dimensions, x.position.isSome = true) ∧
    (∀ x ∈ (getAnnotPositions content doc pmi).geometricTolerances,
      x.position.isSome = true) ∧
    (∀ x ∈ (getAnnotPositions content doc pmi).datums, x.position.isSome = true) := by
  unfold getAnnotPositions
  cases hp : extractAnnotPlanes doc with
  | error e => exact ⟨h1, h2, h3⟩
  | ok planesAssoc =>
    simp only []
    rcases hd2 : pmi.dimensions.foldl
        (enrichDim doc (findEntities doc "DRAUGHTING_MODEL_ITEM_ASSOCIATION")) ([], 0)
      with ⟨dims2, n1⟩
    rcases ht2 : pmi.geometricTolerances.foldl
        (enrichTol doc (findEntities doc "DRAUGHTING_MODEL_ITEM_ASSOCIATION")) ([], 0)
      with ⟨tols2, n2⟩
    rcases hda2 : pmi.datums.foldl
        (enrichDatum doc (findEntities doc "DRAUGHTING_MODEL_ITEM_ASSOCIATION")) ([], 0)
      with ⟨datums2, n3⟩
    have hall1 : ∀ x ∈ dims2, x.position.isSome = true := by
      have h := (fold_shape_all (fun d => d.position.isSome)
        (enrichDim doc (findEntities doc "DRAUGHTING_MODEL_ITEM_ASSOCIATION"))
        (enrichDim_shape doc _) pmi.dimensions ([], 0)
        (by intro x hx; cases hx) h1).1
      rw [hd2] at h
      simpa using h
    have hall2 : ∀ x ∈ tols2, x.position.isSome = true := by
      have h := (fold_shape_all (fun d => d.position.isSome)
        (enrichTol doc (findEntities doc "DRAUGHTING_MODEL_ITEM_ASSOCIATION"))
        (enrichTol_shape doc _) pmi.geometricTolerances ([], 0)
        (by intro x hx; cases hx) h2).1
      rw [ht2] at h
      simpa using h
    have hall3 : ∀ x ∈ datums2, x.position.isSome = true := by
      have h := (fold_shape_all (fun d => d.position.isSome)
        (enrichDatum doc (findEntities doc "DRAUGHTING_MODEL_ITEM_ASSOCIATION"))
        (enrichDatum_shape doc _) pmi.datums ([], 0)
        (by intro x hx; cases hx) h3).1
      rw [hda2] at h
      simpa using h
    simp only []
    by_cases hpf : n1 + n2 + n3 = 0
    · rw [if_pos hpf]
      by_cases hpe : (getPmiPositions content).isEmpty = true
      · rw [if_pos hpe]
        exact ⟨hall1, hall2, hall3⟩
      · rw [if_neg hpe]
        refine ⟨?_, ?_, ?_⟩
        · exact (fold_shape_all (fun d => d.position.isSome)
            (fallbackDim ((getPmiPositions content).map (·.2)))
            (fallbackDim_shape _) dims2 ([], 0)
            (by intro x hx; cases hx) hall1).1
        · exact (fold_shape_all (fun d => d.position.isSome)
            (fallbackTol ((getPmiPositions content).map (·.2)))
            (fallbackTol_shape _) tols2 ([], _)
            (by intro x hx; cases hx) hall2).1
        · exact (fold_shape_all (fun d => d.position.isSome)
            (fallbackDatum ((getPmiPositions content).map (·.2)))
            (fallbackDatum_shape _) datums2 ([], _)
            (by intro x hx; cases hx) hall3).1
    · rw [if_neg hpf]
      exact ⟨hall1, hall2, hall3⟩


/-- After surface/weld extraction and position enrichment, every item of every category carries a position. -/
theorem posAll_afterAnnot (content : String) (doc : StepDoc) (pmi1 : PMIRes)
    (hd : ∀ x ∈ pmi1.dimensions, x.position.isSome = true)
    (ht : ∀ x ∈ pmi1.geometricTolerances, x.position.isSome = true)
    (hda : ∀ x ∈ pmi1.datums, x.position.isSome = true)
    (hg : ∀ x ∈ pmi1.graphicalPMI, x.position.isSome = true) :
    (∀ x ∈ (getAnnotPositions content doc { pmi1 with
      surfaceFinishes := extractSurfaceFinishes doc,
      weldSymbols := extractWeldSymbols doc }).dimensions, x.position.isSome = true) ∧
    (∀ x ∈ (getAnnotPositions content doc { pmi1 with
      surfaceFinishes := extractSurfaceFinishes doc,
      weldSymbols := extractWeldSymbols doc }).geometricTolerances,
      x.position.isSome = true) ∧
    (∀ x ∈ (getAnnotPositions content doc { pmi1 with
      surfaceFinishes := extractSurfaceFinishes doc,
      weldSymbols := extractWeldSymbols doc }).datums, x.position.isSome = true) ∧
    (∀ x ∈ (getAnnotPositions content doc { pmi1 with
      surfaceFinishes := extractSurfaceFinishes doc,
      weldSymbols := extractWeldSymbols doc }).surfaceFinishes,
      x.position.isSome = true) ∧
    (∀ x ∈ (getAnnotPositions content doc { pmi1 with
      surfaceFinishes := extractSurfaceFinishes doc,
      weldSymbols := extractWeldSymbols doc }).weldSymbols, x.position.isSome = true) ∧
    (∀ x ∈ (getAnnotPositions content doc { pmi1 with
      surfaceFinishes := extractSurfaceFinishes doc,
      weldSymbols := extractWeldSymbols doc }).graphicalPMI,
      x.position.isSome = true) := by
  have hshape := getAnnotPositions_shape content doc
    { pmi1 with
      surfaceFinishes := extractSurfaceFinishes doc,
      weldSymbols := extractWeldSymbols doc }
  have hpos := getAnnotPositions_posAll content doc
    { pmi1 with
      surfaceFinishes := extractSurfaceFinishes doc,
      weldSymbols := extractWeldSymbols doc } hd ht hda
  refine ⟨hpos.1, hpos.2.1, hpos.2.2, ?_, ?_, ?_⟩
  · intro x hx
    rw [hshape.2.2.2.1] at hx
    exact posOf_extractSurfaceFinishes doc x hx
  · intro x hx
    rw [hshape.2.2.2.2.1] at hx
    exact posOf_extractWeldSymbols doc x hx
  · intro x hx
    rw [hshape.2.2.2.2.2] at hx
    exact hg x hx

/-- Every successful `extract_all` result gives every PMI item a position. -/
theorem posAll_extractAll (content : String) (doc : StepDoc) (res : PMIRes)
    (h : extractAll content doc = Except.ok res) :
    (∀ x ∈ res.dimensions, x.position.isSome = true) ∧
    (∀ x ∈ res.geometricTolerances, x.position.isSome = true) ∧
    (∀ x ∈ res.datums, x.position.isSome = true) ∧
    (∀ x ∈ res.surfaceFinishes, x.position.isSome = true) ∧
    (∀ x ∈ res.weldSymbols, x.position.isSome = true) ∧
    (∀ x ∈ res.graphicalPMI, x.position.isSome = true) := by
  unfold extractAll at h
  simp only [] at h
  by_cases hleg : isAp203OrAp214 doc = true
  · rw [if_pos hleg] at h
    simp only [Bind.bind, Except.bind, pure, Except.pure] at h
    cases h
    have hp := posAll_afterAnnot content doc
      { version := "2.0", source := "text_parser",
        schema := if isAp203OrAp214 doc = true then "AP203/AP214" else "AP242",
        dimensions := extractGraphicalDimensions doc, geometricTolerances := [],
        datums := [], surfaceFinishes := [], weldSymbols := [], notes := [],
        graphicalPMI := extractGraphicalAnnotations doc,
        annotPlanes := Option.none, statistics := Option.none }
      (posOf_extractGraphicalDimensions doc)
      (by intro x hx; cases hx)
      (by intro x hx; cases hx)
      (posOf_extractGraphicalAnnotations doc)
    exact hp
  · rw [if_neg hleg] at h
    obtain ⟨planes, _, hb2⟩ := exBind_ok _ _ _ h
    obtain ⟨cache, _, hb3⟩ := exBind_ok _ _ _ hb2
    obtain ⟨dims2, hld, hb4⟩ := exBind_ok _ _ _ hb3
    simp only [Bind.bind, Except.bind, pure, Except.pure] at hb4
    cases hb4
    have hdims2 : ∀ x ∈ dims2, x.position.isSome = true := by
      intro x hx
      unfold linkDims at hld
      exact posOf_linkDims doc cache planes (extractDimensions doc) [] dims2
        (by intro y hy; cases hy) (posOf_extractDimensions doc) hld x hx
    have hp := posAll_afterAnnot content doc
      { version := "2.0", source := "text_parser",
        schema := if isAp203OrAp214 doc = true then "AP203/AP214" else "AP242",
        dimensions := dims2, geometricTolerances := extractTolerances doc,
        datums := extractDatums doc, surfaceFinishes := [], weldSymbols := [],
        notes := [], graphicalPMI := [],
        annotPlanes := some (planes.map (fun x => x.2)),
        statistics := Option.none }
      hdims2
      (posOf_extractTolerances doc)
      (posOf_extractDatums doc)
      (by intro x hx; cases hx)
    exact hp


/-- C9: in every successful extraction, every PMI item of every category (dimensions, geometric tolerances, datums, surface finishes, weld symbols, graphical annotations) carries a position - the enrichment defaults to the origin rather than dropping an item - and the enrichment pass never removes an item from any category. -/
theorem C9_positions_always_present :
    (∀ (content : String) (res : PMIRes), extract content = Except.ok res →
      (∀ x ∈ res.dimensions, x.position.isSome = true) ∧
      (∀ x ∈ res.geometricTolerances, x.position.isSome = true) ∧
      (∀ x ∈ res.datums, x.position.isSome = true) ∧
      (∀ x ∈ res.surfaceFinishes, x.position.isSome = true) ∧
      (∀ x ∈ res.weldSymbols, x.position.isSome = true) ∧
      (∀ x ∈ res.graphicalPMI, x.position.isSome = true)) ∧
    (∀ (content : String) (doc : StepDoc) (pmi : PMIRes),
      (getAnnotPositions content doc pmi).dimensions.length = pmi.dimensions.length ∧
      (getAnnotPositions content doc pmi).geometricTolerances.length =
        pmi.geometricTolerances.length ∧
      (getAnnotPositions content doc pmi).datums.length = pmi.datums.length ∧
      (getAnnotPositions content doc pmi).surfaceFinishes = pmi.surfaceFinishes ∧
      (getAnnotPositions content doc pmi).weldSymbols = pmi.weldSymbols ∧
      (getAnnotPositions content doc pmi).graphicalPMI = pmi.graphicalPMI) := by
  constructor
  · intro content res h
    unfold extract at h
    cases hs : stepParse content with
    | none => rw [hs] at h; cases h
    | some doc =>
      rw [hs] at h
      dsimp only at h
      cases hx : extractAll content doc with
      | error e => rw [hx] at h; cases h
      | ok r =>
        rw [hx] at h
        cases h
        exact posAll_extractAll content doc _ hx
  · intro content doc pmi
    exact getAnnotPositions_shape content doc pmi

set_option maxRecDepth 1000000 in
/-- C9 witness: the position theorem applied to a concrete two-item extraction, and the no-removal clause applied to its result. -/
theorem C9_positions_witness :
    extract w9content = Except.ok r9 ∧
    (∀ x ∈ r9.dimensions, x.position.isSome = true) ∧
    (getAnnotPositions w9content emptyDoc r9).dimensions.length =
      r9.dimensions.length :=
  ⟨by decide, (C9_positions_always_present.1 w9content r9 (by decide)).1,
    (C9_positions_always_present.2 w9content emptyDoc r9).1⟩

end Eryxon
